import Mathlib

/-!
# Advisory validation (`pkg/advisory/validate.go`)

A shallow embedding of the advisory validation passes of wolfictl, of the lint
result types (`pkg/lint/types.go`) and of the diff engine as the specification
describes it, and the properties of these stated over the embedding.

Modelling conventions.

* A Go `error` value is an `Option Err`: `none` is `nil`.
* `time.Time` is an integer number of nanoseconds on the wall clock,
  `time.Duration` is a 64-bit signed number of nanoseconds, and `Time.Sub`
  saturates as in the Go standard library.
* A Go `map[string]V` is a lookup function `String → Option V`.
* `fmt.Errorf` keeps its format string and its arguments unrendered.
* A loop that can return early yields an `Except`: the error is the value
  returned at once. The alias pass also yields the list of the calls it made
  to the alias finder.
* Code declared outside the sources at hand is a parameter (`doc.Validate`,
  `IndexDiff` inside `Validate`) or a definition marked as modelled from the
  specification.
-/

namespace Wolfictl

/-! ## Errors -/

/-- An argument handed to `fmt.Errorf`. -/
inductive Arg where
  | str (s : String)
  | int (n : Int)
  | time (t : Int)
  deriving DecidableEq, Repr

/-- A non-nil Go error, as built by this package. -/
inductive Err where
  /-- `errors.New(msg)` -/
  | new (msg : String)
  /-- `fmt.Errorf(format, args...)`, no `%w` verb -/
  | errorf (format : String) (args : List Arg)
  /-- `fmt.Errorf(format, args..., err)` whose last verb is `%w` -/
  | wrapf (format : String) (args : List Arg) (err : Err)
  /-- the labelled error of `errorhelpers.LabelError` -/
  | labeled (label : String) (err : Err)
  /-- the joined error of `errors.Join` -/
  | joined (errs : List Err)
  deriving Repr

/-- Go's `errors.Join`: nil values are discarded, and the result is nil when
nothing is left. -/
def errorsJoin (errs : List (Option Err)) : Option Err :=
  match errs.filterMap id with
  | [] => none
  | es => some (Err.joined es)

/-- Modelled from the spec: `errorhelpers.LabelError`, whose source file
(`pkg/internal/errorhelpers`) is not part of the sources at hand. The report is
a hierarchy whose nodes are labelled by their identity, and a node without a
failure below it is no failure: a nil error stays nil. -/
def LabelError (label : String) (err : Option Err) : Option Err :=
  match err with
  | none => none
  | some e => some (Err.labeled label e)

/-- One reported failure: the labels on the way down to it, outermost first,
and the error at the end of the way. -/
structure Leaf where
  path : List String
  err : Err
  deriving Repr

/-- The failure, seen from one label further up. -/
def Leaf.under (label : String) (l : Leaf) : Leaf := ⟨label :: l.path, l.err⟩

mutual
/-- The failures an error reports, in order: labels are collected on the way
down, joins are flattened. -/
def Err.leaves : Err → List Leaf
  | Err.new msg => [⟨[], Err.new msg⟩]
  | Err.errorf format args => [⟨[], Err.errorf format args⟩]
  | Err.wrapf format args err => [⟨[], Err.wrapf format args err⟩]
  | Err.labeled label err =>
      (Err.leaves err).map (Leaf.under label)
  | Err.joined errs => Err.leavesList errs
/-- The failures of a list of errors, concatenated. -/
def Err.leavesList : List Err → List Leaf
  | [] => []
  | e :: es => Err.leaves e ++ Err.leavesList es
end

/-- The failures reported by a Go `error`; `nil` reports none. -/
def reported (err : Option Err) : List Leaf :=
  match err with
  | none => []
  | some e => e.leaves

/-! ## Time -/

/-- Largest `time.Duration`, in nanoseconds. -/
def maxDuration : Int := 2 ^ 63 - 1

/-- Smallest `time.Duration`, in nanoseconds. -/
def minDuration : Int := -(2 ^ 63)

/-- Go's `Time.Sub`: the duration `t - u`, saturated to the range of
`time.Duration`. -/
def timeSub (t u : Int) : Int :=
  if t - u > maxDuration then maxDuration
  else if t - u < minDuration then minDuration
  else t - u

/-- `time.Hour`, in nanoseconds. -/
def hour : Int := 3600 * 1000000000

/-! ## Data model -/

/-- Modelled from the spec: the `package` section of a document or of a build
configuration, declared outside `validate.go`; only the name is read. -/
structure Package where
  Name : String
  deriving DecidableEq, Repr

/-- Modelled from the spec: the type-specific payload of an event
(`event.Data`), declared in `pkg/configs/advisory/v2`: a `v2.Fixed` value, which
carries a fixed-version string, or a value of some other type. -/
inductive EventData where
  | fixed (FixedVersion : String)
  | other
  deriving DecidableEq, Repr

/-- Modelled from the spec: `v2.Event`, declared in `pkg/configs/advisory/v2`:
a timestamp, an event type and the type-specific payload. -/
structure Event where
  Timestamp : Int
  Type_ : String
  Data : EventData
  deriving DecidableEq, Repr

/-- Modelled from the spec: `v2.Advisory`, declared in
`pkg/configs/advisory/v2`: the advisory ID, the alias IDs and the events in
authoring order. -/
structure Advisory where
  ID : String
  Aliases : List String
  Events : List Event
  deriving DecidableEq, Repr

/-- Modelled from the spec: `v2.Document`, declared in
`pkg/configs/advisory/v2`: the package and the advisories in order. -/
structure Document where
  Package : Package
  Advisories : List Advisory
  deriving DecidableEq, Repr

/-- Modelled from the spec: `Document.Name`, declared in
`pkg/configs/advisory/v2`: the identity of a document is its package name. -/
def Document.Name (doc : Document) : String := doc.Package.Name

/-- Modelled from the spec: an entry of `configs.Index[v2.Document]`, declared
in `pkg/configs`: a path and the document stored there. An index is the list of
its entries, and `Select()` without argument selects all of them in order. -/
structure Entry where
  Path : String
  Configuration : Document
  deriving DecidableEq, Repr

/-- The `config.Configuration` of a distro package (melange library), of
which only the package name is read. -/
structure Configuration where
  Package : Package
  deriving DecidableEq, Repr

/-- The `apk.Package` of the published index (apko library), of which name
and version are read. -/
structure ApkPackage where
  Name : String
  Version : String
  deriving DecidableEq, Repr

/-- Modelled from the spec: `AdvisoryDiffResult`, declared in the diff engine
of this package: a modified advisory, with the events present in the current
snapshot only and those present in the baseline only. -/
structure AdvisoryDiffResult where
  ID : String
  AddedEvents : List Event
  RemovedEvents : List Event
  deriving DecidableEq, Repr

/-- Modelled from the spec: the diff of one modified document, declared in the
diff engine of this package: its name and its added, removed and modified
advisories. -/
structure DocumentDiffResult where
  Name : String
  Added : List Advisory
  Removed : List Advisory
  Modified : List AdvisoryDiffResult
  deriving DecidableEq, Repr

/-- Modelled from the spec: `IndexDiffResult`, declared in the diff engine of
this package: the added, removed and modified documents. -/
structure IndexDiffResult where
  Added : List Document
  Removed : List Document
  Modified : List DocumentDiffResult
  deriving DecidableEq, Repr

/-- Modelled from the spec: the `AliasFinder` interface, declared outside
`validate.go`: each lookup gives its result or fails with an error. -/
structure AliasFinder where
  GHSAsForCVE : String → Except Err (List String)
  CVEForGHSA : String → Except Err String

/-- A Go `map[string]V`. -/
abbrev GoMap (V : Type) := String → Option V

/-- `make(map[string]V)`. -/
def GoMap.empty {V : Type} : GoMap V := fun _ => none

/-- The assignment `m[k] = v`. -/
def GoMap.set {V : Type} (m : GoMap V) (k : String) (v : V) : GoMap V :=
  fun k' => if k' = k then some v else m k'

/-- The second result of `_, ok := m[k]`. -/
def GoMap.has {V : Type} (m : GoMap V) (k : String) : Bool := (m k).isSome

/-- `ValidateOptions`. A nil pointer or interface is `none`; the set
`SelectedPackages` is the list of its members. -/
structure ValidateOptions where
  AdvisoryDocs : List Entry
  BaseAdvisoryDocs : Option (List Entry)
  SelectedPackages : List String
  Now : Int
  AliasFinder : Option AliasFinder
  PackageConfigurations : Option (List Configuration)
  distroPackageMap : GoMap Configuration
  APKIndex : Option (List ApkPackage)
  apkIndexPackageMap : GoMap (List ApkPackage)

/-- The guard repeated in every pass, `len(opts.SelectedPackages) > 0` and the
name is not a member: the package is skipped. -/
def ValidateOptions.skips (opts : ValidateOptions) (name : String) : Bool :=
  decide (opts.SelectedPackages.length > 0) && !(opts.SelectedPackages.contains name)

/-! ## Package maps -/

/-- `createDistroPackageMap`. -/
def ValidateOptions.createDistroPackageMap (opts : ValidateOptions) : GoMap Configuration :=
  match opts.PackageConfigurations with
  | none => GoMap.empty
  | some cfgs => cfgs.foldl (fun pkgMap cfg => pkgMap.set cfg.Package.Name cfg) GoMap.empty

/-- `createAPKIndexPackageMap`. -/
def ValidateOptions.createAPKIndexPackageMap (opts : ValidateOptions) : GoMap (List ApkPackage) :=
  match opts.APKIndex with
  | none => GoMap.empty
  | some pkgs =>
      pkgs.foldl (fun pkgMap pkg => pkgMap.set pkg.Name ((pkgMap pkg.Name).getD [] ++ [pkg]))
        GoMap.empty

/-- The first two statements of `Validate`: both maps are computed from the
datasets before any pass runs. -/
def ValidateOptions.withPackageMaps (opts : ValidateOptions) : ValidateOptions :=
  { opts with
    distroPackageMap := opts.createDistroPackageMap
    apkIndexPackageMap := opts.createAPKIndexPackageMap }

/-! ## Recency -/

/-- The constant `eventMaxValidAgeInDays`. -/
def eventMaxValidAgeInDays : Int := 3

/-- `isRecent`. -/
def ValidateOptions.isRecent (opts : ValidateOptions) (t : Int) : Bool :=
  let maxAge := eventMaxValidAgeInDays * 24 * hour
  decide (timeSub opts.Now t < maxAge)

/-- `validateRecency`. -/
def ValidateOptions.validateRecency (opts : ValidateOptions) (event : Event) : Option Err :=
  if !opts.isRecent event.Timestamp then
    some (Err.errorf
      "event's timestamp (%s) set to more than %d days ago; timestamps should accurately capture event creation time"
      [Arg.time event.Timestamp, Arg.int eventMaxValidAgeInDays])
  else none

/-! ## Package linkage -/

/-- `validateBuildConfigurationExistence`. -/
def ValidateOptions.validateBuildConfigurationExistence (opts : ValidateOptions)
    (pkgName : String) : Option Err :=
  if opts.PackageConfigurations.isNone then none
  else if opts.skips pkgName then none
  else if !opts.distroPackageMap.has pkgName then
    if opts.apkIndexPackageMap.has pkgName then none
    else some (Err.new "package build configuration not found in the distro")
  else none

/-- `validateBuildConfigurationOrAPKIndexEntryExistence`. -/
def ValidateOptions.validateBuildConfigurationOrAPKIndexEntryExistence (opts : ValidateOptions)
    (pkgName : String) : Option Err :=
  if opts.PackageConfigurations.isNone || opts.APKIndex.isNone then none
  else if opts.skips pkgName then none
  else if !opts.distroPackageMap.has pkgName then
    if !opts.apkIndexPackageMap.has pkgName then
      some (Err.new
        "package not found as a build configuration in the distro or as an entry in the APKINDEX")
    else none
  else none

/-! ## Diff policy -/

/-- The label `fmt.Sprintf("event %d (just added)", i+1)`. -/
def justAddedLabel (i : Nat) : String := "event " ++ toString (i + 1) ++ " (just added)"

/-- The loop over events that is run on every added advisory and on the added
events of a modified one: each event's recency error under its label. -/
def ValidateOptions.justAddedErrs (opts : ValidateOptions) (events : List Event) :
    List (Option Err) :=
  events.enum.map (fun ie => LabelError (justAddedLabel ie.1) (opts.validateRecency ie.2))

/-- The body of the loop over `documentAdvisories.Modified` in
`validateIndexDiff`: the error appended to `docErrs` for one advisory. -/
def ValidateOptions.modifiedAdvisoryErr (opts : ValidateOptions) (adv : AdvisoryDiffResult) :
    Option Err :=
  let advErrs : List (Option Err) :=
    if adv.RemovedEvents.length > 0 then
      if adv.AddedEvents.length > 0 then
        [some (Err.errorf "one or more events were modified or removed" [])]
      else
        [some (Err.new "one or more events were removed")]
    else []
  let advErrs := advErrs ++ opts.justAddedErrs adv.AddedEvents
  LabelError adv.ID (errorsJoin advErrs)

/-- The body of the loops over `documentAdvisories.Added` and over the
advisories of an added document: the error appended to `docErrs`. -/
def ValidateOptions.addedAdvisoryErr (opts : ValidateOptions) (adv : Advisory) : Option Err :=
  LabelError adv.ID (errorsJoin (opts.justAddedErrs adv.Events))

/-- The body of the loop over `diff.Modified` in `validateIndexDiff`, for a
document that is not skipped: the error appended to `errs`. -/
def ValidateOptions.modifiedDocumentErr (opts : ValidateOptions)
    (documentAdvisories : DocumentDiffResult) : Option Err :=
  let docErrs : List (Option Err) :=
    [opts.validateBuildConfigurationOrAPKIndexEntryExistence documentAdvisories.Name]
  let advsRemovedErrs := documentAdvisories.Removed.map
    (fun adv => LabelError adv.ID (some (Err.new "advisory was removed")))
  let docErrs := docErrs ++ advsRemovedErrs
  let docErrs := docErrs ++ documentAdvisories.Modified.map opts.modifiedAdvisoryErr
  let docErrs := docErrs ++
    (documentAdvisories.Added.filter (fun _ => !opts.skips documentAdvisories.Name)).map
      opts.addedAdvisoryErr
  LabelError documentAdvisories.Name (errorsJoin docErrs)

/-- The body of the loop over `diff.Added` in `validateIndexDiff`, for a
document that is not skipped: the error appended to `errs`. -/
def ValidateOptions.addedDocumentErr (opts : ValidateOptions) (doc : Document) : Option Err :=
  let docErrs : List (Option Err) := [opts.validateBuildConfigurationExistence doc.Name]
  let docErrs := docErrs ++ doc.Advisories.map opts.addedAdvisoryErr
  LabelError doc.Name (errorsJoin docErrs)

/-- `validateIndexDiff`. -/
def ValidateOptions.validateIndexDiff (opts : ValidateOptions) (diff : IndexDiffResult) :
    Option Err :=
  let docRemovedErrs := diff.Removed.map (fun doc =>
    if opts.skips doc.Name then none
    else LabelError doc.Name (some (Err.new "document was removed")))
  let errs : List (Option Err) := docRemovedErrs
  let errs := errs ++
    (diff.Modified.filter (fun d => !opts.skips d.Name)).map opts.modifiedDocumentErr
  let errs := errs ++
    (diff.Added.filter (fun d => !opts.skips d.Name)).map opts.addedDocumentErr
  LabelError "invalid change(s) in diff" (errorsJoin errs)

/-! ## Uniqueness of advisory IDs -/

/-- The error appended by `validateAdvisoryIDUniqueness` on a repeated ID:
the ID, the path of the current entry, and `strings.Join(seen[adv.ID], ", ")`. -/
def duplicateIDErr (id p : String) (seenPaths : List String) : Err :=
  Err.errorf "duplicate advisory ID %q (found in %s, but already seen in: %s)"
    [Arg.str id, Arg.str p, Arg.str (String.intercalate ", " seenPaths)]

/-- The body of the loop over `cfg.Advisories` in `validateAdvisoryIDUniqueness`,
on the state made of the map `seen` and the slice `errs`. -/
def uniquenessStep (p : String) (st : GoMap (List String) × List (Option Err))
    (adv : Advisory) : GoMap (List String) × List (Option Err) :=
  let seen := st.1
  let errs := st.2
  let errs :=
    if seen.has adv.ID then
      errs ++ [some (duplicateIDErr adv.ID p ((seen adv.ID).getD []))]
    else errs
  (seen.set adv.ID ((seen adv.ID).getD [] ++ [p]), errs)

/-- The body of the loop over the entries in `validateAdvisoryIDUniqueness`. -/
def ValidateOptions.uniquenessEntryStep (opts : ValidateOptions)
    (st : GoMap (List String) × List (Option Err)) (e : Entry) :
    GoMap (List String) × List (Option Err) :=
  let cfg := e.Configuration
  if opts.skips cfg.Package.Name then st
  else cfg.Advisories.foldl (uniquenessStep e.Path) st

/-- `validateAdvisoryIDUniqueness`. -/
def ValidateOptions.validateAdvisoryIDUniqueness (opts : ValidateOptions) : Option Err :=
  let st := opts.AdvisoryDocs.foldl opts.uniquenessEntryStep (GoMap.empty, [])
  errorsJoin st.2

/-! ## Document names -/

/-- Go's `strings.TrimSuffix`. -/
def trimSuffix (s suffix : String) : String :=
  if suffix.data.isSuffixOf s.data then
    String.mk (s.data.take (s.data.length - suffix.data.length))
  else s

/-- `validateDocumentNameMatchesPackageName`. -/
def ValidateOptions.validateDocumentNameMatchesPackageName (opts : ValidateOptions) :
    Option Err :=
  let errs : List (Option Err) := opts.AdvisoryDocs.foldl (fun errs e =>
    if e.Path ≠ e.Configuration.Package.Name ++ ".advisories.yaml" then
      errs ++ [some (Err.errorf "document file name %q does not match package name %q"
        [Arg.str (trimSuffix e.Path ".advisories.yaml"),
         Arg.str e.Configuration.Package.Name])]
    else errs) []
  errorsJoin errs

/-! ## Fixed versions -/

/-- Modelled from the spec: the constant `v2.EventTypeFixed`, declared in
`pkg/configs/advisory/v2`: the type of the events that name a fixed version
is "fixed". -/
def EventTypeFixed : String := "fixed"

/-- `validatePackageVersionExistsInAPKINDEX`. -/
def ValidateOptions.validatePackageVersionExistsInAPKINDEX (opts : ValidateOptions)
    (pkgName version : String) : Option Err :=
  if opts.APKIndex.isNone then none
  else if opts.skips pkgName then none
  else if !opts.apkIndexPackageMap.has pkgName then
    some (Err.new "package not found in APKINDEX")
  else if ((opts.apkIndexPackageMap pkgName).getD []).any (fun pkg => pkg.Version == version) then
    none
  else some (Err.errorf "package version %q not found in APKINDEX" [Arg.str version])

/-- The label `fmt.Sprintf("event %d (type: %s)", i+1, event.Type)`. -/
def eventLabel (i : Nat) (eventType : String) : String :=
  "event " ++ toString (i + 1) ++ " (type: " ++ eventType ++ ")"

/-- The body of the loop over `adv.Events` in `validateFixedVersions`: what is
appended to `advErrs` for the event at index `i`; nothing for an event that is
not of type fixed. -/
def ValidateOptions.fixedEventErrs (opts : ValidateOptions) (docName : String)
    (ie : Nat × Event) : List (Option Err) :=
  if ie.2.Type_ ≠ EventTypeFixed then []
  else
    match ie.2.Data with
    | EventData.other => [some (Err.errorf "event data is not of type Fixed" [])]
    | EventData.fixed fixedVersion =>
        let eventErrs := [opts.validatePackageVersionExistsInAPKINDEX docName fixedVersion]
        [LabelError (eventLabel ie.1 ie.2.Type_) (errorsJoin eventErrs)]

/-- The body of the loop over `doc.Advisories` in `validateFixedVersions`. -/
def ValidateOptions.fixedAdvisoryErr (opts : ValidateOptions) (docName : String)
    (adv : Advisory) : Option Err :=
  LabelError adv.ID (errorsJoin (adv.Events.enum.flatMap (opts.fixedEventErrs docName)))

/-- The body of the loop over the documents in `validateFixedVersions`, for a
document that is not skipped. -/
def ValidateOptions.fixedDocumentErr (opts : ValidateOptions) (doc : Document) : Option Err :=
  LabelError doc.Name (errorsJoin (doc.Advisories.map (opts.fixedAdvisoryErr doc.Name)))

/-- `validateFixedVersions`. -/
def ValidateOptions.validateFixedVersions (opts : ValidateOptions) : Option Err :=
  if opts.APKIndex.isNone then none
  else
    let documents := opts.AdvisoryDocs.map (fun e => e.Configuration)
    let errs := (documents.filter (fun doc => !opts.skips doc.Name)).map opts.fixedDocumentErr
    LabelError "fixed version validation failure(s)" (errorsJoin errs)

/-! ## Alias set completeness -/

/-- Go's `strings.HasPrefix`. -/
def hasPrefix (s pre : String) : Bool := pre.data.isPrefixOf s.data

/-- A call of the alias finder. -/
inductive Query where
  | GHSAsForCVE (id : String)
  | CVEForGHSA (id : String)
  deriving DecidableEq, Repr

/-- What a part of the alias pass leaves behind: the calls of the alias finder
it made, in order, and either the value it computed or the error with which
the pass returns at once. -/
structure AliasRun (α : Type) where
  queries : List Query
  result : Except Err α

/-- The body of the loop over `doc.Advisories` in `validateAliasSetCompleteness`:
the labelled error appended to `docErrs`, or the error returned at once when
the lookup fails. -/
def aliasAdvisory (finder : AliasFinder) (adv : Advisory) : AliasRun (Option Err) :=
  if hasPrefix adv.ID "CVE-" then
    match finder.GHSAsForCVE adv.ID with
    | Except.error err =>
        { queries := [Query.GHSAsForCVE adv.ID]
          result := Except.error
            (Err.wrapf "failed to query GHSA aliases for CVE %q: %w" [Arg.str adv.ID] err) }
    | Except.ok ghsas =>
        let advErrs := (ghsas.filter (fun ghsa => !adv.Aliases.contains ghsa)).map
          (fun ghsa => some (Err.errorf "missing GHSA alias %q from set [%s]"
            [Arg.str ghsa, Arg.str (String.intercalate ", " adv.Aliases)]))
        { queries := [Query.GHSAsForCVE adv.ID]
          result := Except.ok (LabelError adv.ID (errorsJoin advErrs)) }
  else if hasPrefix adv.ID "GHSA-" then
    match finder.CVEForGHSA adv.ID with
    | Except.error err =>
        { queries := [Query.CVEForGHSA adv.ID]
          result := Except.error
            (Err.wrapf "failed to query CVE alias for GHSA %q: %w" [Arg.str adv.ID] err) }
    | Except.ok cve =>
        let advErrs :=
          if cve ≠ "" then
            [some (Err.errorf "%q should be listed as an alias, and %q should be the advisory ID"
              [Arg.str adv.ID, Arg.str cve])]
          else []
        { queries := [Query.CVEForGHSA adv.ID]
          result := Except.ok (LabelError adv.ID (errorsJoin advErrs)) }
  else
    { queries := [], result := Except.ok (LabelError adv.ID (errorsJoin [])) }

/-- The loop over `doc.Advisories` in `validateAliasSetCompleteness`: the slice
`docErrs`, unless a lookup fails, which ends the loop and the pass. -/
def aliasAdvisories (finder : AliasFinder) : List Advisory → AliasRun (List (Option Err))
  | [] => { queries := [], result := Except.ok [] }
  | adv :: rest =>
      let first := aliasAdvisory finder adv
      match first.result with
      | Except.error err => { queries := first.queries, result := Except.error err }
      | Except.ok advErr =>
          let others := aliasAdvisories finder rest
          { queries := first.queries ++ others.queries
            result :=
              match others.result with
              | Except.error err => Except.error err
              | Except.ok docErrs => Except.ok (advErr :: docErrs) }

/-- The loop over the documents in `validateAliasSetCompleteness`: the slice
`errs`, unless a lookup fails, which ends the loop and the pass. -/
def ValidateOptions.aliasDocuments (opts : ValidateOptions)
    (finder : Wolfictl.AliasFinder) :
    List Document → AliasRun (List (Option Err))
  | [] => { queries := [], result := Except.ok [] }
  | doc :: rest =>
      if opts.skips doc.Name then opts.aliasDocuments finder rest
      else
        let first := aliasAdvisories finder doc.Advisories
        match first.result with
        | Except.error err => { queries := first.queries, result := Except.error err }
        | Except.ok docErrs =>
            let others := opts.aliasDocuments finder rest
            { queries := first.queries ++ others.queries
              result :=
                match others.result with
                | Except.error err => Except.error err
                | Except.ok errs =>
                    Except.ok (LabelError doc.Name (errorsJoin docErrs) :: errs) }

/-- The run of `validateAliasSetCompleteness` with the alias finder `finder`
(`opts.AliasFinder`, which is not nil when the pass is called): the calls made
and the loop's outcome. -/
def ValidateOptions.aliasRun (opts : ValidateOptions) (finder : Wolfictl.AliasFinder) :
    AliasRun (List (Option Err)) :=
  opts.aliasDocuments finder (opts.AdvisoryDocs.map (fun e => e.Configuration))

/-- `validateAliasSetCompleteness`: the error it returns. -/
def ValidateOptions.validateAliasSetCompleteness (opts : ValidateOptions)
    (finder : Wolfictl.AliasFinder) : Option Err :=
  match (opts.aliasRun finder).result with
  | Except.error err => some err
  | Except.ok errs => LabelError "alias set completeness validation failure(s)" (errorsJoin errs)

/-! ## Validate -/

/-- `validateDocument`. The document's own check `doc.Validate()` is declared
in `pkg/configs/advisory/v2` and is taken as the parameter `docValidate`. -/
def ValidateOptions.validateDocument (opts : ValidateOptions)
    (docValidate : Document → Option Err) (doc : Document) : Option Err :=
  if opts.skips doc.Name then none
  else docValidate doc

/-- `Validate`. The document's own check `doc.Validate()` and the diff engine
`IndexDiff` are declared outside `validate.go` and are taken as the parameters
`docValidate` and `indexDiff`. -/
def Validate (docValidate : Document → Option Err)
    (indexDiff : List Entry → List Entry → IndexDiffResult) (opts : ValidateOptions) :
    Option Err :=
  let opts := opts.withPackageMaps
  let documentErrs :=
    (opts.AdvisoryDocs.map (fun e => e.Configuration)).map (opts.validateDocument docValidate)
  let errs : List (Option Err) :=
    [ LabelError "basic validation failure(s)" (errorsJoin documentErrs),
      LabelError "document file name validation failure(s)"
        opts.validateDocumentNameMatchesPackageName,
      LabelError "advisory ID uniqueness validation failure(s)"
        opts.validateAdvisoryIDUniqueness ]
  let errs :=
    match opts.BaseAdvisoryDocs with
    | some base => errs ++ [opts.validateIndexDiff (indexDiff base opts.AdvisoryDocs)]
    | none => errs
  let errs :=
    if opts.APKIndex.isSome then errs ++ [opts.validateFixedVersions]
    else errs
  let errs :=
    match opts.AliasFinder with
    | some finder => errs ++ [opts.validateAliasSetCompleteness finder]
    | none => errs
  errorsJoin errs

/-! ## Lint results (`pkg/lint/types.go`) -/

/-- `lint.Severity`. -/
structure Severity where
  Name : String
  Value : Int
  deriving DecidableEq, Repr

/-- `lint.Rule`, without its two function fields, which are not read here. -/
structure Rule where
  Name : String
  Description : String
  Severity : Severity
  deriving DecidableEq, Repr

/-- `lint.EvalRuleError`. -/
structure EvalRuleError where
  Rule : Rule
  Error : Option Err

/-- `lint.EvalResult`; `Errors` is an `EvalRuleErrors`. -/
structure EvalResult where
  File : String
  Errors : List EvalRuleError

/-- `EvalRuleErrors.WrapErrors`. -/
def WrapErrors (e : List EvalRuleError) : Option Err :=
  let errs : List (Option Err) := e.foldl (fun errs e => errs ++ [e.Error]) []
  errorsJoin errs

/-- `Result.HasErrors`. -/
def HasErrors : List EvalResult → Bool
  | [] => false
  | res :: rest => if (WrapErrors res.Errors).isSome then true else HasErrors rest

/-! ## Diff engine -/

/-- Modelled from the spec: the identity keys of a list of advisories, each
once, in order of first appearance; the identity of an advisory is its ID. -/
def advisoryIDs (advs : List Advisory) : List String :=
  (advs.map (fun adv => adv.ID)).eraseDups

/-- Modelled from the spec: the advisory with the given identity key. -/
def advisoryFor (advs : List Advisory) (id : String) : Option Advisory :=
  advs.find? (fun adv => adv.ID == id)

/-- Modelled from the spec: the event-level diff of a modified advisory, which
the diff engine (not among the sources at hand) computes as two set
differences by full value equality: the events present in the current
advisory but absent from the baseline one, and the converse. -/
def diffAdvisory (baseline current : Advisory) : AdvisoryDiffResult :=
  { ID := current.ID
    AddedEvents := current.Events.filter (fun e => !baseline.Events.contains e)
    RemovedEvents := baseline.Events.filter (fun e => !current.Events.contains e) }

/-- Modelled from the spec: the advisory-level diff of a document that is not
deep-equal to its baseline counterpart, computed by the diff engine (not among
the sources at hand): the advisories are partitioned by advisory ID into
baseline-only (removed), current-only (added) and present in both, and an
advisory present in both is modified unless it is deep-equal to its
counterpart. -/
def diffDocument (name : String) (baseline current : Document) : DocumentDiffResult :=
  let baseIDs := advisoryIDs baseline.Advisories
  let curIDs := advisoryIDs current.Advisories
  { Name := name
    Added := (curIDs.filter (fun id => !baseIDs.contains id)).filterMap
      (advisoryFor current.Advisories)
    Removed := (baseIDs.filter (fun id => !curIDs.contains id)).filterMap
      (advisoryFor baseline.Advisories)
    Modified := (curIDs.filter (fun id => baseIDs.contains id)).filterMap (fun id =>
      match advisoryFor baseline.Advisories id, advisoryFor current.Advisories id with
      | some b, some c => if b = c then none else some (diffAdvisory b c)
      | _, _ => none) }

/-- Modelled from the spec: the identity keys of a snapshot, each once, in
order of first appearance; the identity of a document is its package name. -/
def snapshotNames (snapshot : List Entry) : List String :=
  (snapshot.map (fun e => e.Configuration.Name)).eraseDups

/-- Modelled from the spec: the document of a snapshot with the given identity
key. -/
def snapshotDocument (snapshot : List Entry) (name : String) : Option Document :=
  (snapshot.map (fun e => e.Configuration)).find? (fun doc => doc.Name == name)

/-- Modelled from the spec: `IndexDiff`, the diff engine, whose source file is
not among the sources at hand. The documents are partitioned by identity key
(package name) into baseline-only (removed), current-only (added) and present
in both; a document present in both contributes nothing when it is deep-equal
to its baseline counterpart, and its advisory-level diff otherwise. -/
def IndexDiff (baseline current : List Entry) : IndexDiffResult :=
  let baseNames := snapshotNames baseline
  let curNames := snapshotNames current
  { Added := (curNames.filter (fun n => !baseNames.contains n)).filterMap
      (snapshotDocument current)
    Removed := (baseNames.filter (fun n => !curNames.contains n)).filterMap
      (snapshotDocument baseline)
    Modified := (curNames.filter (fun n => baseNames.contains n)).filterMap (fun n =>
      match snapshotDocument baseline n, snapshotDocument current n with
      | some b, some c => if b = c then none else some (diffDocument n b c)
      | _, _ => none) }

/-- Modelled from the spec: `IndexDiffResult.IsZero`, declared with the diff
engine: the diff holds no added, no removed and no modified document. -/
def IndexDiffResult.IsZero (diff : IndexDiffResult) : Bool :=
  diff.Added.isEmpty && diff.Removed.isEmpty && diff.Modified.isEmpty

/-! ## Reading a report -/

/-- The error was built by `errors.New` with this message. -/
def Err.isNew (msg : String) : Err → Bool
  | Err.new m => m == msg
  | _ => false

/-- The error was built by `fmt.Errorf` (no `%w`) with this format. -/
def Err.isErrorf (format : String) : Err → Bool
  | Err.errorf f _ => f == format
  | _ => false

/-- The label under which `validateIndexDiff` returns its failures. -/
def diffLabel : String := "invalid change(s) in diff"

/-- The error of a stale just-added event, as built by `validateRecency`. -/
def staleErr (event : Event) : Err :=
  Err.errorf
    "event's timestamp (%s) set to more than %d days ago; timestamps should accurately capture event creation time"
    [Arg.time event.Timestamp, Arg.int 3]

/-- The package names of the build-configuration dataset; none when the
dataset is absent. -/
def ValidateOptions.configNames (opts : ValidateOptions) : List String :=
  (opts.PackageConfigurations.getD []).map (fun cfg => cfg.Package.Name)

/-- The package names of the published-package index; none when the index is
absent. -/
def ValidateOptions.indexNames (opts : ValidateOptions) : List String :=
  (opts.APKIndex.getD []).map (fun pkg => pkg.Name)

/-- The occurrences of advisory IDs scanned by the uniqueness pass, in scan
order: the ID and the path of the entry, for every advisory of every entry
that is not skipped. -/
def ValidateOptions.occurrences (opts : ValidateOptions) : List (String × String) :=
  (opts.AdvisoryDocs.filter (fun e => !opts.skips e.Configuration.Package.Name)).flatMap
    (fun e => e.Configuration.Advisories.map (fun adv => (adv.ID, e.Path)))

/-- The paths of the occurrences of `id` among the first `k` occurrences. -/
def priorPaths (occ : List (String × String)) (k : Nat) (id : String) : List String :=
  ((occ.take k).filter (fun o => o.1 == id)).map (fun o => o.2)

/-- The failures expected of a list of just-added events: one per event that
is not recent, under the label of its 1-based position. -/
def ValidateOptions.staleLeaves (opts : ValidateOptions) (events : List Event) : List Leaf :=
  (events.enum.filter (fun ie => !opts.isRecent ie.2.Timestamp)).map
    (fun ie => Leaf.mk [justAddedLabel ie.1] (staleErr ie.2))

/-- The failure expected of a modified advisory for the events it lost: none
when no event was removed, the coarse error when events were also added, the
plain removal error otherwise. -/
def ambiguityLeaves (adv : AdvisoryDiffResult) : List Leaf :=
  if adv.RemovedEvents = [] then []
  else if adv.AddedEvents = [] then [Leaf.mk [] (Err.new "one or more events were removed")]
  else [Leaf.mk [] (Err.errorf "one or more events were modified or removed" [])]

/-- The errors expected of the uniqueness pass on a list of occurrences: one
for every occurrence whose ID occurred before, naming the ID, the path of the
occurrence and the paths of the earlier occurrences of the ID. -/
def duplicateErrs (occ : List (String × String)) : List Err :=
  (occ.enum.filter (fun ko => !(priorPaths occ ko.1 ko.2.1).isEmpty)).map
    (fun ko => duplicateIDErr ko.2.1 ko.2.2 (priorPaths occ ko.1 ko.2.1))

/-- The state of the uniqueness pass after the occurrences `pre`. -/
def UniquenessInv (pre : List (String × String))
    (st : GoMap (List String) × List (Option Err)) : Prop :=
  (∀ id, st.1 id =
    if (priorPaths pre pre.length id).isEmpty then none
    else some (priorPaths pre pre.length id)) ∧
  st.2 = (duplicateErrs pre).map some

/-- The error expected of a fixed version that the published index does not
hold: the package is missing when no record has its name, the version is
missing otherwise. -/
def fixedVersionErr (pkgs : List ApkPackage) (pkgName version : String) : Err :=
  if pkgs.any (fun pkg => pkg.Name == pkgName) then
    Err.errorf "package version %q not found in APKINDEX" [Arg.str version]
  else Err.new "package not found in APKINDEX"

/-- The label under which `validateAliasSetCompleteness` returns its policy
violations. -/
def aliasLabel : String := "alias set completeness validation failure(s)"

/-- The advisories scanned by the alias pass, in scan order: those of the
documents that are not skipped. -/
def ValidateOptions.scannedAdvisories (opts : ValidateOptions) : List Advisory :=
  ((opts.AdvisoryDocs.map (fun e => e.Configuration)).filter
    (fun doc => !opts.skips doc.Name)).flatMap (fun doc => doc.Advisories)

/-- The error of a missing GHSA alias, as built by `validateAliasSetCompleteness`. -/
def missingAliasErr (ghsa : String) (aliases : List String) : Err :=
  Err.errorf "missing GHSA alias %q from set [%s]"
    [Arg.str ghsa, Arg.str (String.intercalate ", " aliases)]

/-- The error of a GHSA used as advisory ID although a CVE corresponds to it,
as built by `validateAliasSetCompleteness`. -/
def primaryIDErr (id cve : String) : Err :=
  Err.errorf "%q should be listed as an alias, and %q should be the advisory ID"
    [Arg.str id, Arg.str cve]

/-- The value of a step of the alias pass that did not fail; nil for a step
that failed. -/
def okValue (r : AliasRun (Option Err)) : Option Err :=
  match r.result with
  | Except.ok x => x
  | Except.error _ => none

/-- The error returned by the alias pass when the lookup for `adv` fails with
`err`. -/
def lookupFailure (adv : Advisory) (err : Err) : Err :=
  if hasPrefix adv.ID "CVE-" then
    Err.wrapf "failed to query GHSA aliases for CVE %q: %w" [Arg.str adv.ID] err
  else Err.wrapf "failed to query CVE alias for GHSA %q: %w" [Arg.str adv.ID] err

/-- The options with another package selection. -/
def ValidateOptions.select (opts : ValidateOptions) (selection : List String) :
    ValidateOptions :=
  { opts with SelectedPackages := selection }

/-! ## Example inputs -/

/-- Options without package selection and without any optional dataset. -/
def exOpts : ValidateOptions :=
  { AdvisoryDocs := []
    BaseAdvisoryDocs := some []
    SelectedPackages := []
    Now := 1700000000000000000
    AliasFinder := none
    PackageConfigurations := none
    distroPackageMap := GoMap.empty
    APKIndex := none
    apkIndexPackageMap := GoMap.empty }

/-- An event stamped four days before the reference time of `exOpts`. -/
def exStaleEvent : Event :=
  { Timestamp := 1700000000000000000 - 4 * 24 * 3600 * 1000000000
    Type_ := "fixed"
    Data := EventData.fixed "1.2.3-r0" }

/-- Advisory X of the example: one event was added, none removed. -/
def exAdvisoryDiff : AdvisoryDiffResult :=
  { ID := "X", AddedEvents := [exStaleEvent], RemovedEvents := [] }

/-- Document docA of the example: advisory X was modified. -/
def exDocumentDiff : DocumentDiffResult :=
  { Name := "docA", Added := [], Removed := [], Modified := [exAdvisoryDiff] }

/-- The diff of the example: document docA was modified. -/
def exDiff : IndexDiffResult :=
  { Added := [], Removed := [], Modified := [exDocumentDiff] }

/-- Options whose datasets are both present: no build configuration, and a
published index with the package foo. -/
def exIndexOnlyOpts : ValidateOptions :=
  { exOpts with PackageConfigurations := some [], APKIndex := some [⟨"foo", "1.0-r0"⟩] }

/-- Options whose datasets are both present and know other packages only. -/
def exNoLinkOpts : ValidateOptions :=
  { exOpts with
    PackageConfigurations := some [⟨⟨"bar"⟩⟩], APKIndex := some [⟨"baz", "2.0-r1"⟩] }

/-- A new document for the package foo, without advisories. -/
def exNewDoc : Document := { Package := ⟨"foo"⟩, Advisories := [] }

/-- The diff that adds the document of foo. -/
def exAddedDiff : IndexDiffResult := { Added := [exNewDoc], Removed := [], Modified := [] }

/-- Options that select the package a alone, over one document of the package
b stored under a path that does not carry its name. -/
def exUnselectedOpts : ValidateOptions :=
  { exOpts with
    SelectedPackages := ["a"]
    AdvisoryDocs := [{ Path := "wrong.yaml", Configuration := { Package := ⟨"b"⟩, Advisories := [] } }] }

/-- An alias finder for the examples: GHSA-aaaa corresponds to CVE-2024-1,
CVE-2024-9 corresponds to GHSA-bbbb, and the lookup of CVE-2024-5 fails. -/
def exFinder : AliasFinder :=
  { GHSAsForCVE := fun id =>
      if id = "CVE-2024-1" then Except.ok ["GHSA-aaaa"]
      else if id = "CVE-2024-5" then Except.error (Err.new "service unavailable")
      else Except.ok []
    CVEForGHSA := fun id =>
      if id = "GHSA-bbbb" then Except.ok "CVE-2024-9" else Except.ok "" }

/-- Advisory CVE-2024-1 without aliases. -/
def exCVEAdvisory : Advisory := { ID := "CVE-2024-1", Aliases := [], Events := [] }

/-- Advisory GHSA-bbbb, which lists CVE-2024-9 as an alias. -/
def exGHSAAdvisory : Advisory := { ID := "GHSA-bbbb", Aliases := ["CVE-2024-9"], Events := [] }

/-- Advisory CVE-2024-5, whose lookup fails with `exFinder`. -/
def exFailingAdvisory : Advisory := { ID := "CVE-2024-5", Aliases := [], Events := [] }

/-- Options over one document of the package a with the advisories CVE-2024-1
and GHSA-bbbb. -/
def exAliasOpts : ValidateOptions :=
  { exOpts with
    AliasFinder := some exFinder
    AdvisoryDocs := [{ Path := "a.advisories.yaml"
                       Configuration := { Package := ⟨"a"⟩
                                          Advisories := [exCVEAdvisory, exGHSAAdvisory] } }] }

/-- Options over one document of the package a with the advisories GHSA-bbbb,
CVE-2024-5 and CVE-2024-1, in this order. -/
def exAbortOpts : ValidateOptions :=
  { exOpts with
    AliasFinder := some exFinder
    AdvisoryDocs := [{ Path := "a.advisories.yaml"
                       Configuration :=
                         { Package := ⟨"a"⟩
                           Advisories := [exGHSAAdvisory, exFailingAdvisory, exCVEAdvisory] } }] }

/-- Options over one document of the package a, with the empty snapshot as
baseline and the published index that holds a at version 2.0. -/
def exSelectOpts : ValidateOptions :=
  { exOpts with
    APKIndex := some [⟨"a", "2.0"⟩]
    AdvisoryDocs := [{ Path := "a.advisories.yaml"
                       Configuration :=
                         { Package := ⟨"a"⟩
                           Advisories := [{ ID := "CVE-2024-1", Aliases := []
                                            Events := [exStaleEvent] }] } }] }

/-- Options over one document of the package a with the advisories CVE-2024-1
and CVE-2024-5, in this order. -/
def exAbortAfterCVEOpts : ValidateOptions :=
  { exOpts with
    AliasFinder := some exFinder
    AdvisoryDocs := [{ Path := "a.advisories.yaml"
                       Configuration := { Package := ⟨"a"⟩
                                          Advisories := [exCVEAdvisory, exFailingAdvisory] } }] }

/-- Options over one document of the package a with the advisories GHSA-bbbb
and CVE-2024-5, in this order. -/
def exAbortAfterGHSAOpts : ValidateOptions :=
  { exOpts with
    AliasFinder := some exFinder
    AdvisoryDocs := [{ Path := "a.advisories.yaml"
                       Configuration := { Package := ⟨"a"⟩
                                          Advisories := [exGHSAAdvisory, exFailingAdvisory] } }] }

/-- Options whose build-configuration dataset knows the package bar only and
whose published-package index is absent. -/
def exConfigsOnlyOpts : ValidateOptions :=
  { exOpts with PackageConfigurations := some [⟨⟨"bar"⟩⟩] }

/-- Options whose published-package index knows the package baz only and whose
build-configuration dataset is absent. -/
def exIndexAloneOpts : ValidateOptions :=
  { exOpts with APKIndex := some [⟨"baz", "2.0-r1"⟩] }

/-- An event stamped far in the future of the reference time of `exOpts`,
further than a `time.Duration` can express. -/
def exFutureEvent : Event :=
  { Timestamp := 1700000000000000000 + 10 ^ 30
    Type_ := "fixed"
    Data := EventData.fixed "1.2.3-r0" }

/-! ## Recency: properties -/

theorem timeSub_lt_iff (now t d : Int) (hlo : minDuration < d) (hhi : d ≤ maxDuration) :
    timeSub now t < d ↔ now - t < d := by
  unfold timeSub
  split_ifs with h1 h2 <;> constructor <;> intro h <;> omega

theorem maxAge_bounds :
    minDuration < eventMaxValidAgeInDays * 24 * hour ∧
      eventMaxValidAgeInDays * 24 * hour ≤ maxDuration := by
  unfold minDuration maxDuration eventMaxValidAgeInDays hour
  constructor <;> norm_num

theorem isRecent_iff (opts : ValidateOptions) (t : Int) :
    opts.isRecent t = true ↔ opts.Now - t < 3 * 24 * hour := by
  have hb := maxAge_bounds
  simp only [ValidateOptions.isRecent, decide_eq_true_eq]
  rw [timeSub_lt_iff _ _ _ hb.1 hb.2]
  simp [eventMaxValidAgeInDays]

/-- C1: an instant is recent exactly when its distance to the reference time
is strictly below 3 days, that is 72 hours; `validateRecency` fails exactly on
the events that are 72 hours old or older (an event exactly 72 hours old
included), with an error that carries the threshold 3, and returns nil on the
others. -/
theorem C1_recency_threshold (opts : ValidateOptions) (t : Int) (event : Event) :
    (opts.isRecent t = true ↔ opts.Now - t < 3 * 24 * hour) ∧
    (3 * 24 * hour = 72 * hour) ∧
    ((opts.validateRecency event).isSome = true ↔ opts.Now - event.Timestamp ≥ 72 * hour) ∧
    opts.validateRecency event =
      (if opts.Now - event.Timestamp < 72 * hour then none
       else some (Err.errorf
        "event's timestamp (%s) set to more than %d days ago; timestamps should accurately capture event creation time"
        [Arg.time event.Timestamp, Arg.int 3])) := by
  have hr := isRecent_iff opts event.Timestamp
  have h72 : (3 : Int) * 24 * hour = 72 * hour := by unfold hour; norm_num
  rw [h72] at hr
  refine ⟨isRecent_iff opts t, h72, ?_, ?_⟩
  · unfold ValidateOptions.validateRecency
    by_cases h : opts.isRecent event.Timestamp = true
    · have := hr.1 h
      simp [h]; omega
    · have : ¬ (opts.Now - event.Timestamp < 72 * hour) := fun h' => h (hr.2 h')
      simp [h]; omega
  · by_cases h : opts.Now - event.Timestamp < 72 * hour
    · simp [ValidateOptions.validateRecency, hr.2 h, h]
    · have : ¬ (opts.isRecent event.Timestamp = true) := fun h' => h (hr.1 h')
      simp [ValidateOptions.validateRecency, this, h, eventMaxValidAgeInDays]

/-! ## Reports: general facts -/

theorem leavesList_eq (es : List Err) : Err.leavesList es = es.flatMap Err.leaves := by
  induction es with
  | nil => simp [Err.leavesList]
  | cons e es ih => simp [Err.leavesList, ih]

theorem reported_errorsJoin (errs : List (Option Err)) :
    reported (errorsJoin errs) = errs.flatMap reported := by
  have h : (errs.filterMap id).flatMap Err.leaves = errs.flatMap reported := by
    induction errs with
    | nil => simp
    | cons e es ih =>
      cases e with
      | none => simpa [reported] using ih
      | some e => simp [reported, ih]
  unfold errorsJoin
  split
  · rename_i heq
    rw [← h, heq]; simp [reported]
  · rw [← h]; simp [reported, Err.leaves, leavesList_eq]

theorem reported_LabelError (label : String) (err : Option Err) :
    reported (LabelError label err) = (reported err).map (Leaf.under label) := by
  cases err <;> simp [LabelError, reported, Err.leaves]

theorem reported_none : reported none = [] := rfl
theorem reported_some_new (m : String) : reported (some (Err.new m)) = [⟨[], Err.new m⟩] := rfl
theorem reported_some_errorf (f : String) (a : List Arg) :
    reported (some (Err.errorf f a)) = [⟨[], Err.errorf f a⟩] := rfl

theorem reported_validateRecency (opts : ValidateOptions) (e : Event) :
    reported (opts.validateRecency e) =
      if opts.isRecent e.Timestamp then [] else [⟨[], staleErr e⟩] := by
  unfold ValidateOptions.validateRecency
  cases h : opts.isRecent e.Timestamp <;> simp [reported, Err.leaves, staleErr, eventMaxValidAgeInDays]

theorem reported_justAddedErrs (opts : ValidateOptions) (events : List Event) :
    (opts.justAddedErrs events).flatMap reported = opts.staleLeaves events := by
  unfold ValidateOptions.justAddedErrs ValidateOptions.staleLeaves
  generalize events.enum = l
  induction l with
  | nil => simp
  | cons x xs ih =>
    simp only [List.map_cons, List.flatMap_cons, ih, reported_LabelError, reported_validateRecency]
    cases h : opts.isRecent x.2.Timestamp <;> simp [List.filter_cons, h, Leaf.under]

theorem reported_modifiedAdvisoryErr (opts : ValidateOptions) (adv : AdvisoryDiffResult) :
    reported (opts.modifiedAdvisoryErr adv) =
      (ambiguityLeaves adv ++ opts.staleLeaves adv.AddedEvents).map (Leaf.under adv.ID) := by
  unfold ValidateOptions.modifiedAdvisoryErr ambiguityLeaves
  simp only [reported_LabelError, reported_errorsJoin, List.flatMap_append, reported_justAddedErrs]
  congr 2
  cases hr : adv.RemovedEvents <;> cases ha : adv.AddedEvents <;>
    simp [reported_some_errorf, reported_some_new]

theorem reported_addedAdvisoryErr (opts : ValidateOptions) (adv : Advisory) :
    reported (opts.addedAdvisoryErr adv) =
      (opts.staleLeaves adv.Events).map (Leaf.under adv.ID) := by
  unfold ValidateOptions.addedAdvisoryErr
  simp only [reported_LabelError, reported_errorsJoin, reported_justAddedErrs]

theorem flatMap_map_reported {α : Type} (f : α → Option Err) (l : List α) :
    (l.map f).flatMap reported = l.flatMap (fun a => reported (f a)) := by
  induction l with
  | nil => rfl
  | cons x xs ih => simp [ih]

theorem flatMap_reported_labelled_new {α : Type} (l : List α) (f : α → String) (m : String) :
    l.flatMap (fun a => reported (LabelError (f a) (some (Err.new m)))) =
      l.map (fun a => Leaf.mk [f a] (Err.new m)) := by
  induction l with
  | nil => rfl
  | cons x xs ih => rw [List.flatMap_cons, ih]; rfl

theorem reported_modifiedDocumentErr (opts : ValidateOptions) (d : DocumentDiffResult) :
    reported (opts.modifiedDocumentErr d) =
      (reported (opts.validateBuildConfigurationOrAPKIndexEntryExistence d.Name) ++
        d.Removed.map (fun adv => Leaf.mk [adv.ID] (Err.new "advisory was removed")) ++
        d.Modified.flatMap (fun adv => reported (opts.modifiedAdvisoryErr adv)) ++
        (d.Added.filter (fun _ => !opts.skips d.Name)).flatMap
          (fun adv => reported (opts.addedAdvisoryErr adv))).map (Leaf.under d.Name) := by
  unfold ValidateOptions.modifiedDocumentErr
  rw [reported_LabelError, reported_errorsJoin]
  simp only [List.flatMap_append, flatMap_map_reported, flatMap_reported_labelled_new]
  simp

theorem reported_addedDocumentErr (opts : ValidateOptions) (d : Document) :
    reported (opts.addedDocumentErr d) =
      (reported (opts.validateBuildConfigurationExistence d.Name) ++
        d.Advisories.flatMap (fun adv => reported (opts.addedAdvisoryErr adv))).map
        (Leaf.under d.Name) := by
  unfold ValidateOptions.addedDocumentErr
  simp only [reported_LabelError, reported_errorsJoin, List.flatMap_append, flatMap_map_reported]
  simp

theorem reported_validateIndexDiff (opts : ValidateOptions) (diff : IndexDiffResult) :
    reported (opts.validateIndexDiff diff) =
      ((diff.Removed.filter (fun d => !opts.skips d.Name)).map
          (fun d => Leaf.mk [d.Name] (Err.new "document was removed")) ++
        (diff.Modified.filter (fun d => !opts.skips d.Name)).flatMap
          (fun d => reported (opts.modifiedDocumentErr d)) ++
        (diff.Added.filter (fun d => !opts.skips d.Name)).flatMap
          (fun d => reported (opts.addedDocumentErr d))).map (Leaf.under diffLabel) := by
  unfold ValidateOptions.validateIndexDiff
  simp only [reported_LabelError, reported_errorsJoin, List.flatMap_append, flatMap_map_reported,
    diffLabel]
  congr 3
  induction diff.Removed with
  | nil => rfl
  | cons x xs ih =>
    simp only [List.flatMap_cons, ih, List.filter_cons]
    cases h : opts.skips x.Name <;> simp [reported_LabelError, reported_some_new, Leaf.under, reported_none]


theorem filter_under (q : Err → Bool) (label : String) (xs : List Leaf) :
    (xs.map (Leaf.under label)).filter (fun l => q l.err) =
      (xs.filter (fun l => q l.err)).map (Leaf.under label) := by
  rw [List.filter_map]; rfl

theorem filter_staleLeaves_false (q : Err → Bool) (hq : ∀ e, q (staleErr e) = false)
    (opts : ValidateOptions) (events : List Event) :
    (opts.staleLeaves events).filter (fun l => q l.err) = [] := by
  unfold ValidateOptions.staleLeaves
  rw [List.filter_eq_nil_iff]
  intro l hl
  simp only [List.mem_map] at hl
  obtain ⟨ie, -, rfl⟩ := hl
  simp [hq]

theorem filter_linkageModified_false (q : Err → Bool)
    (hq : q (Err.new
      "package not found as a build configuration in the distro or as an entry in the APKINDEX") = false)
    (opts : ValidateOptions) (name : String) :
    (reported (opts.validateBuildConfigurationOrAPKIndexEntryExistence name)).filter
      (fun l => q l.err) = [] := by
  unfold ValidateOptions.validateBuildConfigurationOrAPKIndexEntryExistence
  split_ifs <;> simp [reported, Err.leaves, hq]

theorem filter_linkageAdded_false (q : Err → Bool)
    (hq : q (Err.new "package build configuration not found in the distro") = false)
    (opts : ValidateOptions) (name : String) :
    (reported (opts.validateBuildConfigurationExistence name)).filter
      (fun l => q l.err) = [] := by
  unfold ValidateOptions.validateBuildConfigurationExistence
  split_ifs <;> simp [reported, Err.leaves, hq]

theorem filter_addedAdvisoryErr_false (q : Err → Bool) (hq : ∀ e, q (staleErr e) = false)
    (opts : ValidateOptions) (adv : Advisory) :
    (reported (opts.addedAdvisoryErr adv)).filter (fun l => q l.err) = [] := by
  rw [reported_addedAdvisoryErr, filter_under, filter_staleLeaves_false q hq]; rfl

theorem flatMap_nil_of_forall {α β : Type} (l : List α) (f : α → List β) (h : ∀ a, f a = []) :
    l.flatMap f = [] := by
  induction l with
  | nil => rfl
  | cons x xs ih => simp [h, ih]

theorem filter_addedDocumentErr_false (q : Err → Bool) (hq : ∀ e, q (staleErr e) = false)
    (hq2 : q (Err.new "package build configuration not found in the distro") = false)
    (opts : ValidateOptions) (d : Document) :
    (reported (opts.addedDocumentErr d)).filter (fun l => q l.err) = [] := by
  rw [reported_addedDocumentErr, filter_under, List.filter_append, List.filter_flatMap,
    filter_linkageAdded_false q hq2]
  rw [flatMap_nil_of_forall _ _ (fun a => filter_addedAdvisoryErr_false q hq opts a)]; rfl

theorem filter_ambiguityLeaves_false (q : Err → Bool)
    (h1 : q (Err.errorf "one or more events were modified or removed" []) = false)
    (h2 : q (Err.new "one or more events were removed") = false) (adv : AdvisoryDiffResult) :
    (ambiguityLeaves adv).filter (fun l => q l.err) = [] := by
  unfold ambiguityLeaves
  split_ifs <;> simp [h1, h2]

theorem filter_modifiedAdvisoryErr_false (q : Err → Bool) (hq : ∀ e, q (staleErr e) = false)
    (h1 : q (Err.errorf "one or more events were modified or removed" []) = false)
    (h2 : q (Err.new "one or more events were removed") = false)
    (opts : ValidateOptions) (adv : AdvisoryDiffResult) :
    (reported (opts.modifiedAdvisoryErr adv)).filter (fun l => q l.err) = [] := by
  rw [reported_modifiedAdvisoryErr, filter_under, List.filter_append,
    filter_staleLeaves_false q hq, filter_ambiguityLeaves_false q h1 h2]; rfl

theorem filter_modifiedDocumentErr_false (q : Err → Bool) (hq : ∀ e, q (staleErr e) = false)
    (h1 : q (Err.errorf "one or more events were modified or removed" []) = false)
    (h2 : q (Err.new "one or more events were removed") = false)
    (h3 : q (Err.new
      "package not found as a build configuration in the distro or as an entry in the APKINDEX") = false)
    (h4 : q (Err.new "advisory was removed") = false)
    (opts : ValidateOptions) (d : DocumentDiffResult) :
    (reported (opts.modifiedDocumentErr d)).filter (fun l => q l.err) = [] := by
  rw [reported_modifiedDocumentErr, filter_under]
  simp only [List.filter_append, List.filter_flatMap, filter_linkageModified_false q h3]
  rw [flatMap_nil_of_forall _ _ (fun a => filter_modifiedAdvisoryErr_false q hq h1 h2 opts a),
    flatMap_nil_of_forall _ _ (fun a => filter_addedAdvisoryErr_false q hq opts a)]
  simp [List.filter_map, List.filter_eq_nil_iff, h4]

theorem errorsJoin_eq_none_iff (errs : List (Option Err)) :
    errorsJoin errs = none ↔ ∀ e ∈ errs, e = none := by
  unfold errorsJoin
  split
  · rename_i heq
    simp only [true_iff]
    intro e he
    cases e with
    | none => rfl
    | some x =>
      have : x ∈ errs.filterMap id := by
        simp [List.mem_filterMap]; exact he
      rw [heq] at this; simp at this
  · rename_i hne
    simp only [false_iff, reduceCtorEq]
    intro hall
    apply hne
    simp only [List.filterMap_eq_nil_iff]
    intro a ha
    rw [hall a ha]; rfl

theorem LabelError_eq_none_iff (label : String) (err : Option Err) :
    LabelError label err = none ↔ err = none := by
  cases err <;> simp [LabelError]

theorem errorsJoin_sound (errs : List (Option Err))
    (h : ∀ e ∈ errs, reported e = [] → e = none) :
    reported (errorsJoin errs) = [] → errorsJoin errs = none := by
  intro hr
  rw [reported_errorsJoin, List.flatMap_eq_nil_iff] at hr
  rw [errorsJoin_eq_none_iff]
  exact fun e he => h e he (hr e he)

theorem LabelError_sound (label : String) (err : Option Err)
    (h : reported err = [] → err = none) :
    reported (LabelError label err) = [] → LabelError label err = none := by
  intro hr
  rw [reported_LabelError, List.map_eq_nil_iff] at hr
  rw [LabelError_eq_none_iff]
  exact h hr

theorem validateRecency_sound (opts : ValidateOptions) (e : Event) :
    reported (opts.validateRecency e) = [] → opts.validateRecency e = none := by
  unfold ValidateOptions.validateRecency
  split_ifs <;> simp [reported, Err.leaves]

theorem justAddedErrs_sound (opts : ValidateOptions) (events : List Event) :
    ∀ e ∈ opts.justAddedErrs events, reported e = [] → e = none := by
  intro e he
  unfold ValidateOptions.justAddedErrs at he
  simp only [List.mem_map] at he
  obtain ⟨ie, -, rfl⟩ := he
  exact LabelError_sound _ _ (validateRecency_sound opts ie.2)

theorem modifiedAdvisoryErr_sound (opts : ValidateOptions) (adv : AdvisoryDiffResult) :
    reported (opts.modifiedAdvisoryErr adv) = [] → opts.modifiedAdvisoryErr adv = none := by
  unfold ValidateOptions.modifiedAdvisoryErr
  apply LabelError_sound
  apply errorsJoin_sound
  intro e he
  simp only [List.mem_append] at he
  rcases he with he | he
  · split_ifs at he <;> simp at he <;> subst he <;> simp [reported, Err.leaves]
  · exact justAddedErrs_sound opts _ e he

theorem addedAdvisoryErr_sound (opts : ValidateOptions) (adv : Advisory) :
    reported (opts.addedAdvisoryErr adv) = [] → opts.addedAdvisoryErr adv = none := by
  unfold ValidateOptions.addedAdvisoryErr
  exact LabelError_sound _ _ (errorsJoin_sound _ (justAddedErrs_sound opts _))

theorem linkageModified_sound (opts : ValidateOptions) (name : String) :
    reported (opts.validateBuildConfigurationOrAPKIndexEntryExistence name) = [] →
      opts.validateBuildConfigurationOrAPKIndexEntryExistence name = none := by
  unfold ValidateOptions.validateBuildConfigurationOrAPKIndexEntryExistence
  split_ifs <;> simp [reported, Err.leaves]

theorem linkageAdded_sound (opts : ValidateOptions) (name : String) :
    reported (opts.validateBuildConfigurationExistence name) = [] →
      opts.validateBuildConfigurationExistence name = none := by
  unfold ValidateOptions.validateBuildConfigurationExistence
  split_ifs <;> simp [reported, Err.leaves]

theorem modifiedDocumentErr_sound (opts : ValidateOptions) (d : DocumentDiffResult) :
    reported (opts.modifiedDocumentErr d) = [] → opts.modifiedDocumentErr d = none := by
  unfold ValidateOptions.modifiedDocumentErr
  apply LabelError_sound
  apply errorsJoin_sound
  intro e he
  simp only [List.mem_append, List.mem_map, List.mem_singleton] at he
  rcases he with ((he | ⟨a, -, rfl⟩) | ⟨a, -, rfl⟩) | ⟨a, -, rfl⟩
  · subst he; exact linkageModified_sound opts _
  · simp [reported, LabelError, Err.leaves]
  · exact modifiedAdvisoryErr_sound opts a
  · exact addedAdvisoryErr_sound opts a

theorem addedDocumentErr_sound (opts : ValidateOptions) (d : Document) :
    reported (opts.addedDocumentErr d) = [] → opts.addedDocumentErr d = none := by
  unfold ValidateOptions.addedDocumentErr
  apply LabelError_sound
  apply errorsJoin_sound
  intro e he
  simp only [List.mem_append, List.mem_map, List.mem_singleton] at he
  rcases he with he | ⟨a, -, rfl⟩
  · subst he; exact linkageAdded_sound opts _
  · exact addedAdvisoryErr_sound opts a

theorem validateIndexDiff_sound (opts : ValidateOptions) (diff : IndexDiffResult) :
    reported (opts.validateIndexDiff diff) = [] → opts.validateIndexDiff diff = none := by
  unfold ValidateOptions.validateIndexDiff
  apply LabelError_sound
  apply errorsJoin_sound
  intro e he
  simp only [List.mem_append, List.mem_map] at he
  rcases he with (⟨a, -, rfl⟩ | ⟨a, -, rfl⟩) | ⟨a, -, rfl⟩
  · split_ifs <;> simp [reported, LabelError, Err.leaves]
  · exact modifiedDocumentErr_sound opts a
  · exact addedDocumentErr_sound opts a

theorem filter_map_of_forall {α : Type} (q : Leaf → Bool) (f : α → Leaf) (l : List α) (b : Bool)
    (h : ∀ a, q (f a) = b) : (l.map f).filter q = if b then l.map f else [] := by
  induction l with
  | nil => simp
  | cons x xs ih => cases b <;> simp_all [List.filter_cons]

theorem filter_removedAdvisories (q : Err → Bool) (d : DocumentDiffResult) :
    (d.Removed.map (fun adv => Leaf.mk [adv.ID] (Err.new "advisory was removed"))).filter
        (fun l => q l.err) =
      if q (Err.new "advisory was removed") then
        d.Removed.map (fun adv => Leaf.mk [adv.ID] (Err.new "advisory was removed"))
      else [] :=
  filter_map_of_forall _ _ _ _ (fun _ => rfl)

theorem filter_ambiguityLeaves_true (q : Err → Bool)
    (h1 : q (Err.errorf "one or more events were modified or removed" []) = true)
    (h2 : q (Err.new "one or more events were removed") = true) (adv : AdvisoryDiffResult) :
    (ambiguityLeaves adv).filter (fun l => q l.err) = ambiguityLeaves adv := by
  unfold ambiguityLeaves
  split_ifs <;> simp [h1, h2]

theorem sublist_flatMap_of_mem {α β : Type} (f : α → List β) (l : List α) (a : α)
    (h : a ∈ l) : (f a).Sublist (l.flatMap f) := by
  induction l with
  | nil => cases h
  | cons x xs ih =>
    rw [List.flatMap_cons]
    rcases List.mem_cons.1 h with rfl | h'
    · exact List.sublist_append_left _ _
    · exact (ih h').trans (List.sublist_append_right _ _)

theorem modifiedAdvisoryErr_sublist (opts : ValidateOptions) (diff : IndexDiffResult)
    (d : DocumentDiffResult) (adv : AdvisoryDiffResult) (hd : d ∈ diff.Modified)
    (hs : opts.skips d.Name = false) (ha : adv ∈ d.Modified) :
    ((reported (opts.modifiedAdvisoryErr adv)).map
        (fun l => Leaf.mk (diffLabel :: d.Name :: l.path) l.err)).Sublist
      (reported (opts.validateIndexDiff diff)) := by
  rw [reported_validateIndexDiff]
  have h1 : (reported (opts.modifiedAdvisoryErr adv)).Sublist
      (d.Modified.flatMap (fun a => reported (opts.modifiedAdvisoryErr a))) :=
    sublist_flatMap_of_mem (fun a => reported (opts.modifiedAdvisoryErr a)) _ _ ha
  have h2 : ((reported (opts.modifiedAdvisoryErr adv)).map (Leaf.under d.Name)).Sublist
      (reported (opts.modifiedDocumentErr d)) := by
    rw [reported_modifiedDocumentErr]
    apply List.Sublist.map
    exact (h1.trans (List.sublist_append_right _ _)).trans (List.sublist_append_left _ _)
  have hmem : d ∈ diff.Modified.filter (fun d => !opts.skips d.Name) := by
    simp [List.mem_filter, hd, hs]
  have h3 := h2.trans (sublist_flatMap_of_mem
    (fun d => reported (opts.modifiedDocumentErr d)) _ _ hmem)
  rw [List.map_append, List.map_append]
  refine List.Sublist.trans ?_ (List.sublist_append_left _ _)
  refine List.Sublist.trans ?_ (List.sublist_append_right _ _)
  have h4 := h3.map (Leaf.under diffLabel)
  simpa [List.map_map, Function.comp, Leaf.under] using h4

theorem staleLeaves_eq_nil (opts : ValidateOptions) (events : List Event)
    (h : ∀ e ∈ events, opts.isRecent e.Timestamp = true) : opts.staleLeaves events = [] := by
  unfold ValidateOptions.staleLeaves
  rw [List.map_eq_nil_iff, List.filter_eq_nil_iff]
  intro ie hie
  have : ie.2 ∈ events := by
    exact List.snd_mem_of_mem_enum hie
  simp [h _ this]

theorem filter_staleLeaves_true (q : Err → Bool) (hq : ∀ e, q (staleErr e) = true)
    (opts : ValidateOptions) (events : List Event) :
    (opts.staleLeaves events).filter (fun l => q l.err) = opts.staleLeaves events := by
  unfold ValidateOptions.staleLeaves
  rw [filter_map_of_forall _ _ _ true (fun ie => hq ie.2)]; rfl

theorem reported_modifiedAdvisoryErr_of_not_removed (opts : ValidateOptions)
    (adv : AdvisoryDiffResult) (hr : adv.RemovedEvents = []) :
    reported (opts.modifiedAdvisoryErr adv) =
      (opts.staleLeaves adv.AddedEvents).map (Leaf.under adv.ID) := by
  rw [reported_modifiedAdvisoryErr]
  simp [ambiguityLeaves, hr]

/-! ## Package maps and linkage: general facts -/

theorem GoMap.has_set {V : Type} (m : GoMap V) (k : String) (v : V) (name : String) :
    (m.set k v).has name = true ↔ name = k ∨ m.has name = true := by
  unfold GoMap.has GoMap.set
  by_cases h : name = k <;> simp [h]

theorem foldl_distro_has (cfgs : List Configuration) (m : GoMap Configuration) (name : String) :
    (cfgs.foldl (fun pkgMap cfg => pkgMap.set cfg.Package.Name cfg) m).has name = true ↔
      m.has name = true ∨ name ∈ cfgs.map (fun cfg => cfg.Package.Name) := by
  induction cfgs generalizing m with
  | nil => simp
  | cons c cs ih =>
    rw [List.foldl_cons, ih, GoMap.has_set]
    simp only [List.map_cons, List.mem_cons]
    tauto

theorem foldl_index_has (pkgs : List ApkPackage) (m : GoMap (List ApkPackage)) (name : String) :
    (pkgs.foldl (fun pkgMap pkg => pkgMap.set pkg.Name ((pkgMap pkg.Name).getD [] ++ [pkg]))
        m).has name = true ↔
      m.has name = true ∨ name ∈ pkgs.map (fun pkg => pkg.Name) := by
  induction pkgs generalizing m with
  | nil => simp
  | cons c cs ih =>
    rw [List.foldl_cons, ih, GoMap.has_set]
    simp only [List.map_cons, List.mem_cons]
    tauto

theorem createDistroPackageMap_has (opts : ValidateOptions) (name : String) :
    opts.createDistroPackageMap.has name = true ↔ name ∈ opts.configNames := by
  unfold ValidateOptions.createDistroPackageMap ValidateOptions.configNames
  cases opts.PackageConfigurations with
  | none => simp [GoMap.has, GoMap.empty]
  | some cfgs => rw [foldl_distro_has]; simp [GoMap.has, GoMap.empty]

theorem createAPKIndexPackageMap_has (opts : ValidateOptions) (name : String) :
    opts.createAPKIndexPackageMap.has name = true ↔ name ∈ opts.indexNames := by
  unfold ValidateOptions.createAPKIndexPackageMap ValidateOptions.indexNames
  cases opts.APKIndex with
  | none => simp [GoMap.has, GoMap.empty]
  | some pkgs => rw [foldl_index_has]; simp [GoMap.has, GoMap.empty]

theorem withPackageMaps_validateBuildConfigurationExistence (opts : ValidateOptions)
    (name : String) :
    opts.withPackageMaps.validateBuildConfigurationExistence name =
      if opts.PackageConfigurations.isNone then none
      else if opts.skips name then none
      else if name ∈ opts.configNames then none
      else if name ∈ opts.indexNames then none
      else some (Err.new "package build configuration not found in the distro") := by
  have h1 := createDistroPackageMap_has opts name
  have h2 := createAPKIndexPackageMap_has opts name
  unfold ValidateOptions.validateBuildConfigurationExistence
  have e1 : opts.withPackageMaps.PackageConfigurations = opts.PackageConfigurations := rfl
  have e2 : opts.withPackageMaps.skips name = opts.skips name := rfl
  have e3 : opts.withPackageMaps.distroPackageMap = opts.createDistroPackageMap := rfl
  have e4 : opts.withPackageMaps.apkIndexPackageMap = opts.createAPKIndexPackageMap := rfl
  rw [e1, e2, e3, e4]
  have h1' : opts.createDistroPackageMap.has name = decide (name ∈ opts.configNames) := by
    rw [Bool.eq_iff_iff, h1]; simp
  have h2' : opts.createAPKIndexPackageMap.has name = decide (name ∈ opts.indexNames) := by
    rw [Bool.eq_iff_iff, h2]; simp
  rw [h1', h2']
  by_cases hc : name ∈ opts.configNames <;> by_cases hi : name ∈ opts.indexNames <;>
    simp [hc, hi]

theorem withPackageMaps_validateBuildConfigurationOrAPKIndexEntryExistence
    (opts : ValidateOptions) (name : String) :
    opts.withPackageMaps.validateBuildConfigurationOrAPKIndexEntryExistence name =
      if opts.PackageConfigurations.isNone || opts.APKIndex.isNone then none
      else if opts.skips name then none
      else if name ∈ opts.configNames then none
      else if name ∈ opts.indexNames then none
      else some (Err.new
        "package not found as a build configuration in the distro or as an entry in the APKINDEX") := by
  have h1 := createDistroPackageMap_has opts name
  have h2 := createAPKIndexPackageMap_has opts name
  unfold ValidateOptions.validateBuildConfigurationOrAPKIndexEntryExistence
  have e1 : opts.withPackageMaps.PackageConfigurations = opts.PackageConfigurations := rfl
  have e2 : opts.withPackageMaps.skips name = opts.skips name := rfl
  have e3 : opts.withPackageMaps.distroPackageMap = opts.createDistroPackageMap := rfl
  have e4 : opts.withPackageMaps.apkIndexPackageMap = opts.createAPKIndexPackageMap := rfl
  have e5 : opts.withPackageMaps.APKIndex = opts.APKIndex := rfl
  rw [e1, e2, e3, e4, e5]
  have h1' : opts.createDistroPackageMap.has name = decide (name ∈ opts.configNames) := by
    rw [Bool.eq_iff_iff, h1]; simp
  have h2' : opts.createAPKIndexPackageMap.has name = decide (name ∈ opts.indexNames) := by
    rw [Bool.eq_iff_iff, h2]; simp
  rw [h1', h2']
  by_cases hc : name ∈ opts.configNames <;> by_cases hi : name ∈ opts.indexNames <;>
    simp [hc, hi]

theorem reported_validateBuildConfigurationExistence (opts : ValidateOptions) (name : String) :
    reported (opts.validateBuildConfigurationExistence name) =
      if (opts.validateBuildConfigurationExistence name).isSome then
        [Leaf.mk [] (Err.new "package build configuration not found in the distro")]
      else [] := by
  unfold ValidateOptions.validateBuildConfigurationExistence
  split_ifs <;> simp_all [reported, Err.leaves]

/-- The failures "package build configuration not found in the distro" of the
diff check: one per in-scope added document whose linkage check fails. -/
theorem filter_buildConfigMissing (opts : ValidateOptions) (diff : IndexDiffResult) :
    (reported (opts.validateIndexDiff diff)).filter
        (fun l => l.err.isNew "package build configuration not found in the distro") =
      (diff.Added.filter (fun d => !opts.skips d.Name &&
          (opts.validateBuildConfigurationExistence d.Name).isSome)).map
        (fun d => Leaf.mk [diffLabel, d.Name]
          (Err.new "package build configuration not found in the distro")) := by
  rw [reported_validateIndexDiff,
    filter_under (Err.isNew "package build configuration not found in the distro")]
  simp only [List.filter_append, List.filter_flatMap]
  rw [flatMap_nil_of_forall _ _ (fun a => filter_modifiedDocumentErr_false _ (fun _ => rfl)
        rfl rfl rfl rfl opts a),
    filter_map_of_forall _ _ _ false (fun _ => rfl)]
  have hdoc : ∀ d : Document,
      (reported (opts.addedDocumentErr d)).filter
        (fun l => l.err.isNew "package build configuration not found in the distro") =
      if (opts.validateBuildConfigurationExistence d.Name).isSome then
        [Leaf.mk [d.Name] (Err.new "package build configuration not found in the distro")]
      else [] := by
    intro d
    rw [reported_addedDocumentErr,
      filter_under (Err.isNew "package build configuration not found in the distro"),
      List.filter_append, List.filter_flatMap,
      flatMap_nil_of_forall _ _ (fun a => filter_addedAdvisoryErr_false _ (fun _ => rfl) opts a),
      reported_validateBuildConfigurationExistence]
    split_ifs <;> simp [Leaf.under, Err.isNew]
  simp only [hdoc, Bool.false_eq_true, if_false, List.nil_append]
  induction diff.Added with
  | nil => rfl
  | cons x xs ih =>
    simp only [List.filter_cons]
    cases h1 : opts.skips x.Name <;>
      cases h2 : (opts.validateBuildConfigurationExistence x.Name).isSome <;>
      simp_all [List.filter_cons, Leaf.under]

theorem mem_reported_buildConfigMissing (opts : ValidateOptions) (diff : IndexDiffResult)
    (name : String) :
    Leaf.mk [diffLabel, name] (Err.new "package build configuration not found in the distro") ∈
        reported (opts.validateIndexDiff diff) ↔
      ∃ d ∈ diff.Added, d.Name = name ∧ opts.skips name = false ∧
        (opts.validateBuildConfigurationExistence name).isSome = true := by
  have hf := filter_buildConfigMissing opts diff
  constructor
  · intro h
    have hm : Leaf.mk [diffLabel, name]
        (Err.new "package build configuration not found in the distro") ∈
        (reported (opts.validateIndexDiff diff)).filter
          (fun l => l.err.isNew "package build configuration not found in the distro") :=
      List.mem_filter.2 ⟨h, rfl⟩
    rw [hf, List.mem_map] at hm
    obtain ⟨d, hd, heq⟩ := hm
    have hn : d.Name = name := by
      have := congrArg Leaf.path heq
      simpa using this
    rw [List.mem_filter] at hd
    subst hn
    refine ⟨d, hd.1, rfl, ?_, ?_⟩ <;> simp_all
  · rintro ⟨d, hd, rfl, hs, hv⟩
    have hm : Leaf.mk [diffLabel, d.Name]
        (Err.new "package build configuration not found in the distro") ∈
        (reported (opts.validateIndexDiff diff)).filter
          (fun l => l.err.isNew "package build configuration not found in the distro") := by
      rw [hf, List.mem_map]
      exact ⟨d, List.mem_filter.2 ⟨hd, by simp [hs, hv]⟩, rfl⟩
    exact (List.mem_filter.1 hm).1


/-! ## Diff policy: package linkage -/

/-- C2, as stated, fails: the build-configuration dataset is present and has
no configuration for foo, the published index has foo, the document of foo is
added and in scope, and the diff check reports nothing at all. -/
theorem C2_counterexample :
    exNewDoc ∈ exAddedDiff.Added ∧ exIndexOnlyOpts.skips exNewDoc.Name = false ∧
    exIndexOnlyOpts.PackageConfigurations.isSome = true ∧
    exNewDoc.Name ∉ exIndexOnlyOpts.configNames ∧
    exNewDoc.Name ∈ exIndexOnlyOpts.indexNames ∧
    exIndexOnlyOpts.withPackageMaps.validateIndexDiff exAddedDiff = none ∧
    Leaf.mk [diffLabel, exNewDoc.Name]
        (Err.new "package build configuration not found in the distro") ∉
      reported (exIndexOnlyOpts.withPackageMaps.validateIndexDiff exAddedDiff) :=
  ⟨by decide, rfl, rfl, by decide, by decide, rfl, fun h => by cases h⟩

/-- C2, amended: for an added in-scope document whose package has no build
configuration, the build-configuration dataset being present, the diff check
reports the missing-build-configuration error under the document if and only
if the package has no entry in the published-package index either. -/
theorem C2_added_without_config (opts : ValidateOptions) (diff : IndexDiffResult)
    (d : Document) (hd : d ∈ diff.Added) (hs : opts.skips d.Name = false)
    (hc : opts.PackageConfigurations.isSome = true) (hn : d.Name ∉ opts.configNames) :
    (Leaf.mk [diffLabel, d.Name]
        (Err.new "package build configuration not found in the distro") ∈
        reported (opts.withPackageMaps.validateIndexDiff diff) ↔
      d.Name ∉ opts.indexNames) ∧
    opts.withPackageMaps.validateBuildConfigurationExistence d.Name =
      (if d.Name ∈ opts.indexNames then none
       else some (Err.new "package build configuration not found in the distro")) := by
  have hv : opts.withPackageMaps.validateBuildConfigurationExistence d.Name =
      (if d.Name ∈ opts.indexNames then none
       else some (Err.new "package build configuration not found in the distro")) := by
    rw [withPackageMaps_validateBuildConfigurationExistence]
    simp [hs, hn, Option.isSome_iff_ne_none.1 hc]
  refine ⟨?_, hv⟩
  rw [mem_reported_buildConfigMissing, hv]
  constructor
  · rintro ⟨_, -, -, -, h⟩
    intro hi
    simp [hi] at h
  · intro hi
    exact ⟨d, hd, rfl, hs, by simp [hi]⟩

/-- The amended C2 at a document of foo, with datasets that know bar and baz
only: the linkage check fails. -/
theorem C2_added_without_config_witness :
    exNewDoc ∈ exAddedDiff.Added ∧ exNoLinkOpts.skips exNewDoc.Name = false ∧
    exNoLinkOpts.PackageConfigurations.isSome = true ∧
    exNewDoc.Name ∉ exNoLinkOpts.configNames ∧
    exNoLinkOpts.withPackageMaps.validateBuildConfigurationExistence exNewDoc.Name =
      some (Err.new "package build configuration not found in the distro") :=
  ⟨by decide, rfl, rfl, by decide,
    (C2_added_without_config exNoLinkOpts exAddedDiff exNewDoc (by decide) rfl rfl
      (by decide)).2.trans rfl⟩

/-- C3: for an added in-scope document, the build-configuration dataset being
present: when the package name has neither a build configuration nor an entry
in the published-package index, the diff check reports the missing-linkage
error under the document; when a build configuration with that name exists,
the linkage check of the document succeeds and no such error is reported
under its name. -/
theorem C3_added_linkage (opts : ValidateOptions) (diff : IndexDiffResult)
    (d : Document) (hd : d ∈ diff.Added) (hs : opts.skips d.Name = false)
    (hc : opts.PackageConfigurations.isSome = true) :
    (d.Name ∉ opts.configNames ∧ d.Name ∉ opts.indexNames →
      Leaf.mk [diffLabel, d.Name]
        (Err.new "package build configuration not found in the distro") ∈
        reported (opts.withPackageMaps.validateIndexDiff diff)) ∧
    (d.Name ∈ opts.configNames →
      opts.withPackageMaps.validateBuildConfigurationExistence d.Name = none ∧
      Leaf.mk [diffLabel, d.Name]
        (Err.new "package build configuration not found in the distro") ∉
        reported (opts.withPackageMaps.validateIndexDiff diff)) := by
  constructor
  · rintro ⟨hn, hi⟩
    rw [mem_reported_buildConfigMissing]
    refine ⟨d, hd, rfl, hs, ?_⟩
    rw [withPackageMaps_validateBuildConfigurationExistence]
    simp [hs, hn, hi, Option.isSome_iff_ne_none.1 hc]
  · intro hin
    have hv : opts.withPackageMaps.validateBuildConfigurationExistence d.Name = none := by
      rw [withPackageMaps_validateBuildConfigurationExistence]
      simp [hin]
    refine ⟨hv, ?_⟩
    rw [mem_reported_buildConfigMissing, hv]
    rintro ⟨_, -, -, -, h⟩
    simp at h

/-- C3 at a document of foo, with datasets that know bar and baz only: the
missing-linkage error is reported under foo. -/
theorem C3_added_linkage_witness :
    exNewDoc ∈ exAddedDiff.Added ∧ exNoLinkOpts.skips exNewDoc.Name = false ∧
    exNoLinkOpts.PackageConfigurations.isSome = true ∧
    exNewDoc.Name ∉ exNoLinkOpts.configNames ∧ exNewDoc.Name ∉ exNoLinkOpts.indexNames ∧
    Leaf.mk [diffLabel, exNewDoc.Name]
        (Err.new "package build configuration not found in the distro") ∈
        reported (exNoLinkOpts.withPackageMaps.validateIndexDiff exAddedDiff) :=
  ⟨by decide, rfl, rfl, by decide, by decide,
    (C3_added_linkage exNoLinkOpts exAddedDiff exNewDoc (by decide) rfl rfl).1
      ⟨by decide, by decide⟩⟩

/-- C4: with both datasets present and the package in scope, the linkage check
of a modified document fails if and only if the package name is neither the
name of a build configuration nor the name of a package of the published
index; the failure is the missing-linkage error. -/
theorem C4_modified_linkage_iff (opts : ValidateOptions) (pkgName : String)
    (cfgs : List Configuration) (pkgs : List ApkPackage)
    (hc : opts.PackageConfigurations = some cfgs) (hi : opts.APKIndex = some pkgs)
    (hs : opts.skips pkgName = false) :
    ((opts.withPackageMaps.validateBuildConfigurationOrAPKIndexEntryExistence pkgName).isSome
        = true ↔
      pkgName ∉ cfgs.map (fun cfg => cfg.Package.Name) ∧
        pkgName ∉ pkgs.map (fun pkg => pkg.Name)) ∧
    opts.withPackageMaps.validateBuildConfigurationOrAPKIndexEntryExistence pkgName =
      (if pkgName ∈ cfgs.map (fun cfg => cfg.Package.Name) ∨
          pkgName ∈ pkgs.map (fun pkg => pkg.Name) then none
       else some (Err.new
        "package not found as a build configuration in the distro or as an entry in the APKINDEX")) := by
  rw [withPackageMaps_validateBuildConfigurationOrAPKIndexEntryExistence]
  have hcn : opts.configNames = cfgs.map (fun cfg => cfg.Package.Name) := by
    simp [ValidateOptions.configNames, hc]
  have hin : opts.indexNames = pkgs.map (fun pkg => pkg.Name) := by
    simp [ValidateOptions.indexNames, hi]
  rw [hcn, hin]
  by_cases h1 : pkgName ∈ cfgs.map (fun cfg => cfg.Package.Name) <;>
    by_cases h2 : pkgName ∈ pkgs.map (fun pkg => pkg.Name) <;>
    simp [hc, hi, hs, h1, h2]


/-- C4 at the package foo, with datasets that know bar and baz only. -/
theorem C4_modified_linkage_iff_witness :
    exNoLinkOpts.PackageConfigurations = some [⟨⟨"bar"⟩⟩] ∧
    exNoLinkOpts.APKIndex = some [⟨"baz", "2.0-r1"⟩] ∧ exNoLinkOpts.skips "foo" = false ∧
    exNoLinkOpts.withPackageMaps.validateBuildConfigurationOrAPKIndexEntryExistence "foo" =
      some (Err.new
        "package not found as a build configuration in the distro or as an entry in the APKINDEX") :=
  ⟨rfl, rfl, rfl,
    (C4_modified_linkage_iff exNoLinkOpts "foo" [⟨⟨"bar"⟩⟩] [⟨"baz", "2.0-r1"⟩] rfl rfl rfl).2.trans
      rfl⟩

/-! ## Diff policy: removals and event changes -/

/-- C5: the failures "document was removed" of the diff check are exactly one
per in-scope document of `diff.Removed`, in order, each labelled with the
name of its document, and they are the same whatever `diff.Added` and
`diff.Modified` hold. -/
theorem C5_removed_documents (opts : ValidateOptions) (diff : IndexDiffResult)
    (added : List Document) (modified : List DocumentDiffResult) :
    (reported (opts.validateIndexDiff diff)).filter
        (fun l => l.err.isNew "document was removed") =
      (diff.Removed.filter (fun d => !opts.skips d.Name)).map
        (fun d => Leaf.mk [diffLabel, d.Name] (Err.new "document was removed")) ∧
    (reported (opts.validateIndexDiff
        { Added := added, Removed := diff.Removed, Modified := modified })).filter
        (fun l => l.err.isNew "document was removed") =
      (reported (opts.validateIndexDiff diff)).filter
        (fun l => l.err.isNew "document was removed") := by
  have key : ∀ diff : IndexDiffResult,
      (reported (opts.validateIndexDiff diff)).filter
        (fun l => l.err.isNew "document was removed") =
      (diff.Removed.filter (fun d => !opts.skips d.Name)).map
        (fun d => Leaf.mk [diffLabel, d.Name] (Err.new "document was removed")) := by
    intro diff
    rw [reported_validateIndexDiff, filter_under (Err.isNew "document was removed")]
    simp only [List.filter_append, List.filter_flatMap]
    rw [flatMap_nil_of_forall _ _ (fun a => filter_modifiedDocumentErr_false _ (fun _ => rfl)
        rfl rfl rfl rfl opts a),
      flatMap_nil_of_forall _ _ (fun a => filter_addedDocumentErr_false _ (fun _ => rfl)
        rfl opts a)]
    simp [List.filter_map, Leaf.under, Err.isNew]
  exact ⟨key diff, by rw [key, key]⟩

/-- C6: the failures "advisory was removed" of the diff check are exactly one
per advisory of the `Removed` list of every in-scope modified document, in
order, each labelled with the document name and the advisory ID, whatever
the added and modified advisories of the document are. -/
theorem C6_removed_advisories (opts : ValidateOptions) (diff : IndexDiffResult) :
    (reported (opts.validateIndexDiff diff)).filter
        (fun l => l.err.isNew "advisory was removed") =
      (diff.Modified.filter (fun d => !opts.skips d.Name)).flatMap (fun d =>
        d.Removed.map
          (fun adv => Leaf.mk [diffLabel, d.Name, adv.ID] (Err.new "advisory was removed"))) := by
  rw [reported_validateIndexDiff, filter_under (Err.isNew "advisory was removed")]
  simp only [List.filter_append, List.filter_flatMap]
  rw [flatMap_nil_of_forall _ _ (fun a => filter_addedDocumentErr_false _ (fun _ => rfl)
        rfl opts a)]
  have hdoc : ∀ d : DocumentDiffResult,
      (reported (opts.modifiedDocumentErr d)).filter
        (fun l => l.err.isNew "advisory was removed") =
      d.Removed.map (fun adv => Leaf.mk [d.Name, adv.ID] (Err.new "advisory was removed")) := by
    intro d
    rw [reported_modifiedDocumentErr, filter_under (Err.isNew "advisory was removed")]
    simp only [List.filter_append, List.filter_flatMap,
      filter_linkageModified_false (Err.isNew "advisory was removed") rfl,
      filter_removedAdvisories (Err.isNew "advisory was removed")]
    rw [flatMap_nil_of_forall _ _ (fun a => filter_modifiedAdvisoryErr_false _ (fun _ => rfl)
        rfl rfl opts a),
      flatMap_nil_of_forall _ _ (fun a => filter_addedAdvisoryErr_false _ (fun _ => rfl) opts a)]
    simp [Err.isNew, Leaf.under]
  simp only [hdoc]
  rw [filter_map_of_forall _ _ _ false (fun _ => rfl)]
  simp only [Bool.false_eq_true, if_false, List.nil_append, List.append_nil, List.map_flatMap,
    List.map_map]
  rfl


/-- C7: among the failures of a modified advisory, the two event-removal
errors occur as follows: none when `RemovedEvents` is empty, exactly "one or
more events were removed" when `RemovedEvents` is non-empty and `AddedEvents`
is empty, exactly "one or more events were modified or removed" when both
are non-empty; so never both. The diff check reports exactly these, for every
modified advisory of every in-scope modified document, under the document
name and the advisory ID. -/
theorem C7_event_removal_errors (opts : ValidateOptions) (diff : IndexDiffResult)
    (adv : AdvisoryDiffResult) :
    (reported (opts.modifiedAdvisoryErr adv)).filter
        (fun l => l.err.isErrorf "one or more events were modified or removed" ||
          l.err.isNew "one or more events were removed") =
      (if adv.RemovedEvents = [] then []
       else if adv.AddedEvents = [] then
         [Leaf.mk [adv.ID] (Err.new "one or more events were removed")]
       else [Leaf.mk [adv.ID] (Err.errorf "one or more events were modified or removed" [])]) ∧
    (reported (opts.validateIndexDiff diff)).filter
        (fun l => l.err.isErrorf "one or more events were modified or removed" ||
          l.err.isNew "one or more events were removed") =
      (diff.Modified.filter (fun d => !opts.skips d.Name)).flatMap (fun d =>
        d.Modified.flatMap (fun a =>
          if a.RemovedEvents = [] then []
          else if a.AddedEvents = [] then
            [Leaf.mk [diffLabel, d.Name, a.ID] (Err.new "one or more events were removed")]
          else [Leaf.mk [diffLabel, d.Name, a.ID]
            (Err.errorf "one or more events were modified or removed" [])])) := by
  have hadv : ∀ a : AdvisoryDiffResult,
      (reported (opts.modifiedAdvisoryErr a)).filter
        (fun l => l.err.isErrorf "one or more events were modified or removed" ||
          l.err.isNew "one or more events were removed") =
      (ambiguityLeaves a).map (Leaf.under a.ID) := by
    intro a
    rw [reported_modifiedAdvisoryErr,
      filter_under (fun e => e.isErrorf "one or more events were modified or removed" ||
          e.isNew "one or more events were removed"),
      List.filter_append,
      filter_staleLeaves_false (fun e => e.isErrorf "one or more events were modified or removed" ||
          e.isNew "one or more events were removed") (fun _ => rfl),
      filter_ambiguityLeaves_true (fun e => e.isErrorf "one or more events were modified or removed" ||
          e.isNew "one or more events were removed") rfl rfl, List.append_nil]
  have hform : ∀ (pre : List String) (a : AdvisoryDiffResult),
      (ambiguityLeaves a).map (fun l => Leaf.mk (pre ++ a.ID :: l.path) l.err) =
      (if a.RemovedEvents = [] then []
       else if a.AddedEvents = [] then
         [Leaf.mk (pre ++ [a.ID]) (Err.new "one or more events were removed")]
       else [Leaf.mk (pre ++ [a.ID])
          (Err.errorf "one or more events were modified or removed" [])]) := by
    intro pre a
    unfold ambiguityLeaves
    split_ifs <;> rfl
  refine ⟨by rw [hadv]; exact hform [] adv, ?_⟩
  rw [reported_validateIndexDiff,
    filter_under (fun e => e.isErrorf "one or more events were modified or removed" ||
          e.isNew "one or more events were removed")]
  simp only [List.filter_append, List.filter_flatMap]
  rw [flatMap_nil_of_forall _ _ (fun a => filter_addedDocumentErr_false
        (fun e => e.isErrorf "one or more events were modified or removed" ||
          e.isNew "one or more events were removed") (fun _ => rfl) rfl opts a),
    filter_map_of_forall _ _ _ false (fun _ => rfl)]
  have hdoc : ∀ d : DocumentDiffResult,
      (reported (opts.modifiedDocumentErr d)).filter
        (fun l => l.err.isErrorf "one or more events were modified or removed" ||
          l.err.isNew "one or more events were removed") =
      d.Modified.flatMap (fun a =>
        (ambiguityLeaves a).map (fun l => Leaf.mk ([d.Name] ++ a.ID :: l.path) l.err)) := by
    intro d
    rw [reported_modifiedDocumentErr,
      filter_under (fun e => e.isErrorf "one or more events were modified or removed" ||
          e.isNew "one or more events were removed")]
    simp only [List.filter_append, List.filter_flatMap, hadv]
    rw [filter_linkageModified_false (fun e =>
          e.isErrorf "one or more events were modified or removed" ||
          e.isNew "one or more events were removed") rfl,
      filter_map_of_forall _ _ _ false (fun _ => rfl),
      flatMap_nil_of_forall _ _ (fun a => filter_addedAdvisoryErr_false
        (fun e => e.isErrorf "one or more events were modified or removed" ||
          e.isNew "one or more events were removed") (fun _ => rfl) opts a)]
    simp only [Bool.false_eq_true, if_false, List.nil_append, List.append_nil, List.map_flatMap,
      List.map_map]
    rfl
  simp only [hdoc, Bool.false_eq_true, if_false, List.nil_append, List.append_nil,
    List.map_flatMap, List.map_map]
  have hform2 : ∀ (d : DocumentDiffResult) (a : AdvisoryDiffResult),
      (ambiguityLeaves a).map (Leaf.under diffLabel ∘
        fun l => Leaf.mk ([d.Name] ++ a.ID :: l.path) l.err) =
      (if a.RemovedEvents = [] then []
          else if a.AddedEvents = [] then
            [Leaf.mk [diffLabel, d.Name, a.ID] (Err.new "one or more events were removed")]
          else [Leaf.mk [diffLabel, d.Name, a.ID]
            (Err.errorf "one or more events were modified or removed" [])]) := by
    intro d a
    unfold ambiguityLeaves
    split_ifs <;> rfl
  simp only [hform2]

/-- C8: for a modified advisory without removed events, in a modified document
that is in scope and whose package linkage is satisfied:
(1) the failures of the advisory are exactly one per added event that is not
recent, under the advisory ID and the 1-based position of the event;
(2) they are part of the report of the diff check, under the document name;
(3) there is no failure when every added event is recent;
(4) when the diff holds nothing but this advisory, they are the whole report
of the diff check;
(5) with a single added event stamped `Now` the diff check of (4) succeeds;
(6) with a single added event stamped `Now - 4 days` the failure is the stale
event error, which carries the threshold 3;
(7) for every modified advisory, the stale-event failures are those of its
`AddedEvents`, so no other event is checked for recency. -/
theorem C8_added_events_recency (opts : ValidateOptions) (diff : IndexDiffResult)
    (d : DocumentDiffResult) (adv : AdvisoryDiffResult)
    (hd : d ∈ diff.Modified) (hs : opts.skips d.Name = false)
    (hl : opts.validateBuildConfigurationOrAPKIndexEntryExistence d.Name = none)
    (ha : adv ∈ d.Modified) (hr : adv.RemovedEvents = []) :
    reported (opts.modifiedAdvisoryErr adv) =
      (adv.AddedEvents.enum.filter (fun ie => !opts.isRecent ie.2.Timestamp)).map
        (fun ie => Leaf.mk [adv.ID, "event " ++ toString (ie.1 + 1) ++ " (just added)"]
          (staleErr ie.2)) ∧
    ((reported (opts.modifiedAdvisoryErr adv)).map
        (fun l => Leaf.mk (diffLabel :: d.Name :: l.path) l.err)).Sublist
      (reported (opts.validateIndexDiff diff)) ∧
    ((∀ e ∈ adv.AddedEvents, opts.isRecent e.Timestamp = true) →
      opts.modifiedAdvisoryErr adv = none) ∧
    (diff = { Added := [], Removed := [],
              Modified := [{ Name := d.Name, Added := [], Removed := [], Modified := [adv] }] } →
      reported (opts.validateIndexDiff diff) =
        (adv.AddedEvents.enum.filter (fun ie => !opts.isRecent ie.2.Timestamp)).map
          (fun ie => Leaf.mk
            [diffLabel, d.Name, adv.ID, "event " ++ toString (ie.1 + 1) ++ " (just added)"]
            (staleErr ie.2))) ∧
    (∀ e2 : Event, adv.AddedEvents = [e2] → e2.Timestamp = opts.Now →
      diff = { Added := [], Removed := [],
               Modified := [{ Name := d.Name, Added := [], Removed := [], Modified := [adv] }] } →
      opts.validateIndexDiff diff = none) ∧
    (∀ e2 : Event, adv.AddedEvents = [e2] → e2.Timestamp = opts.Now - 4 * 24 * hour →
      reported (opts.modifiedAdvisoryErr adv) =
        [Leaf.mk [adv.ID, "event 1 (just added)"]
          (Err.errorf
            "event's timestamp (%s) set to more than %d days ago; timestamps should accurately capture event creation time"
            [Arg.time e2.Timestamp, Arg.int 3])]) ∧
    (∀ a : AdvisoryDiffResult,
      (reported (opts.modifiedAdvisoryErr a)).filter (fun l => l.err.isErrorf
        "event's timestamp (%s) set to more than %d days ago; timestamps should accurately capture event creation time") =
        (a.AddedEvents.enum.filter (fun ie => !opts.isRecent ie.2.Timestamp)).map
          (fun ie => Leaf.mk [a.ID, "event " ++ toString (ie.1 + 1) ++ " (just added)"]
            (staleErr ie.2))) := by
  have h1 := reported_modifiedAdvisoryErr_of_not_removed opts adv hr
  have hshape : ∀ (pre : List String) (id : String) (evs : List Event),
      (opts.staleLeaves evs).map (fun l => Leaf.mk (pre ++ id :: l.path) l.err) =
      (evs.enum.filter (fun ie => !opts.isRecent ie.2.Timestamp)).map
        (fun ie => Leaf.mk (pre ++ [id, "event " ++ toString (ie.1 + 1) ++ " (just added)"])
          (staleErr ie.2)) := by
    intro pre id evs
    unfold ValidateOptions.staleLeaves
    rw [List.map_map]; rfl
  have hsingle : diff = IndexDiffResult.mk [] [] [DocumentDiffResult.mk d.Name [] [] [adv]] →
      reported (opts.validateIndexDiff diff) =
        (opts.staleLeaves adv.AddedEvents).map
          (fun l => Leaf.mk ([diffLabel, d.Name] ++ adv.ID :: l.path) l.err) := by
    intro hdiff
    rw [hdiff, reported_validateIndexDiff]
    simp only [List.filter_nil, List.map_nil, List.flatMap_nil, List.nil_append, List.append_nil,
      List.filter_cons, hs, Bool.not_false, if_true, List.flatMap_cons,
      reported_modifiedDocumentErr, hl, reported_none, h1, List.map_map]
    rfl
  refine ⟨?_, modifiedAdvisoryErr_sublist opts diff d adv hd hs ha, ?_, ?_, ?_, ?_, ?_⟩
  · rw [h1]; exact hshape [] adv.ID adv.AddedEvents
  · intro hall
    apply modifiedAdvisoryErr_sound
    rw [h1, staleLeaves_eq_nil opts _ hall]; rfl
  · intro hdiff
    rw [hsingle hdiff]; exact hshape [diffLabel, d.Name] adv.ID adv.AddedEvents
  · intro e2 he2 hts hdiff
    apply validateIndexDiff_sound
    rw [hsingle hdiff, staleLeaves_eq_nil]; · rfl
    intro e he
    rw [he2, List.mem_singleton] at he
    rw [he, hts, isRecent_iff]
    unfold hour; norm_num
  · intro e2 he2 hts
    have hnr : opts.isRecent e2.Timestamp = false := by
      rw [Bool.eq_false_iff]
      intro hrec
      rw [isRecent_iff, hts] at hrec
      unfold hour at hrec
      omega
    rw [h1, he2]
    simp [ValidateOptions.staleLeaves, List.enum, List.enumFrom, hnr, Leaf.under, staleErr,
      justAddedLabel]
    rfl
  · intro a
    rw [reported_modifiedAdvisoryErr, filter_under (Err.isErrorf
      "event's timestamp (%s) set to more than %d days ago; timestamps should accurately capture event creation time"),
      List.filter_append, filter_staleLeaves_true _ (fun _ => rfl),
      filter_ambiguityLeaves_false _ rfl rfl, List.nil_append]
    exact hshape [] a.ID a.AddedEvents

/-- C8 at the diff of the example: docA, advisory X, one added event that is
four days old. -/
theorem C8_added_events_recency_witness :
    exDocumentDiff ∈ exDiff.Modified ∧ exOpts.skips exDocumentDiff.Name = false ∧
    exOpts.validateBuildConfigurationOrAPKIndexEntryExistence exDocumentDiff.Name = none ∧
    exAdvisoryDiff ∈ exDocumentDiff.Modified ∧ exAdvisoryDiff.RemovedEvents = [] ∧
    reported (exOpts.validateIndexDiff exDiff) =
      [Leaf.mk [diffLabel, "docA", "X", "event 1 (just added)"] (staleErr exStaleEvent)] :=
  ⟨by decide, rfl, rfl, by decide, rfl,
    ((C8_added_events_recency exOpts exDiff exDocumentDiff exAdvisoryDiff (by decide) rfl rfl
      (by decide) rfl).2.2.2.1 rfl).trans rfl⟩

/-! ## Uniqueness of advisory IDs: properties -/

theorem priorPaths_append_of_le (pre post : List (String × String)) (k : Nat) (id : String)
    (hk : k ≤ pre.length) : priorPaths (pre ++ post) k id = priorPaths pre k id := by
  unfold priorPaths
  rw [List.take_append_of_le_length hk]

theorem priorPaths_length (pre : List (String × String)) (id : String) :
    priorPaths pre pre.length id = (pre.filter (fun o => o.1 == id)).map (fun o => o.2) := by
  unfold priorPaths
  rw [List.take_length]

theorem duplicateErrs_append_singleton (pre : List (String × String)) (o : String × String) :
    duplicateErrs (pre ++ [o]) =
      duplicateErrs pre ++
        (if (priorPaths pre pre.length o.1).isEmpty then []
         else [duplicateIDErr o.1 o.2 (priorPaths pre pre.length o.1)]) := by
  unfold duplicateErrs
  rw [List.enum_append, List.filter_append, List.map_append]
  congr 1
  · have hf : List.filter (fun ko => !(priorPaths (pre ++ [o]) ko.1 ko.2.1).isEmpty) pre.enum =
        List.filter (fun ko => !(priorPaths pre ko.1 ko.2.1).isEmpty) pre.enum := by
      apply List.filter_congr
      intro ko hko
      rw [priorPaths_append_of_le _ _ _ _ (Nat.le_of_lt (List.fst_lt_of_mem_enum hko))]
    rw [hf]
    apply List.map_congr_left
    intro ko hko
    have hko' := (List.mem_filter.1 hko).1
    rw [priorPaths_append_of_le _ _ _ _ (Nat.le_of_lt (List.fst_lt_of_mem_enum hko'))]
  · have e := priorPaths_append_of_le pre [o] pre.length o.1 (Nat.le_refl _)
    simp only [List.enumFrom_cons, List.enumFrom_nil, List.filter_cons, List.filter_nil, e]
    cases h : (priorPaths pre pre.length o.1).isEmpty <;> simp [e]

theorem uniquenessStep_inv (p : String) (pre : List (String × String))
    (st : GoMap (List String) × List (Option Err)) (adv : Advisory)
    (h : UniquenessInv pre st) :
    UniquenessInv (pre ++ [(adv.ID, p)]) (uniquenessStep p st adv) := by
  obtain ⟨hseen, herrs⟩ := h
  have hget : (st.1 adv.ID).getD [] = priorPaths pre pre.length adv.ID := by
    rw [hseen]
    cases hp : priorPaths pre pre.length adv.ID <;> simp
  have hhas : st.1.has adv.ID = !(priorPaths pre pre.length adv.ID).isEmpty := by
    unfold GoMap.has
    rw [hseen]
    cases hp : priorPaths pre pre.length adv.ID <;> simp
  constructor
  · intro id
    have hnew : priorPaths (pre ++ [(adv.ID, p)]) (pre ++ [(adv.ID, p)]).length id =
        priorPaths pre pre.length id ++ (if adv.ID == id then [p] else []) := by
      rw [priorPaths_length, priorPaths_length, List.filter_append, List.map_append]
      cases hb : (adv.ID == id) <;> simp [List.filter_cons, hb]
    rw [hnew]
    simp only [uniquenessStep, GoMap.set, hget]
    by_cases hid : id = adv.ID
    · subst hid
      simp
    · have hne : (adv.ID == id) = false := by
        rw [beq_eq_false_iff_ne]; exact fun h => hid h.symm
      simp [hid, hne, hseen]
  · simp only [uniquenessStep, hget, hhas, herrs]
    rw [duplicateErrs_append_singleton]
    cases hp : (priorPaths pre pre.length adv.ID).isEmpty <;> simp

theorem foldl_uniquenessStep_inv (p : String) (advs : List Advisory)
    (pre : List (String × String)) (st : GoMap (List String) × List (Option Err))
    (h : UniquenessInv pre st) :
    UniquenessInv (pre ++ advs.map (fun adv => (adv.ID, p)))
      (advs.foldl (uniquenessStep p) st) := by
  induction advs generalizing pre st with
  | nil => simpa using h
  | cons a as ih =>
    have := ih _ _ (uniquenessStep_inv p pre st a h)
    simpa using this

theorem foldl_uniquenessEntryStep_inv (opts : ValidateOptions) (docs : List Entry)
    (pre : List (String × String)) (st : GoMap (List String) × List (Option Err))
    (h : UniquenessInv pre st) :
    UniquenessInv
      (pre ++ (docs.filter (fun e => !opts.skips e.Configuration.Package.Name)).flatMap
        (fun e => e.Configuration.Advisories.map (fun adv => (adv.ID, e.Path))))
      (docs.foldl opts.uniquenessEntryStep st) := by
  induction docs generalizing pre st with
  | nil => simpa using h
  | cons e es ih =>
    rw [List.foldl_cons, List.filter_cons]
    cases hs : opts.skips e.Configuration.Package.Name
    · have h' := foldl_uniquenessStep_inv e.Path e.Configuration.Advisories pre st h
      have := ih _ _ h'
      simpa [ValidateOptions.uniquenessEntryStep, hs] using this
    · have := ih _ _ h
      simpa [ValidateOptions.uniquenessEntryStep, hs] using this

theorem validateAdvisoryIDUniqueness_eq (opts : ValidateOptions) :
    opts.validateAdvisoryIDUniqueness = errorsJoin ((duplicateErrs opts.occurrences).map some) := by
  have h0 : UniquenessInv [] (GoMap.empty, []) := by
    constructor
    · intro id; simp [priorPaths, GoMap.empty]
    · simp [duplicateErrs]
  have := foldl_uniquenessEntryStep_inv opts opts.AdvisoryDocs [] _ h0
  simp only [List.nil_append] at this
  show errorsJoin (opts.AdvisoryDocs.foldl opts.uniquenessEntryStep (GoMap.empty, [])).2 = _
  rw [this.2]; rfl


theorem skips_iff (opts : ValidateOptions) (name : String) :
    opts.skips name = true ↔ opts.SelectedPackages ≠ [] ∧ name ∉ opts.SelectedPackages := by
  unfold ValidateOptions.skips
  cases h : opts.SelectedPackages <;> simp

theorem priorPaths_isEmpty_iff (pre : List (String × String)) (id : String) :
    (priorPaths pre pre.length id).isEmpty = true ↔ id ∉ pre.map (fun o => o.1) := by
  rw [priorPaths_length, List.isEmpty_iff, List.map_eq_nil_iff, List.filter_eq_nil_iff]
  simp only [List.mem_map, not_exists, not_and, beq_iff_eq]

theorem duplicateErrs_eq_nil_iff (occ : List (String × String)) :
    duplicateErrs occ = [] ↔ (occ.map (fun o => o.1)).Nodup := by
  induction occ using List.reverseRecOn with
  | nil => simp [duplicateErrs]
  | append_singleton pre o ih =>
    rw [duplicateErrs_append_singleton, List.append_eq_nil, ih, List.map_append,
      List.nodup_append]
    have hp := priorPaths_isEmpty_iff pre o.1
    by_cases hmem : o.1 ∈ pre.map (fun o => o.1)
    · have : (priorPaths pre pre.length o.1).isEmpty = false := by
        rw [Bool.eq_false_iff]; exact fun h => (hp.1 h) hmem
      simp [this, hmem]
    · have : (priorPaths pre pre.length o.1).isEmpty = true := hp.2 hmem
      simp [this, hmem]

theorem occurrences_inScope (opts : ValidateOptions) :
    ValidateOptions.occurrences
      { opts with AdvisoryDocs :=
          opts.AdvisoryDocs.filter (fun e => !opts.skips e.Configuration.Package.Name) } =
      opts.occurrences := by
  unfold ValidateOptions.occurrences
  simp only [List.filter_filter]
  congr 1
  apply List.filter_congr
  intro e _
  show (!opts.skips e.Configuration.Package.Name && !opts.skips e.Configuration.Package.Name) = _
  simp

/-- C9: the uniqueness pass scans the advisories of the entries that are not
skipped, and an entry is skipped exactly when the selection is non-empty and
does not hold its package; so the pass gives the same result on the in-scope
entries alone. Its report is exactly one duplicate-ID error for each
occurrence of an ID that occurred before in the scan, naming the ID, the
path of the occurrence and, joined in scan order, the paths of all earlier
occurrences of the ID. It returns nil if and only if the scanned IDs are
pairwise distinct. -/
theorem C9_advisory_id_uniqueness (opts : ValidateOptions) :
    (∀ name, opts.skips name = true ↔
      opts.SelectedPackages ≠ [] ∧ name ∉ opts.SelectedPackages) ∧
    opts.validateAdvisoryIDUniqueness =
      ValidateOptions.validateAdvisoryIDUniqueness
        { opts with AdvisoryDocs :=
            opts.AdvisoryDocs.filter (fun e => !opts.skips e.Configuration.Package.Name) } ∧
    reported opts.validateAdvisoryIDUniqueness =
      (opts.occurrences.enum.filter
          (fun ko => !(priorPaths opts.occurrences ko.1 ko.2.1).isEmpty)).map
        (fun ko => Leaf.mk []
          (Err.errorf "duplicate advisory ID %q (found in %s, but already seen in: %s)"
            [Arg.str ko.2.1, Arg.str ko.2.2,
             Arg.str (String.intercalate ", " (priorPaths opts.occurrences ko.1 ko.2.1))])) ∧
    (opts.validateAdvisoryIDUniqueness = none ↔
      (opts.occurrences.map (fun o => o.1)).Nodup) := by
  refine ⟨skips_iff opts, ?_, ?_, ?_⟩
  · rw [validateAdvisoryIDUniqueness_eq, validateAdvisoryIDUniqueness_eq, occurrences_inScope]
  · rw [validateAdvisoryIDUniqueness_eq, reported_errorsJoin, flatMap_map_reported]
    unfold duplicateErrs duplicateIDErr
    generalize List.filter _ _ = l
    induction l with
    | nil => rfl
    | cons x xs ih => simp only [List.map_cons, List.flatMap_cons, ih]; rfl
  · rw [validateAdvisoryIDUniqueness_eq, errorsJoin_eq_none_iff, ← duplicateErrs_eq_nil_iff]
    constructor
    · intro h
      cases hd : duplicateErrs opts.occurrences with
      | nil => rfl
      | cons x xs =>
        have := h (some x) (by simp [hd])
        cases this
    · intro h
      simp [h]

/-! ## Document names: properties -/

theorem trimSuffix_append (x suffix : String) : trimSuffix (x ++ suffix) suffix = x := by
  unfold trimSuffix
  have h : suffix.data.isSuffixOf (x ++ suffix).data = true := by
    rw [List.isSuffixOf_iff_suffix, String.data_append]
    exact List.suffix_append _ _
  rw [if_pos h]
  simp [String.data_append]

theorem trimSuffix_of_not_suffix (s suffix : String)
    (h : ¬ ∃ x : String, s = x ++ suffix) : trimSuffix s suffix = s := by
  unfold trimSuffix
  have hn : ¬ (suffix.data.isSuffixOf s.data = true) := by
    rw [List.isSuffixOf_iff_suffix]
    rintro ⟨t, ht⟩
    apply h
    refine ⟨String.mk t, ?_⟩
    apply String.ext
    rw [String.data_append, ht]
  rw [if_neg hn]

theorem foldl_nameErrs (docs : List Entry) (errs : List (Option Err)) :
    docs.foldl (fun errs e =>
      if e.Path ≠ e.Configuration.Package.Name ++ ".advisories.yaml" then
        errs ++ [some (Err.errorf "document file name %q does not match package name %q"
          [Arg.str (trimSuffix e.Path ".advisories.yaml"),
           Arg.str e.Configuration.Package.Name])]
      else errs) errs =
    errs ++ (docs.filter
        (fun e => decide (e.Path ≠ e.Configuration.Package.Name ++ ".advisories.yaml"))).map
      (fun e => some (Err.errorf "document file name %q does not match package name %q"
          [Arg.str (trimSuffix e.Path ".advisories.yaml"),
           Arg.str e.Configuration.Package.Name])) := by
  induction docs generalizing errs with
  | nil => simp
  | cons e es ih =>
    rw [List.foldl_cons, ih, List.filter_cons]
    by_cases h : e.Path = e.Configuration.Package.Name ++ ".advisories.yaml" <;> simp [h]

/-- C10: the naming check reports exactly one error for each entry whose path
differs from the package name followed by ".advisories.yaml", in order, and
none for the others; the error carries the found name, which is the path
with a trailing ".advisories.yaml" stripped (the path itself when it has no
such ending), and the package name. It returns nil exactly when every path
is the expected one. -/
theorem C10_document_name_matches (opts : ValidateOptions) :
    reported opts.validateDocumentNameMatchesPackageName =
      (opts.AdvisoryDocs.filter
        (fun e => decide (e.Path ≠ e.Configuration.Package.Name ++ ".advisories.yaml"))).map
        (fun e => Leaf.mk []
          (Err.errorf "document file name %q does not match package name %q"
            [Arg.str (trimSuffix e.Path ".advisories.yaml"),
             Arg.str e.Configuration.Package.Name])) ∧
    (opts.validateDocumentNameMatchesPackageName = none ↔
      ∀ e ∈ opts.AdvisoryDocs, e.Path = e.Configuration.Package.Name ++ ".advisories.yaml") ∧
    (∀ x : String, trimSuffix (x ++ ".advisories.yaml") ".advisories.yaml" = x) ∧
    (∀ s : String, (¬ ∃ x : String, s = x ++ ".advisories.yaml") →
      trimSuffix s ".advisories.yaml" = s) := by
  have heq : opts.validateDocumentNameMatchesPackageName =
      errorsJoin ((opts.AdvisoryDocs.filter
        (fun e => decide (e.Path ≠ e.Configuration.Package.Name ++ ".advisories.yaml"))).map
        (fun e => some (Err.errorf "document file name %q does not match package name %q"
          [Arg.str (trimSuffix e.Path ".advisories.yaml"),
           Arg.str e.Configuration.Package.Name]))) := by
    unfold ValidateOptions.validateDocumentNameMatchesPackageName
    simp only [foldl_nameErrs, List.nil_append]
  refine ⟨?_, ?_, fun x => trimSuffix_append x _, fun s h => trimSuffix_of_not_suffix s _ h⟩
  · rw [heq, reported_errorsJoin, flatMap_map_reported]
    generalize List.filter _ _ = l
    induction l with
    | nil => rfl
    | cons x xs ih => simp only [List.map_cons, List.flatMap_cons, ih]; rfl
  · rw [heq, errorsJoin_eq_none_iff]
    constructor
    · intro h e he
      by_contra hne
      have := h (some (Err.errorf "document file name %q does not match package name %q"
          [Arg.str (trimSuffix e.Path ".advisories.yaml"),
           Arg.str e.Configuration.Package.Name]))
        (List.mem_map.2 ⟨e, List.mem_filter.2 ⟨he, by simpa using hne⟩, rfl⟩)
      cases this
    · intro h x hx
      rw [List.mem_map] at hx
      obtain ⟨e, he, -⟩ := hx
      rw [List.mem_filter] at he
      have := h e he.1
      simp [this] at he

/-- C11: a failing input. The selection holds the package a alone, the only
document is of the package b, which is skipped by the selection-aware passes,
and its path is not b.advisories.yaml: the naming check reports the mismatch
all the same. The check does not read the selection at all. -/
theorem C11_naming_ignores_selection :
    exUnselectedOpts.SelectedPackages = ["a"] ∧
    exUnselectedOpts.skips "b" = true ∧
    reported exUnselectedOpts.validateDocumentNameMatchesPackageName =
      [Leaf.mk [] (Err.errorf "document file name %q does not match package name %q"
        [Arg.str "wrong.yaml", Arg.str "b"])] ∧
    (∀ (opts : ValidateOptions) (selection : List String),
      ValidateOptions.validateDocumentNameMatchesPackageName
          { opts with SelectedPackages := selection } =
        opts.validateDocumentNameMatchesPackageName) :=
  ⟨rfl, rfl, rfl, fun _ _ => rfl⟩

/-! ## Fixed versions: properties -/

theorem foldl_index_getD (pkgs : List ApkPackage) (m : GoMap (List ApkPackage)) (name : String) :
    ((pkgs.foldl (fun pkgMap pkg => pkgMap.set pkg.Name ((pkgMap pkg.Name).getD [] ++ [pkg]))
        m) name).getD [] =
      (m name).getD [] ++ pkgs.filter (fun pkg => pkg.Name == name) := by
  induction pkgs generalizing m with
  | nil => simp
  | cons c cs ih =>
    rw [List.foldl_cons, ih, List.filter_cons]
    by_cases h : c.Name = name
    · subst h
      simp [GoMap.set]
    · have h' : ¬ (name = c.Name) := fun e => h e.symm
      simp [GoMap.set, h, h']

theorem createAPKIndexPackageMap_getD (opts : ValidateOptions) (pkgs : List ApkPackage)
    (hi : opts.APKIndex = some pkgs) (name : String) :
    (opts.createAPKIndexPackageMap name).getD [] = pkgs.filter (fun pkg => pkg.Name == name) := by
  unfold ValidateOptions.createAPKIndexPackageMap
  rw [hi]
  simp only [foldl_index_getD]
  simp [GoMap.empty]

theorem withPackageMaps_validatePackageVersionExistsInAPKINDEX (opts : ValidateOptions)
    (pkgs : List ApkPackage) (hi : opts.APKIndex = some pkgs) (name version : String)
    (hs : opts.skips name = false) :
    opts.withPackageMaps.validatePackageVersionExistsInAPKINDEX name version =
      if pkgs.any (fun pkg => pkg.Name == name && pkg.Version == version) then none
      else some (fixedVersionErr pkgs name version) := by
  have h1 := createAPKIndexPackageMap_has opts name
  have h2 := createAPKIndexPackageMap_getD opts pkgs hi name
  have hin : opts.indexNames = pkgs.map (fun pkg => pkg.Name) := by
    simp [ValidateOptions.indexNames, hi]
  rw [hin] at h1
  unfold ValidateOptions.validatePackageVersionExistsInAPKINDEX fixedVersionErr
  have e1 : opts.withPackageMaps.APKIndex = opts.APKIndex := rfl
  have e2 : opts.withPackageMaps.skips name = opts.skips name := rfl
  have e4 : opts.withPackageMaps.apkIndexPackageMap = opts.createAPKIndexPackageMap := rfl
  rw [e1, e2, e4, h2, hi, hs]
  have h1' : opts.createAPKIndexPackageMap.has name =
      pkgs.any (fun pkg => pkg.Name == name) := by
    rw [Bool.eq_iff_iff, h1]
    simp [List.any_eq_true]
  rw [h1']
  have hany : (pkgs.filter (fun pkg => pkg.Name == name)).any (fun pkg => pkg.Version == version) =
      pkgs.any (fun pkg => pkg.Name == name && pkg.Version == version) := by
    rw [Bool.eq_iff_iff]
    simp [List.any_eq_true, List.mem_filter, and_assoc]
  rw [hany]
  cases hn : pkgs.any (fun pkg => pkg.Name == name) <;>
    cases hv : pkgs.any (fun pkg => pkg.Name == name && pkg.Version == version) <;> simp
  -- the version cannot be present when the name is absent
  rw [List.any_eq_true] at hv
  obtain ⟨p, hp, hpv⟩ := hv
  have : pkgs.any (fun pkg => pkg.Name == name) = true := by
    rw [List.any_eq_true]
    exact ⟨p, hp, by simp at hpv; simp [hpv.1]⟩
  rw [hn] at this
  exact absurd this (by simp)

theorem flatMap_flatMap_reported {α : Type} (f : α → List (Option Err)) (l : List α) :
    (l.flatMap f).flatMap reported = l.flatMap (fun a => (f a).flatMap reported) := by
  induction l with
  | nil => rfl
  | cons x xs ih => simp [List.flatMap_cons, List.flatMap_append, ih]

theorem eventLabel_fixed (i : Nat) :
    eventLabel i "fixed" = "event " ++ toString (i + 1) ++ " (type: fixed)" := by
  unfold eventLabel
  rw [String.append_assoc, String.append_assoc]
  rfl

theorem reported_fixedEventErrs (opts : ValidateOptions) (pkgs : List ApkPackage)
    (hi : opts.APKIndex = some pkgs) (docName : String) (hs : opts.skips docName = false)
    (ie : Nat × Event) (hwt : ie.2.Type_ = "fixed" → ∃ v, ie.2.Data = EventData.fixed v) :
    (opts.withPackageMaps.fixedEventErrs docName ie).flatMap reported =
      if ie.2.Type_ = "fixed" then
        match ie.2.Data with
        | EventData.fixed v =>
            if pkgs.any (fun pkg => pkg.Name == docName && pkg.Version == v) then []
            else [Leaf.mk ["event " ++ toString (ie.1 + 1) ++ " (type: fixed)"]
              (fixedVersionErr pkgs docName v)]
        | EventData.other => []
      else [] := by
  unfold ValidateOptions.fixedEventErrs EventTypeFixed
  by_cases ht : ie.2.Type_ = "fixed"
  · obtain ⟨v, hv⟩ := hwt ht
    simp only [ht, ne_eq, not_true_eq_false, if_false, if_true, hv]
    rw [withPackageMaps_validatePackageVersionExistsInAPKINDEX opts pkgs hi docName v hs]
    rw [← eventLabel_fixed]
    cases ha : pkgs.any (fun pkg => pkg.Name == docName && pkg.Version == v)
    · cases hn : pkgs.any (fun pkg => pkg.Name == docName) <;>
        simp only [fixedVersionErr, hn, Bool.false_eq_true, if_false, if_true] <;> rfl
    · simp only [if_true]
      rfl
  · simp [ht]

/-- C12: with the published-package index present and every event of type
fixed carrying a fixed version, the report of the fixed-version check is
exactly: for every document that is not skipped, every advisory and every
event of type fixed for which no record of the index has both the package
name of the document and the fixed version of the event, one failure under
the document name, the advisory ID and the label of the 1-based position of
the event; the failure is "package not found" when no record has the package
name and "package version not found" otherwise. Events of another type give
nothing, and every failing event is reported. -/
theorem C12_fixed_versions (opts : ValidateOptions) (pkgs : List ApkPackage)
    (hi : opts.APKIndex = some pkgs)
    (hwt : ∀ e ∈ opts.AdvisoryDocs, ∀ adv ∈ e.Configuration.Advisories, ∀ ev ∈ adv.Events,
      ev.Type_ = "fixed" → ∃ v, ev.Data = EventData.fixed v) :
    reported opts.withPackageMaps.validateFixedVersions =
      (opts.AdvisoryDocs.filter (fun e => !opts.skips e.Configuration.Name)).flatMap (fun e =>
        e.Configuration.Advisories.flatMap (fun adv =>
          adv.Events.enum.flatMap (fun ie =>
            if ie.2.Type_ = "fixed" then
              match ie.2.Data with
              | EventData.fixed v =>
                  if pkgs.any (fun pkg => pkg.Name == e.Configuration.Name && pkg.Version == v)
                  then []
                  else [Leaf.mk ["fixed version validation failure(s)", e.Configuration.Name,
                      adv.ID, "event " ++ toString (ie.1 + 1) ++ " (type: fixed)"]
                    (if pkgs.any (fun pkg => pkg.Name == e.Configuration.Name) then
                      Err.errorf "package version %q not found in APKINDEX" [Arg.str v]
                    else Err.new "package not found in APKINDEX")]
              | EventData.other => []
            else []))) := by
  unfold ValidateOptions.validateFixedVersions
  have e1 : opts.withPackageMaps.APKIndex = opts.APKIndex := rfl
  have e2 : opts.withPackageMaps.AdvisoryDocs = opts.AdvisoryDocs := rfl
  have e3 : ∀ n, opts.withPackageMaps.skips n = opts.skips n := fun _ => rfl
  simp only [e1, e2, e3, hi, Option.isNone_some, Bool.false_eq_true, if_false]
  rw [reported_LabelError, reported_errorsJoin, flatMap_map_reported, List.filter_map,
    List.flatMap_map, List.map_flatMap]
  apply List.flatMap_congr
  intro e he
  have hmem := (List.mem_filter.1 he)
  have hs : opts.skips e.Configuration.Name = false := by simpa using hmem.2
  unfold ValidateOptions.fixedDocumentErr
  rw [reported_LabelError, reported_errorsJoin, flatMap_map_reported, List.map_map,
    List.map_flatMap]
  apply List.flatMap_congr
  intro adv hadv
  unfold ValidateOptions.fixedAdvisoryErr
  rw [reported_LabelError, reported_errorsJoin, flatMap_flatMap_reported, List.map_map,
    List.map_flatMap]
  apply List.flatMap_congr
  intro ie hie
  have hev : ie.2 ∈ adv.Events := List.snd_mem_of_mem_enum hie
  rw [reported_fixedEventErrs opts pkgs hi _ hs ie (hwt e hmem.1 adv hadv ie.2 hev)]
  by_cases ht : ie.2.Type_ = "fixed"
  · cases hd : ie.2.Data with
    | other => simp [ht]
    | fixed v =>
      simp only [ht, if_true]
      cases ha : pkgs.any (fun pkg => pkg.Name == e.Configuration.Name && pkg.Version == v)
      · simp only [Bool.false_eq_true, if_false, List.map_cons, List.map_nil]
        rfl
      · simp
  · simp [ht]

/-- C12 on the example: the index holds the package a at version 2.0 only, and
the event names the fixed version 1.2.3-r0. -/
theorem C12_fixed_versions_witness :
    exSelectOpts.APKIndex = some [⟨"a", "2.0"⟩] ∧
    (∀ e ∈ exSelectOpts.AdvisoryDocs, ∀ adv ∈ e.Configuration.Advisories, ∀ ev ∈ adv.Events,
      ev.Type_ = "fixed" → ∃ v, ev.Data = EventData.fixed v) ∧
    reported exSelectOpts.withPackageMaps.validateFixedVersions =
      [Leaf.mk ["fixed version validation failure(s)", "a", "CVE-2024-1",
          "event 1 (type: fixed)"]
        (Err.errorf "package version %q not found in APKINDEX" [Arg.str "1.2.3-r0"])] :=
  have h : ∀ e ∈ exSelectOpts.AdvisoryDocs, ∀ adv ∈ e.Configuration.Advisories,
      ∀ ev ∈ adv.Events, ev.Type_ = "fixed" → ∃ v, ev.Data = EventData.fixed v := by
    intro e he adv hadv ev hev _
    simp only [exSelectOpts, List.mem_singleton] at he
    subst he
    simp only [List.mem_singleton] at hadv
    subst hadv
    simp only [List.mem_singleton] at hev
    subst hev
    exact ⟨_, rfl⟩
  ⟨rfl, h, (C12_fixed_versions exSelectOpts [⟨"a", "2.0"⟩] rfl h).trans rfl⟩

/-! ## Alias set completeness: general facts -/

theorem hasPrefix_CVE_not_GHSA (s : String) (h : hasPrefix s "CVE-" = true) :
    hasPrefix s "GHSA-" = false := by
  unfold hasPrefix at *
  cases hs : s.data with
  | nil => rw [hs] at h; simp [List.isPrefixOf] at h
  | cons c cs =>
    rw [hs] at h
    have hc : c = 'C' := by
      have : ("CVE-" : String).data = ['C', 'V', 'E', '-'] := rfl
      rw [this] at h
      simp [List.isPrefixOf] at h
      exact h.1.symm
    have : ("GHSA-" : String).data = ['G', 'H', 'S', 'A', '-'] := rfl
    rw [this, hc]
    simp [List.isPrefixOf]

theorem aliasAdvisory_cve_ok (finder : AliasFinder) (adv : Advisory) (G : List String)
    (hp : hasPrefix adv.ID "CVE-" = true) (hG : finder.GHSAsForCVE adv.ID = Except.ok G) :
    aliasAdvisory finder adv =
      { queries := [Query.GHSAsForCVE adv.ID]
        result := Except.ok (LabelError adv.ID (errorsJoin
          ((G.filter (fun ghsa => !adv.Aliases.contains ghsa)).map
            (fun ghsa => some (missingAliasErr ghsa adv.Aliases))))) } := by
  unfold aliasAdvisory
  rw [if_pos hp, hG]
  rfl

theorem aliasAdvisory_cve_error (finder : AliasFinder) (adv : Advisory) (err : Err)
    (hp : hasPrefix adv.ID "CVE-" = true) (hG : finder.GHSAsForCVE adv.ID = Except.error err) :
    aliasAdvisory finder adv =
      { queries := [Query.GHSAsForCVE adv.ID]
        result := Except.error
          (Err.wrapf "failed to query GHSA aliases for CVE %q: %w" [Arg.str adv.ID] err) } := by
  unfold aliasAdvisory
  rw [if_pos hp, hG]

theorem aliasAdvisory_ghsa_ok (finder : AliasFinder) (adv : Advisory) (cve : String)
    (hp : hasPrefix adv.ID "GHSA-" = true) (hc : finder.CVEForGHSA adv.ID = Except.ok cve) :
    aliasAdvisory finder adv =
      { queries := [Query.CVEForGHSA adv.ID]
        result := Except.ok (LabelError adv.ID (errorsJoin
          (if cve ≠ "" then [some (primaryIDErr adv.ID cve)] else []))) } := by
  have hn : ¬ (hasPrefix adv.ID "CVE-" = true) := by
    intro h
    rw [hasPrefix_CVE_not_GHSA _ h] at hp
    cases hp
  unfold aliasAdvisory
  rw [if_neg hn, if_pos hp, hc]
  rfl

theorem aliasAdvisory_ghsa_error (finder : AliasFinder) (adv : Advisory) (err : Err)
    (hp : hasPrefix adv.ID "GHSA-" = true)
    (hc : finder.CVEForGHSA adv.ID = Except.error err) :
    aliasAdvisory finder adv =
      { queries := [Query.CVEForGHSA adv.ID]
        result := Except.error
          (Err.wrapf "failed to query CVE alias for GHSA %q: %w" [Arg.str adv.ID] err) } := by
  have hn : ¬ (hasPrefix adv.ID "CVE-" = true) := by
    intro h
    rw [hasPrefix_CVE_not_GHSA _ h] at hp
    cases hp
  unfold aliasAdvisory
  rw [if_neg hn, if_pos hp, hc]

theorem aliasAdvisory_other (finder : AliasFinder) (adv : Advisory)
    (h1 : hasPrefix adv.ID "CVE-" = false) (h2 : hasPrefix adv.ID "GHSA-" = false) :
    aliasAdvisory finder adv = { queries := [], result := Except.ok none } := by
  unfold aliasAdvisory
  simp [h1, h2]
  rfl

theorem aliasAdvisory_queries (finder : AliasFinder) (adv : Advisory) :
    ∀ q ∈ (aliasAdvisory finder adv).queries,
      q = Query.GHSAsForCVE adv.ID ∨ q = Query.CVEForGHSA adv.ID := by
  intro q hq
  unfold aliasAdvisory at hq
  split_ifs at hq
  · cases hG : finder.GHSAsForCVE adv.ID <;> rw [hG] at hq <;> simp at hq <;> exact Or.inl hq
  · cases hG : finder.CVEForGHSA adv.ID <;> rw [hG] at hq <;> simp at hq <;> exact Or.inr hq
  · simp at hq

theorem aliasAdvisories_cons_error (finder : AliasFinder) (a : Advisory) (as : List Advisory)
    (e : Err) (h : (aliasAdvisory finder a).result = Except.error e) :
    aliasAdvisories finder (a :: as) =
      { queries := (aliasAdvisory finder a).queries, result := Except.error e } := by
  rw [aliasAdvisories]
  simp only [h]

theorem aliasAdvisories_cons_ok (finder : AliasFinder) (a : Advisory) (as : List Advisory)
    (x : Option Err) (h : (aliasAdvisory finder a).result = Except.ok x) :
    aliasAdvisories finder (a :: as) =
      { queries := (aliasAdvisory finder a).queries ++ (aliasAdvisories finder as).queries
        result :=
          match (aliasAdvisories finder as).result with
          | Except.error err => Except.error err
          | Except.ok docErrs => Except.ok (x :: docErrs) } := by
  rw [aliasAdvisories]
  simp only [h]

theorem aliasAdvisories_ok (finder : AliasFinder) (f : Advisory → Option Err)
    (advs : List Advisory)
    (h : ∀ adv ∈ advs, (aliasAdvisory finder adv).result = Except.ok (f adv)) :
    (aliasAdvisories finder advs).result = Except.ok (advs.map f) ∧
    (aliasAdvisories finder advs).queries =
      advs.flatMap (fun a => (aliasAdvisory finder a).queries) := by
  induction advs with
  | nil => exact ⟨rfl, rfl⟩
  | cons a as ih =>
    have ha := h a (List.mem_cons_self _ _)
    have ih' := ih (fun adv hadv => h adv (List.mem_cons_of_mem _ hadv))
    rw [aliasAdvisories_cons_ok finder a as _ ha]
    simp only [ih'.1, ih'.2, List.map_cons, List.flatMap_cons, and_self]

theorem aliasAdvisories_fail (finder : AliasFinder) (pre post : List Advisory) (adv : Advisory)
    (e : Err) (hpre : ∀ a ∈ pre, ∃ x, (aliasAdvisory finder a).result = Except.ok x)
    (hfail : (aliasAdvisory finder adv).result = Except.error e) :
    (aliasAdvisories finder (pre ++ adv :: post)).result = Except.error e ∧
    (aliasAdvisories finder (pre ++ adv :: post)).queries =
      (pre ++ [adv]).flatMap (fun a => (aliasAdvisory finder a).queries) := by
  induction pre with
  | nil =>
    rw [List.nil_append, aliasAdvisories_cons_error finder adv post e hfail]
    simp
  | cons a as ih =>
    obtain ⟨x, hx⟩ := hpre a (List.mem_cons_self _ _)
    have ih' := ih (fun b hb => hpre b (List.mem_cons_of_mem _ hb))
    rw [List.cons_append, aliasAdvisories_cons_ok finder a _ x hx]
    simp only [ih'.1, ih'.2, List.cons_append, List.flatMap_cons, and_self]

theorem aliasDocuments_cons_skip (opts : ValidateOptions) (finder : AliasFinder)
    (doc : Document) (rest : List Document) (h : opts.skips doc.Name = true) :
    opts.aliasDocuments finder (doc :: rest) = opts.aliasDocuments finder rest := by
  rw [ValidateOptions.aliasDocuments]
  simp only [h, if_true]

theorem aliasDocuments_cons_error (opts : ValidateOptions) (finder : AliasFinder)
    (doc : Document) (rest : List Document) (h : opts.skips doc.Name = false) (e : Err)
    (he : (aliasAdvisories finder doc.Advisories).result = Except.error e) :
    opts.aliasDocuments finder (doc :: rest) =
      { queries := (aliasAdvisories finder doc.Advisories).queries
        result := Except.error e } := by
  rw [ValidateOptions.aliasDocuments]
  simp only [h, Bool.false_eq_true, if_false, he]

theorem aliasDocuments_cons_ok (opts : ValidateOptions) (finder : AliasFinder)
    (doc : Document) (rest : List Document) (h : opts.skips doc.Name = false)
    (docErrs : List (Option Err))
    (he : (aliasAdvisories finder doc.Advisories).result = Except.ok docErrs) :
    opts.aliasDocuments finder (doc :: rest) =
      { queries := (aliasAdvisories finder doc.Advisories).queries ++
          (opts.aliasDocuments finder rest).queries
        result :=
          match (opts.aliasDocuments finder rest).result with
          | Except.error err => Except.error err
          | Except.ok errs => Except.ok (LabelError doc.Name (errorsJoin docErrs) :: errs) } := by
  rw [ValidateOptions.aliasDocuments]
  simp only [h, Bool.false_eq_true, if_false, he]

theorem aliasDocuments_ok (opts : ValidateOptions) (finder : AliasFinder)
    (f : Advisory → Option Err) (docs : List Document)
    (h : ∀ d ∈ docs, opts.skips d.Name = false → ∀ adv ∈ d.Advisories,
      (aliasAdvisory finder adv).result = Except.ok (f adv)) :
    (opts.aliasDocuments finder docs).result =
      Except.ok ((docs.filter (fun d => !opts.skips d.Name)).map
        (fun d => LabelError d.Name (errorsJoin (d.Advisories.map f)))) := by
  induction docs with
  | nil => rfl
  | cons d ds ih =>
    have ih' := ih (fun d' hd' => h d' (List.mem_cons_of_mem _ hd'))
    cases hs : opts.skips d.Name
    · have hd := aliasAdvisories_ok finder f d.Advisories (h d (List.mem_cons_self _ _) hs)
      rw [aliasDocuments_cons_ok opts finder d ds hs _ hd.1]
      simp only [ih', List.filter_cons, hs, Bool.not_false, if_true, List.map_cons]
    · rw [aliasDocuments_cons_skip opts finder d ds hs, ih']
      simp [List.filter_cons, hs]

/-- The failure and the calls of the loop over the documents are those of the
loop over the scanned advisories, taken in one row. -/
theorem aliasDocuments_fail (opts : ValidateOptions) (finder : AliasFinder)
    (docs : List Document) (pre post : List Advisory) (adv : Advisory) (e : Err)
    (hscan : (docs.filter (fun d => !opts.skips d.Name)).flatMap (fun d => d.Advisories) =
      pre ++ adv :: post)
    (hpre : ∀ a ∈ pre, ∃ x, (aliasAdvisory finder a).result = Except.ok x)
    (hfail : (aliasAdvisory finder adv).result = Except.error e) :
    (opts.aliasDocuments finder docs).result = Except.error e ∧
    (opts.aliasDocuments finder docs).queries =
      (pre ++ [adv]).flatMap (fun a => (aliasAdvisory finder a).queries) := by
  induction docs generalizing pre with
  | nil => simp at hscan
  | cons d ds ih =>
    cases hs : opts.skips d.Name
    · simp only [List.filter_cons, hs, Bool.not_false, if_true, List.flatMap_cons] at hscan
      -- either the failing advisory is in this document, or the document is before it
      by_cases hlen : d.Advisories.length ≤ pre.length
      · -- the whole document lies in `pre`
        have hsplit : pre = d.Advisories ++ pre.drop d.Advisories.length := by
          have := congrArg (List.take d.Advisories.length) hscan
          rw [List.take_left, List.take_append_of_le_length hlen] at this
          have h0 := (List.take_append_drop d.Advisories.length pre).symm
          rw [← this] at h0
          exact h0
        have hrest : (ds.filter (fun d => !opts.skips d.Name)).flatMap (fun d => d.Advisories) =
            pre.drop d.Advisories.length ++ adv :: post := by
          have := congrArg (List.drop d.Advisories.length) hscan
          rw [List.drop_left, List.drop_append_of_le_length hlen] at this
          exact this
        have hdoc : ∀ a ∈ d.Advisories, ∃ x, (aliasAdvisory finder a).result = Except.ok x := by
          intro a ha
          apply hpre
          rw [hsplit]
          exact List.mem_append_left _ ha
        have ih' := ih (pre.drop d.Advisories.length) hrest
          (fun a ha => hpre a (List.mem_of_mem_drop ha))
        have hok := aliasAdvisories_ok finder
          (fun a => match (aliasAdvisory finder a).result with
            | Except.ok x => x
            | Except.error _ => none) d.Advisories
          (fun a ha => by
            obtain ⟨x, hx⟩ := hdoc a ha
            simp only [hx])
        rw [aliasDocuments_cons_ok opts finder d ds hs _ hok.1]
        simp only [ih'.1, ih'.2, hok.2, true_and]
        conv_rhs => rw [hsplit]
        simp [List.flatMap_append]
      · -- the failing advisory is in this document
        have hlt : pre.length < d.Advisories.length := Nat.lt_of_not_le hlen
        have hsplit : d.Advisories =
            pre ++ adv :: (d.Advisories.drop (pre.length + 1)) := by
          have h1 := congrArg (List.take (pre.length + 1)) hscan
          rw [List.take_append_of_le_length (Nat.succ_le_of_lt hlt)] at h1
          have h2 : List.take (pre.length + 1) (pre ++ adv :: post) = pre ++ [adv] := by
            rw [List.take_append_eq_append_take]
            simp
          rw [h2] at h1
          have := List.take_append_drop (pre.length + 1) d.Advisories
          rw [h1] at this
          rw [← this]
          simp
        have hf := aliasAdvisories_fail finder pre (d.Advisories.drop (pre.length + 1)) adv e
          hpre hfail
        rw [← hsplit] at hf
        rw [aliasDocuments_cons_error opts finder d ds hs e hf.1]
        exact ⟨rfl, hf.2⟩
    · simp only [List.filter_cons, hs, Bool.not_true, Bool.false_eq_true, if_false] at hscan
      rw [aliasDocuments_cons_skip opts finder d ds hs]
      exact ih pre hscan hpre

/-! ## Alias set completeness: properties -/

theorem result_eq_ok_okValue (r : AliasRun (Option Err))
    (h : ∃ x, r.result = Except.ok x) : r.result = Except.ok (okValue r) := by
  obtain ⟨x, hx⟩ := h
  simp only [okValue, hx]

theorem reported_okValue_aliasAdvisory (finder : AliasFinder) (adv : Advisory) :
    reported (okValue (aliasAdvisory finder adv)) =
      if hasPrefix adv.ID "CVE-" then
        match finder.GHSAsForCVE adv.ID with
        | Except.ok G =>
            (G.filter (fun ghsa => !adv.Aliases.contains ghsa)).map
              (fun ghsa => Leaf.mk [adv.ID] (missingAliasErr ghsa adv.Aliases))
        | Except.error _ => []
      else if hasPrefix adv.ID "GHSA-" then
        match finder.CVEForGHSA adv.ID with
        | Except.ok cve => if cve ≠ "" then [Leaf.mk [adv.ID] (primaryIDErr adv.ID cve)] else []
        | Except.error _ => []
      else [] := by
  by_cases h1 : hasPrefix adv.ID "CVE-" = true
  · rw [if_pos h1]
    cases hG : finder.GHSAsForCVE adv.ID with
    | error err => rw [aliasAdvisory_cve_error finder adv err h1 hG]; rfl
    | ok G =>
      rw [aliasAdvisory_cve_ok finder adv G h1 hG]
      simp only [okValue, reported_LabelError, reported_errorsJoin, flatMap_map_reported]
      generalize List.filter _ G = l
      induction l with
      | nil => rfl
      | cons x xs ih =>
        simp only [List.flatMap_cons, List.map_append, List.map_cons, ih]
        rfl
  · rw [if_neg h1]
    by_cases h2 : hasPrefix adv.ID "GHSA-" = true
    · rw [if_pos h2]
      cases hc : finder.CVEForGHSA adv.ID with
      | error err => rw [aliasAdvisory_ghsa_error finder adv err h2 hc]; rfl
      | ok cve =>
        rw [aliasAdvisory_ghsa_ok finder adv cve h2 hc]
        by_cases hne : cve = ""
        · simp only [okValue, hne, ne_eq, not_true_eq_false, if_false]; rfl
        · simp only [okValue, hne, ne_eq, not_false_eq_true, if_true]; rfl
    · rw [if_neg h2, aliasAdvisory_other finder adv (by simpa using h1) (by simpa using h2)]
      rfl

/-- The report of an alias pass in which no lookup fails: the reports of the
scanned advisories, each under the label of the pass and the name of its
document. -/
theorem reported_alias_completed (opts : ValidateOptions) (finder : AliasFinder)
    (h : ∀ e ∈ opts.AdvisoryDocs, opts.skips e.Configuration.Name = false →
      ∀ adv ∈ e.Configuration.Advisories, ∃ x, (aliasAdvisory finder adv).result = Except.ok x) :
    reported (opts.validateAliasSetCompleteness finder) =
      (opts.AdvisoryDocs.filter (fun e => !opts.skips e.Configuration.Name)).flatMap (fun e =>
        e.Configuration.Advisories.flatMap (fun adv =>
          (reported (okValue (aliasAdvisory finder adv))).map
            (fun l => Leaf.mk (aliasLabel :: e.Configuration.Name :: l.path) l.err))) := by
  have hok := aliasDocuments_ok opts finder (fun adv => okValue (aliasAdvisory finder adv))
    (opts.AdvisoryDocs.map (fun e => e.Configuration))
    (fun d hd hs adv hadv => by
      rw [List.mem_map] at hd
      obtain ⟨e, he, rfl⟩ := hd
      exact result_eq_ok_okValue _ (h e he hs adv hadv))
  unfold ValidateOptions.validateAliasSetCompleteness ValidateOptions.aliasRun
  rw [hok]
  simp only [reported_LabelError, reported_errorsJoin, flatMap_map_reported, List.filter_map,
    List.flatMap_map, List.map_flatMap, List.map_map]
  show (List.filter (fun e => !opts.skips e.Configuration.Name) opts.AdvisoryDocs).flatMap _ = _
  apply List.flatMap_congr
  intro e _
  simp only [Function.comp, reported_LabelError, reported_errorsJoin, flatMap_map_reported,
    List.map_flatMap, List.map_map]
  rfl

theorem filter_leaf_map {α : Type} (q : Err → Bool) (path : α → List String) (err : α → Err)
    (l : List α) :
    (l.map (fun a => Leaf.mk (path a) (err a))).filter (fun x => q x.err) =
      (l.filter (fun a => q (err a))).map (fun a => Leaf.mk (path a) (err a)) := by
  rw [List.filter_map]; rfl

/-- C13, as stated, fails: the advisory CVE-2024-1 is in scope, the resolver is
asked for its GHSAs and returns GHSA-aaaa, which is not among its aliases; the
lookup for the next advisory fails, and the pass reports no missing-alias
error at all. -/
theorem C13_counterexample :
    exAbortAfterCVEOpts.scannedAdvisories = [exCVEAdvisory, exFailingAdvisory] ∧
    hasPrefix exCVEAdvisory.ID "CVE-" = true ∧
    exFinder.GHSAsForCVE exCVEAdvisory.ID = Except.ok ["GHSA-aaaa"] ∧
    exCVEAdvisory.Aliases.contains "GHSA-aaaa" = false ∧
    (exAbortAfterCVEOpts.aliasRun exFinder).queries =
      [Query.GHSAsForCVE "CVE-2024-1", Query.GHSAsForCVE "CVE-2024-5"] ∧
    (reported (exAbortAfterCVEOpts.validateAliasSetCompleteness exFinder)).filter
      (fun l => l.err.isErrorf "missing GHSA alias %q from set [%s]") = [] :=
  ⟨rfl, rfl, rfl, rfl, rfl, rfl⟩

/-- C13, amended: when no lookup fails, the missing-alias failures of the alias pass
are exactly: for every scanned advisory whose ID starts with "CVE-", one
failure for each GHSA returned by the resolver that is not among the aliases
of the advisory, naming that GHSA, under the document name and the advisory
ID. For one such advisory the step reports exactly these and returns nil
when every returned GHSA is among the aliases; with the ID "CVE-2024-1" and
the returned list ["GHSA-aaaa"] that is one failure naming "GHSA-aaaa" when
the aliases omit it and none when they hold it. -/
theorem C13_missing_ghsa_aliases (opts : ValidateOptions) (finder : AliasFinder)
    (hall : ∀ e ∈ opts.AdvisoryDocs, opts.skips e.Configuration.Name = false →
      ∀ adv ∈ e.Configuration.Advisories, ∃ x, (aliasAdvisory finder adv).result = Except.ok x) :
    (reported (opts.validateAliasSetCompleteness finder)).filter
        (fun l => l.err.isErrorf "missing GHSA alias %q from set [%s]") =
      (opts.AdvisoryDocs.filter (fun e => !opts.skips e.Configuration.Name)).flatMap (fun e =>
        e.Configuration.Advisories.flatMap (fun adv =>
          if hasPrefix adv.ID "CVE-" then
            match finder.GHSAsForCVE adv.ID with
            | Except.ok G =>
                (G.filter (fun ghsa => !adv.Aliases.contains ghsa)).map (fun ghsa =>
                  Leaf.mk [aliasLabel, e.Configuration.Name, adv.ID]
                    (Err.errorf "missing GHSA alias %q from set [%s]"
                      [Arg.str ghsa, Arg.str (String.intercalate ", " adv.Aliases)]))
            | Except.error _ => []
          else [])) ∧
    (∀ (adv : Advisory) (G : List String), hasPrefix adv.ID "CVE-" = true →
      finder.GHSAsForCVE adv.ID = Except.ok G →
      ∃ x, (aliasAdvisory finder adv).result = Except.ok x ∧
        reported x = (G.filter (fun ghsa => !adv.Aliases.contains ghsa)).map (fun ghsa =>
          Leaf.mk [adv.ID] (Err.errorf "missing GHSA alias %q from set [%s]"
            [Arg.str ghsa, Arg.str (String.intercalate ", " adv.Aliases)])) ∧
        ((∀ ghsa ∈ G, ghsa ∈ adv.Aliases) → x = none)) ∧
    (∀ (aliases : List String) (events : List Event),
      finder.GHSAsForCVE "CVE-2024-1" = Except.ok ["GHSA-aaaa"] →
      ∃ x, (aliasAdvisory finder { ID := "CVE-2024-1", Aliases := aliases, Events := events }).result
          = Except.ok x ∧
        reported x =
          if aliases.contains "GHSA-aaaa" then []
          else [Leaf.mk ["CVE-2024-1"] (Err.errorf "missing GHSA alias %q from set [%s]"
            [Arg.str "GHSA-aaaa", Arg.str (String.intercalate ", " aliases)])]) := by
  have hadv : ∀ (adv : Advisory) (G : List String), hasPrefix adv.ID "CVE-" = true →
      finder.GHSAsForCVE adv.ID = Except.ok G →
      ∃ x, (aliasAdvisory finder adv).result = Except.ok x ∧
        reported x = (G.filter (fun ghsa => !adv.Aliases.contains ghsa)).map (fun ghsa =>
          Leaf.mk [adv.ID] (Err.errorf "missing GHSA alias %q from set [%s]"
            [Arg.str ghsa, Arg.str (String.intercalate ", " adv.Aliases)])) ∧
        ((∀ ghsa ∈ G, ghsa ∈ adv.Aliases) → x = none) := by
    intro adv G hp hG
    have hrep := reported_okValue_aliasAdvisory finder adv
    rw [if_pos hp, hG] at hrep
    have hres := aliasAdvisory_cve_ok finder adv G hp hG
    refine ⟨_, by rw [hres], ?_, ?_⟩
    · rw [hres] at hrep
      exact hrep
    · intro hin
      have : G.filter (fun ghsa => !adv.Aliases.contains ghsa) = [] := by
        rw [List.filter_eq_nil_iff]
        intro g hg
        simp [hin g hg]
      rw [this]
      rfl
  refine ⟨?_, hadv, ?_⟩
  · rw [reported_alias_completed opts finder hall, List.filter_flatMap]
    apply List.flatMap_congr
    intro e _
    rw [List.filter_flatMap]
    apply List.flatMap_congr
    intro adv _
    rw [List.filter_map, reported_okValue_aliasAdvisory]
    by_cases h1 : hasPrefix adv.ID "CVE-" = true
    · simp only [h1, if_true]
      cases hG : finder.GHSAsForCVE adv.ID with
      | error err => rfl
      | ok G =>
        simp only [List.map_map]
        rw [filter_map_of_forall _ _ _ true (fun _ => rfl)]
        simp only [if_true, List.map_map]
        rfl
    · simp only [h1, Bool.false_eq_true, if_false]
      by_cases h2 : hasPrefix adv.ID "GHSA-" = true
      · simp only [h2, if_true]
        cases hc : finder.CVEForGHSA adv.ID with
        | error err => rfl
        | ok cve =>
          by_cases hne : cve = ""
          · simp [hne]
          · simp only [hne, ne_eq, not_false_eq_true, if_true]
            rfl
      · simp [h2]
  · intro aliases events hG
    obtain ⟨x, hx, hrep, -⟩ := hadv { ID := "CVE-2024-1", Aliases := aliases, Events := events }
      ["GHSA-aaaa"] rfl hG
    refine ⟨x, hx, ?_⟩
    rw [hrep]
    by_cases hm : "GHSA-aaaa" ∈ aliases <;> simp [List.filter_cons, hm]

theorem exAliasOpts_no_failure :
    ∀ e ∈ exAliasOpts.AdvisoryDocs, exAliasOpts.skips e.Configuration.Name = false →
      ∀ adv ∈ e.Configuration.Advisories,
        ∃ x, (aliasAdvisory exFinder adv).result = Except.ok x := by
  intro e he _ adv hadv
  have he' : e = { Path := "a.advisories.yaml"
                   Configuration := { Package := ⟨"a"⟩
                                      Advisories := [exCVEAdvisory, exGHSAAdvisory] } } := by
    simpa [exAliasOpts] using he
  subst he'
  simp only [List.mem_cons, List.mem_singleton, List.not_mem_nil, or_false] at hadv
  rcases hadv with rfl | rfl
  · exact ⟨_, rfl⟩
  · exact ⟨_, rfl⟩

/-- The amended C13 on the example: CVE-2024-1 has no alias, the resolver returns
GHSA-aaaa for it. -/
theorem C13_missing_ghsa_aliases_witness :
    (∀ e ∈ exAliasOpts.AdvisoryDocs, exAliasOpts.skips e.Configuration.Name = false →
      ∀ adv ∈ e.Configuration.Advisories,
        ∃ x, (aliasAdvisory exFinder adv).result = Except.ok x) ∧
    (reported (exAliasOpts.validateAliasSetCompleteness exFinder)).filter
        (fun l => l.err.isErrorf "missing GHSA alias %q from set [%s]") =
      [Leaf.mk [aliasLabel, "a", "CVE-2024-1"]
        (Err.errorf "missing GHSA alias %q from set [%s]" [Arg.str "GHSA-aaaa", Arg.str ""])] :=
  ⟨exAliasOpts_no_failure,
    (C13_missing_ghsa_aliases exAliasOpts exFinder exAliasOpts_no_failure).1.trans rfl⟩

/-- C14, as stated, fails: the advisory GHSA-bbbb is in scope, the resolver is
asked for its CVE and returns CVE-2024-9; the lookup for the next advisory
fails, and the pass reports no primary-ID violation at all. -/
theorem C14_counterexample :
    exAbortAfterGHSAOpts.scannedAdvisories = [exGHSAAdvisory, exFailingAdvisory] ∧
    hasPrefix exGHSAAdvisory.ID "GHSA-" = true ∧
    exFinder.CVEForGHSA exGHSAAdvisory.ID = Except.ok "CVE-2024-9" ∧
    (exAbortAfterGHSAOpts.aliasRun exFinder).queries =
      [Query.CVEForGHSA "GHSA-bbbb", Query.GHSAsForCVE "CVE-2024-5"] ∧
    (reported (exAbortAfterGHSAOpts.validateAliasSetCompleteness exFinder)).filter
      (fun l => l.err.isErrorf
        "%q should be listed as an alias, and %q should be the advisory ID") = [] :=
  ⟨rfl, rfl, rfl, rfl, rfl⟩

/-- C14, amended: when no lookup fails, the primary-ID failures of the alias pass are
exactly: for every scanned advisory whose ID starts with "GHSA-" and for
which the resolver returns a non-empty CVE, one failure naming the GHSA and
that CVE, under the document name and the advisory ID; the alias list of the
advisory plays no part. For one such advisory the step reports exactly this
failure, and it returns nil when the resolver returns the empty string; the
advisory "GHSA-bbbb" with the returned CVE "CVE-2024-9" is reported whatever
its aliases are. -/
theorem C14_ghsa_primary_id (opts : ValidateOptions) (finder : AliasFinder)
    (hall : ∀ e ∈ opts.AdvisoryDocs, opts.skips e.Configuration.Name = false →
      ∀ adv ∈ e.Configuration.Advisories, ∃ x, (aliasAdvisory finder adv).result = Except.ok x) :
    (reported (opts.validateAliasSetCompleteness finder)).filter
        (fun l => l.err.isErrorf
          "%q should be listed as an alias, and %q should be the advisory ID") =
      (opts.AdvisoryDocs.filter (fun e => !opts.skips e.Configuration.Name)).flatMap (fun e =>
        e.Configuration.Advisories.flatMap (fun adv =>
          if hasPrefix adv.ID "GHSA-" then
            match finder.CVEForGHSA adv.ID with
            | Except.ok cve =>
                if cve ≠ "" then
                  [Leaf.mk [aliasLabel, e.Configuration.Name, adv.ID]
                    (Err.errorf
                      "%q should be listed as an alias, and %q should be the advisory ID"
                      [Arg.str adv.ID, Arg.str cve])]
                else []
            | Except.error _ => []
          else [])) ∧
    (∀ (adv : Advisory) (cve : String), hasPrefix adv.ID "GHSA-" = true →
      finder.CVEForGHSA adv.ID = Except.ok cve →
      ∃ x, (aliasAdvisory finder adv).result = Except.ok x ∧
        reported x =
          (if cve ≠ "" then
            [Leaf.mk [adv.ID] (Err.errorf
              "%q should be listed as an alias, and %q should be the advisory ID"
              [Arg.str adv.ID, Arg.str cve])]
           else []) ∧
        (cve = "" → x = none)) ∧
    (∀ (aliases : List String) (events : List Event),
      finder.CVEForGHSA "GHSA-bbbb" = Except.ok "CVE-2024-9" →
      ∃ x, (aliasAdvisory finder { ID := "GHSA-bbbb", Aliases := aliases, Events := events }).result
          = Except.ok x ∧
        reported x =
          [Leaf.mk ["GHSA-bbbb"] (Err.errorf
            "%q should be listed as an alias, and %q should be the advisory ID"
            [Arg.str "GHSA-bbbb", Arg.str "CVE-2024-9"])]) := by
  have hadv : ∀ (adv : Advisory) (cve : String), hasPrefix adv.ID "GHSA-" = true →
      finder.CVEForGHSA adv.ID = Except.ok cve →
      ∃ x, (aliasAdvisory finder adv).result = Except.ok x ∧
        reported x =
          (if cve ≠ "" then
            [Leaf.mk [adv.ID] (Err.errorf
              "%q should be listed as an alias, and %q should be the advisory ID"
              [Arg.str adv.ID, Arg.str cve])]
           else []) ∧
        (cve = "" → x = none) := by
    intro adv cve hp hc
    have hres := aliasAdvisory_ghsa_ok finder adv cve hp hc
    refine ⟨_, by rw [hres], ?_, ?_⟩
    · by_cases hne : cve = ""
      · simp only [hne, ne_eq, not_true_eq_false, if_false]; rfl
      · simp only [hne, ne_eq, not_false_eq_true, if_true]; rfl
    · intro hne
      simp only [hne, ne_eq, not_true_eq_false, if_false]; rfl
  refine ⟨?_, hadv, ?_⟩
  · rw [reported_alias_completed opts finder hall, List.filter_flatMap]
    apply List.flatMap_congr
    intro e _
    rw [List.filter_flatMap]
    apply List.flatMap_congr
    intro adv _
    rw [List.filter_map, reported_okValue_aliasAdvisory]
    by_cases h1 : hasPrefix adv.ID "CVE-" = true
    · have h2 := hasPrefix_CVE_not_GHSA _ h1
      simp only [h1, h2, if_true, Bool.false_eq_true, if_false]
      cases hG : finder.GHSAsForCVE adv.ID with
      | error err => rfl
      | ok G =>
        simp only [List.map_map]
        rw [filter_map_of_forall _ _ _ false (fun _ => rfl)]
        rfl
    · simp only [h1, Bool.false_eq_true, if_false]
      by_cases h2 : hasPrefix adv.ID "GHSA-" = true
      · simp only [h2, if_true]
        cases hc : finder.CVEForGHSA adv.ID with
        | error err => rfl
        | ok cve =>
          by_cases hne : cve = ""
          · simp [hne]
          · simp only [hne, ne_eq, not_false_eq_true, if_true]
            rfl
      · simp [h2]
  · intro aliases events hc
    obtain ⟨x, hx, hrep, -⟩ := hadv { ID := "GHSA-bbbb", Aliases := aliases, Events := events }
      "CVE-2024-9" rfl hc
    exact ⟨x, hx, hrep⟩

/-- The amended C14 on the example: GHSA-bbbb lists CVE-2024-9 among its aliases, and is
reported all the same. -/
theorem C14_ghsa_primary_id_witness :
    (∀ e ∈ exAliasOpts.AdvisoryDocs, exAliasOpts.skips e.Configuration.Name = false →
      ∀ adv ∈ e.Configuration.Advisories,
        ∃ x, (aliasAdvisory exFinder adv).result = Except.ok x) ∧
    (reported (exAliasOpts.validateAliasSetCompleteness exFinder)).filter
        (fun l => l.err.isErrorf
          "%q should be listed as an alias, and %q should be the advisory ID") =
      [Leaf.mk [aliasLabel, "a", "GHSA-bbbb"]
        (Err.errorf "%q should be listed as an alias, and %q should be the advisory ID"
          [Arg.str "GHSA-bbbb", Arg.str "CVE-2024-9"])] :=
  ⟨exAliasOpts_no_failure,
    (C14_ghsa_primary_id exAliasOpts exFinder exAliasOpts_no_failure).1.trans rfl⟩

theorem okValue_leaves_errorf (finder : AliasFinder) (adv : Advisory) :
    ∀ l ∈ reported (okValue (aliasAdvisory finder adv)),
      ∃ format args, l.err = Err.errorf format args := by
  intro l hl
  rw [reported_okValue_aliasAdvisory] at hl
  split_ifs at hl with h1 h2
  · cases hG : finder.GHSAsForCVE adv.ID with
    | error err => rw [hG] at hl; cases hl
    | ok G =>
      rw [hG] at hl
      simp only [List.mem_map] at hl
      obtain ⟨g, -, rfl⟩ := hl
      exact ⟨_, _, rfl⟩
  · cases hc : finder.CVEForGHSA adv.ID with
    | error err => rw [hc] at hl; cases hl
    | ok cve =>
      rw [hc] at hl
      simp only at hl
      split_ifs at hl
      · simp only [List.mem_singleton] at hl
        subst hl
        exact ⟨_, _, rfl⟩
      · cases hl
  · cases hl

theorem aliasAdvisory_lookup_failure (finder : AliasFinder) (adv : Advisory) (err : Err)
    (hfail : (hasPrefix adv.ID "CVE-" = true ∧ finder.GHSAsForCVE adv.ID = Except.error err) ∨
      (hasPrefix adv.ID "GHSA-" = true ∧ finder.CVEForGHSA adv.ID = Except.error err)) :
    (aliasAdvisory finder adv).result = Except.error (lookupFailure adv err) := by
  unfold lookupFailure
  rcases hfail with ⟨hp, hG⟩ | ⟨hp, hc⟩
  · rw [aliasAdvisory_cve_error finder adv err hp hG, if_pos hp]
  · have hn : ¬ (hasPrefix adv.ID "CVE-" = true) := by
      intro h
      rw [hasPrefix_CVE_not_GHSA _ h] at hp
      cases hp
    rw [aliasAdvisory_ghsa_error finder adv err hp hc, if_neg hn]

theorem validateAliasSetCompleteness_fail (opts : ValidateOptions) (finder : AliasFinder)
    (pre post : List Advisory) (adv : Advisory) (err : Err)
    (hscan : opts.scannedAdvisories = pre ++ adv :: post)
    (hpre : ∀ a ∈ pre, ∃ x, (aliasAdvisory finder a).result = Except.ok x)
    (hfail : (hasPrefix adv.ID "CVE-" = true ∧ finder.GHSAsForCVE adv.ID = Except.error err) ∨
      (hasPrefix adv.ID "GHSA-" = true ∧ finder.CVEForGHSA adv.ID = Except.error err)) :
    opts.validateAliasSetCompleteness finder = some (lookupFailure adv err) ∧
    (opts.aliasRun finder).queries =
      (pre ++ [adv]).flatMap (fun a => (aliasAdvisory finder a).queries) := by
  have hscan' : ((opts.AdvisoryDocs.map (fun e => e.Configuration)).filter
      (fun d => !opts.skips d.Name)).flatMap (fun d => d.Advisories) = pre ++ adv :: post := hscan
  have h := aliasDocuments_fail opts finder (opts.AdvisoryDocs.map (fun e => e.Configuration))
    pre post adv (lookupFailure adv err) hscan' hpre
    (aliasAdvisory_lookup_failure finder adv err hfail)
  unfold ValidateOptions.validateAliasSetCompleteness ValidateOptions.aliasRun
  rw [h.1]
  exact ⟨rfl, h.2⟩

/-- C15: when the lookup for a scanned advisory fails and the lookups for the
advisories scanned before it do not, `validateAliasSetCompleteness` returns
the error that wraps the resolver's failure: the error itself, without the
label of the pass, of a document or of an advisory. The calls of the resolver
are those made for the advisories up to the failing one, each about the ID of
its advisory: no call is made for a later advisory. -/
theorem C15_lookup_failure_aborts (opts : ValidateOptions) (finder : AliasFinder)
    (pre post : List Advisory) (adv : Advisory) (err : Err)
    (hscan : opts.scannedAdvisories = pre ++ adv :: post)
    (hpre : ∀ a ∈ pre, ∃ x, (aliasAdvisory finder a).result = Except.ok x)
    (hfail : (hasPrefix adv.ID "CVE-" = true ∧ finder.GHSAsForCVE adv.ID = Except.error err) ∨
      (hasPrefix adv.ID "GHSA-" = true ∧ finder.CVEForGHSA adv.ID = Except.error err)) :
    opts.validateAliasSetCompleteness finder =
      some (Err.wrapf
        (if hasPrefix adv.ID "CVE-" then "failed to query GHSA aliases for CVE %q: %w"
         else "failed to query CVE alias for GHSA %q: %w")
        [Arg.str adv.ID] err) ∧
    (opts.aliasRun finder).queries =
      (pre ++ [adv]).flatMap (fun a => (aliasAdvisory finder a).queries) ∧
    (∀ (a : Advisory), ∀ q ∈ (aliasAdvisory finder a).queries,
      q = Query.GHSAsForCVE a.ID ∨ q = Query.CVEForGHSA a.ID) ∧
    (opts.aliasRun finder).queries.length ≤ pre.length + 1 := by
  have h := validateAliasSetCompleteness_fail opts finder pre post adv err hscan hpre hfail
  refine ⟨?_, h.2, aliasAdvisory_queries finder, ?_⟩
  · rw [h.1]
    unfold lookupFailure
    split_ifs <;> rfl
  · rw [h.2]
    have hlen : ∀ l : List Advisory,
        (l.flatMap (fun a => (aliasAdvisory finder a).queries)).length ≤ l.length := by
      intro l
      induction l with
      | nil => simp
      | cons a as ih =>
        have ha : (aliasAdvisory finder a).queries.length ≤ 1 := by
          unfold aliasAdvisory
          split_ifs
          · cases finder.GHSAsForCVE a.ID <;> simp
          · cases finder.CVEForGHSA a.ID <;> simp
          · simp
        simp only [List.flatMap_cons, List.length_append, List.length_cons]
        omega
    have := hlen (pre ++ [adv])
    simpa using this

/-- C15 on the example: GHSA-bbbb is scanned first and its lookup succeeds,
the lookup for CVE-2024-5 fails, CVE-2024-1 comes after it. -/
theorem C15_lookup_failure_aborts_witness :
    exAbortOpts.scannedAdvisories = [exGHSAAdvisory] ++ exFailingAdvisory :: [exCVEAdvisory] ∧
    exAbortOpts.validateAliasSetCompleteness exFinder =
      some (Err.wrapf "failed to query GHSA aliases for CVE %q: %w" [Arg.str "CVE-2024-5"]
        (Err.new "service unavailable")) ∧
    (exAbortOpts.aliasRun exFinder).queries =
      [Query.CVEForGHSA "GHSA-bbbb", Query.GHSAsForCVE "CVE-2024-5"] :=
  have h := C15_lookup_failure_aborts exAbortOpts exFinder [exGHSAAdvisory] [exCVEAdvisory]
    exFailingAdvisory (Err.new "service unavailable") rfl
    (fun a ha => by
      rw [List.mem_singleton] at ha
      subst ha
      exact ⟨_, rfl⟩)
    (Or.inl ⟨rfl, rfl⟩)
  ⟨rfl, h.1.trans rfl, h.2.1.trans rfl⟩

/-- C16, as stated, fails: GHSA-bbbb is scanned first, its lookup succeeds and
finds a policy violation; the lookup for the next advisory fails, and the
result of the pass is the lookup error alone: the violation found before is
not part of it. -/
theorem C16_counterexample :
    exAbortOpts.scannedAdvisories = [exGHSAAdvisory, exFailingAdvisory, exCVEAdvisory] ∧
    (aliasAdvisory exFinder exGHSAAdvisory).result =
      Except.ok (some (Err.labeled "GHSA-bbbb" (Err.joined
        [Err.errorf "%q should be listed as an alias, and %q should be the advisory ID"
          [Arg.str "GHSA-bbbb", Arg.str "CVE-2024-9"]]))) ∧
    (aliasAdvisory exFinder exFailingAdvisory).result =
      Except.error (Err.wrapf "failed to query GHSA aliases for CVE %q: %w"
        [Arg.str "CVE-2024-5"] (Err.new "service unavailable")) ∧
    reported (exAbortOpts.validateAliasSetCompleteness exFinder) =
      [Leaf.mk [] (Err.wrapf "failed to query GHSA aliases for CVE %q: %w"
        [Arg.str "CVE-2024-5"] (Err.new "service unavailable"))] ∧
    (reported (exAbortOpts.validateAliasSetCompleteness exFinder)).filter
      (fun l => l.err.isErrorf
        "%q should be listed as an alias, and %q should be the advisory ID") = [] :=
  ⟨rfl, rfl, rfl, rfl, rfl⟩

/-- C16, amended: when the lookup for a scanned advisory fails and the lookups
for the advisories scanned before it do not, the result of the alias pass is
the error wrapping the lookup failure and nothing else: no failure found for
an advisory scanned before the failing lookup is part of it. -/
theorem C16_lookup_failure_drops_violations (opts : ValidateOptions) (finder : AliasFinder)
    (pre post : List Advisory) (adv : Advisory) (err : Err)
    (hscan : opts.scannedAdvisories = pre ++ adv :: post)
    (hpre : ∀ a ∈ pre, ∃ x, (aliasAdvisory finder a).result = Except.ok x)
    (hfail : (hasPrefix adv.ID "CVE-" = true ∧ finder.GHSAsForCVE adv.ID = Except.error err) ∨
      (hasPrefix adv.ID "GHSA-" = true ∧ finder.CVEForGHSA adv.ID = Except.error err)) :
    reported (opts.validateAliasSetCompleteness finder) =
      [Leaf.mk [] (Err.wrapf
        (if hasPrefix adv.ID "CVE-" then "failed to query GHSA aliases for CVE %q: %w"
         else "failed to query CVE alias for GHSA %q: %w")
        [Arg.str adv.ID] err)] ∧
    (∀ a ∈ pre, ∀ x, (aliasAdvisory finder a).result = Except.ok x →
      ∀ l ∈ reported x, ∀ r ∈ reported (opts.validateAliasSetCompleteness finder),
        r.err ≠ l.err) := by
  have h := validateAliasSetCompleteness_fail opts finder pre post adv err hscan hpre hfail
  have hrep : reported (opts.validateAliasSetCompleteness finder) =
      [Leaf.mk [] (Err.wrapf
        (if hasPrefix adv.ID "CVE-" then "failed to query GHSA aliases for CVE %q: %w"
         else "failed to query CVE alias for GHSA %q: %w")
        [Arg.str adv.ID] err)] := by
    rw [h.1]
    unfold lookupFailure
    split_ifs <;> rfl
  refine ⟨hrep, ?_⟩
  intro a _ x hx l hl r hr
  rw [hrep, List.mem_singleton] at hr
  have hl' : l ∈ reported (okValue (aliasAdvisory finder a)) := by
    simp only [okValue, hx]
    exact hl
  obtain ⟨format, args, hle⟩ := okValue_leaves_errorf finder a l hl'
  rw [hr, hle]
  intro hcontra
  cases hcontra

/-- The amended C16 on the example: the report of the pass is the lookup error
alone. -/
theorem C16_lookup_failure_drops_violations_witness :
    exAbortOpts.scannedAdvisories = [exGHSAAdvisory] ++ exFailingAdvisory :: [exCVEAdvisory] ∧
    reported (exAbortOpts.validateAliasSetCompleteness exFinder) =
      [Leaf.mk [] (Err.wrapf "failed to query GHSA aliases for CVE %q: %w"
        [Arg.str "CVE-2024-5"] (Err.new "service unavailable"))] :=
  ⟨rfl, (C16_lookup_failure_drops_violations exAbortOpts exFinder [exGHSAAdvisory]
    [exCVEAdvisory] exFailingAdvisory (Err.new "service unavailable") rfl
    (fun a ha => by
      rw [List.mem_singleton] at ha
      subst ha
      exact ⟨_, rfl⟩)
    (Or.inl ⟨rfl, rfl⟩)).1.trans rfl⟩

/-! ## Validate: properties -/

/-- The errors joined by `Validate`, in order: the three checks that always
run, then each gated check that is run. -/
theorem Validate_eq (docValidate : Document → Option Err)
    (indexDiff : List Entry → List Entry → IndexDiffResult) (opts : ValidateOptions) :
    Validate docValidate indexDiff opts =
      errorsJoin (
        [ LabelError "basic validation failure(s)"
            (errorsJoin (opts.AdvisoryDocs.map
              (fun e => opts.withPackageMaps.validateDocument docValidate e.Configuration))),
          LabelError "document file name validation failure(s)"
            opts.withPackageMaps.validateDocumentNameMatchesPackageName,
          LabelError "advisory ID uniqueness validation failure(s)"
            opts.withPackageMaps.validateAdvisoryIDUniqueness ] ++
        (match opts.BaseAdvisoryDocs with
         | some base =>
             [opts.withPackageMaps.validateIndexDiff (indexDiff base opts.AdvisoryDocs)]
         | none => []) ++
        (if opts.APKIndex.isSome then [opts.withPackageMaps.validateFixedVersions] else []) ++
        (match opts.AliasFinder with
         | some finder => [opts.withPackageMaps.validateAliasSetCompleteness finder]
         | none => [])) := by
  have e1 : opts.withPackageMaps.BaseAdvisoryDocs = opts.BaseAdvisoryDocs := rfl
  have e2 : opts.withPackageMaps.APKIndex = opts.APKIndex := rfl
  have e3 : opts.withPackageMaps.AliasFinder = opts.AliasFinder := rfl
  have e4 : opts.withPackageMaps.AdvisoryDocs = opts.AdvisoryDocs := rfl
  unfold Validate
  simp only [e1, e2, e3, e4, List.map_map]
  cases opts.BaseAdvisoryDocs <;> cases opts.APKIndex <;> cases opts.AliasFinder <;> rfl

/-- C17: `Validate` returns nil exactly when basic validation of every
document, the naming check and the uniqueness check return nil and each gated
check that is run returns nil: the diff check when `BaseAdvisoryDocs` is
present, the fixed-version check when `APKIndex` is present, the alias check
when `AliasFinder` is present. Its report is the reports of these checks one
after the other, each whole: a check whose dataset is absent adds nothing,
and no check, failed or aborted, takes away what another reports. -/
theorem C17_validate_joins_all_checks (docValidate : Document → Option Err)
    (indexDiff : List Entry → List Entry → IndexDiffResult) (opts : ValidateOptions) :
    (Validate docValidate indexDiff opts = none ↔
      (∀ e ∈ opts.AdvisoryDocs,
        opts.withPackageMaps.validateDocument docValidate e.Configuration = none) ∧
      opts.withPackageMaps.validateDocumentNameMatchesPackageName = none ∧
      opts.withPackageMaps.validateAdvisoryIDUniqueness = none ∧
      (∀ base, opts.BaseAdvisoryDocs = some base →
        opts.withPackageMaps.validateIndexDiff (indexDiff base opts.AdvisoryDocs) = none) ∧
      (opts.APKIndex.isSome = true → opts.withPackageMaps.validateFixedVersions = none) ∧
      (∀ finder, opts.AliasFinder = some finder →
        opts.withPackageMaps.validateAliasSetCompleteness finder = none)) ∧
    reported (Validate docValidate indexDiff opts) =
      (opts.AdvisoryDocs.flatMap (fun e =>
          reported (opts.withPackageMaps.validateDocument docValidate e.Configuration))).map
        (Leaf.under "basic validation failure(s)") ++
      (reported opts.withPackageMaps.validateDocumentNameMatchesPackageName).map
        (Leaf.under "document file name validation failure(s)") ++
      (reported opts.withPackageMaps.validateAdvisoryIDUniqueness).map
        (Leaf.under "advisory ID uniqueness validation failure(s)") ++
      (match opts.BaseAdvisoryDocs with
       | some base =>
           reported (opts.withPackageMaps.validateIndexDiff (indexDiff base opts.AdvisoryDocs))
       | none => []) ++
      (if opts.APKIndex.isSome then reported opts.withPackageMaps.validateFixedVersions
       else []) ++
      (match opts.AliasFinder with
       | some finder => reported (opts.withPackageMaps.validateAliasSetCompleteness finder)
       | none => []) := by
  rw [Validate_eq]
  constructor
  · rw [errorsJoin_eq_none_iff]
    simp only [List.mem_append, List.mem_cons, List.mem_singleton, List.not_mem_nil, or_false]
    constructor
    · intro h
      refine ⟨?_, ?_, ?_, ?_, ?_, ?_⟩
      · have h1 := h _ (Or.inl (Or.inl (Or.inl (Or.inl rfl))))
        rw [LabelError_eq_none_iff, errorsJoin_eq_none_iff] at h1
        intro e he
        exact h1 _ (List.mem_map.2 ⟨e, he, rfl⟩)
      · have h1 := h _ (Or.inl (Or.inl (Or.inl (Or.inr (Or.inl rfl)))))
        exact (LabelError_eq_none_iff _ _).1 h1
      · have h1 := h _ (Or.inl (Or.inl (Or.inl (Or.inr (Or.inr rfl)))))
        exact (LabelError_eq_none_iff _ _).1 h1
      · intro base hb
        apply h
        rw [hb]
        exact Or.inl (Or.inl (Or.inr (List.mem_singleton.2 rfl)))
      · intro hi
        apply h
        rw [if_pos hi]
        exact Or.inl (Or.inr (List.mem_singleton.2 rfl))
      · intro finder hf
        apply h
        rw [hf]
        exact Or.inr (List.mem_singleton.2 rfl)
    · rintro ⟨h1, h2, h3, h4, h5, h6⟩ e he
      rcases he with (((rfl | rfl | rfl) | he) | he) | he
      · rw [LabelError_eq_none_iff, errorsJoin_eq_none_iff]
        intro x hx
        rw [List.mem_map] at hx
        obtain ⟨en, hen, rfl⟩ := hx
        exact h1 en hen
      · rw [LabelError_eq_none_iff]; exact h2
      · rw [LabelError_eq_none_iff]; exact h3
      · cases hb : opts.BaseAdvisoryDocs with
        | none => rw [hb] at he; cases he
        | some base =>
          rw [hb] at he
          rw [List.mem_singleton.1 he]
          exact h4 base hb
      · by_cases hi : opts.APKIndex.isSome = true
        · rw [if_pos hi] at he
          rw [List.mem_singleton.1 he]
          exact h5 hi
        · rw [if_neg hi] at he; cases he
      · cases hf : opts.AliasFinder with
        | none => rw [hf] at he; cases he
        | some finder =>
          rw [hf] at he
          rw [List.mem_singleton.1 he]
          exact h6 finder hf
  · rw [reported_errorsJoin]
    simp only [List.flatMap_append, List.flatMap_cons, List.flatMap_nil, List.append_nil,
      reported_LabelError, reported_errorsJoin, flatMap_map_reported, List.append_assoc]
    congr 1
    congr 1
    congr 1
    congr 1
    · cases opts.BaseAdvisoryDocs <;> simp
    · congr 1
      · split_ifs <;> simp
      · cases opts.AliasFinder <;> simp

theorem select_withPackageMaps (opts : ValidateOptions) (S : List String) :
    (opts.select S).withPackageMaps = opts.withPackageMaps.select S := rfl

theorem select_skips_of_mem (opts : ValidateOptions) (S : List String) (n : String)
    (h : n ∈ S) : (opts.select S).skips n = false := by
  simp [ValidateOptions.skips, ValidateOptions.select, h]

theorem select_nil_skips (opts : ValidateOptions) (n : String) :
    (opts.select []).skips n = false := by
  simp [ValidateOptions.skips, ValidateOptions.select]

theorem foldl_congr_mem {α β : Type} (f g : β → α → β) (l : List α) (init : β)
    (h : ∀ x ∈ l, ∀ b, f b x = g b x) : l.foldl f init = l.foldl g init := by
  induction l generalizing init with
  | nil => rfl
  | cons x xs ih =>
    rw [List.foldl_cons, List.foldl_cons, h x (List.mem_cons_self _ _),
      ih _ (fun y hy => h y (List.mem_cons_of_mem _ hy))]

theorem select_validateDocument (opts : ValidateOptions) (S : List String)
    (docValidate : Document → Option Err) (doc : Document) (h : doc.Name ∈ S) :
    (opts.select S).validateDocument docValidate doc =
      (opts.select []).validateDocument docValidate doc := by
  unfold ValidateOptions.validateDocument
  rw [select_skips_of_mem opts S _ h, select_nil_skips]

theorem select_validateAdvisoryIDUniqueness (opts : ValidateOptions) (S : List String)
    (h : ∀ e ∈ opts.AdvisoryDocs, e.Configuration.Name ∈ S) :
    (opts.select S).validateAdvisoryIDUniqueness =
      (opts.select []).validateAdvisoryIDUniqueness := by
  unfold ValidateOptions.validateAdvisoryIDUniqueness
  have : List.foldl (opts.select S).uniquenessEntryStep (GoMap.empty, []) opts.AdvisoryDocs =
      List.foldl (opts.select []).uniquenessEntryStep (GoMap.empty, []) opts.AdvisoryDocs := by
    apply foldl_congr_mem
    intro e he st
    unfold ValidateOptions.uniquenessEntryStep
    have hn : e.Configuration.Package.Name ∈ S := h e he
    simp only [select_skips_of_mem opts S _ hn, select_nil_skips]
  exact congrArg (fun st => errorsJoin st.2) this

theorem select_modifiedDocumentErr (opts : ValidateOptions) (S : List String)
    (d : DocumentDiffResult) (h : d.Name ∈ S) :
    (opts.select S).modifiedDocumentErr d = (opts.select []).modifiedDocumentErr d := by
  unfold ValidateOptions.modifiedDocumentErr
    ValidateOptions.validateBuildConfigurationOrAPKIndexEntryExistence
  simp only [select_skips_of_mem opts S _ h, select_nil_skips]
  rfl

theorem select_addedDocumentErr (opts : ValidateOptions) (S : List String)
    (d : Document) (h : d.Name ∈ S) :
    (opts.select S).addedDocumentErr d = (opts.select []).addedDocumentErr d := by
  unfold ValidateOptions.addedDocumentErr ValidateOptions.validateBuildConfigurationExistence
  simp only [select_skips_of_mem opts S _ h, select_nil_skips]
  rfl

theorem select_validateIndexDiff (opts : ValidateOptions) (S : List String)
    (diff : IndexDiffResult) (ha : ∀ d ∈ diff.Added, d.Name ∈ S)
    (hr : ∀ d ∈ diff.Removed, d.Name ∈ S) (hm : ∀ d ∈ diff.Modified, d.Name ∈ S) :
    (opts.select S).validateIndexDiff diff = (opts.select []).validateIndexDiff diff := by
  unfold ValidateOptions.validateIndexDiff
  have h1 : diff.Removed.map (fun doc =>
      if (opts.select S).skips doc.Name then none
      else LabelError doc.Name (some (Err.new "document was removed"))) =
      diff.Removed.map (fun doc =>
      if (opts.select []).skips doc.Name then none
      else LabelError doc.Name (some (Err.new "document was removed"))) := by
    apply List.map_congr_left
    intro d hd
    rw [select_skips_of_mem opts S _ (hr d hd), select_nil_skips]
  have h2 : (diff.Modified.filter (fun d => !(opts.select S).skips d.Name)).map
      (opts.select S).modifiedDocumentErr =
      (diff.Modified.filter (fun d => !(opts.select []).skips d.Name)).map
      (opts.select []).modifiedDocumentErr := by
    have hf : diff.Modified.filter (fun d => !(opts.select S).skips d.Name) =
        diff.Modified.filter (fun d => !(opts.select []).skips d.Name) := by
      apply List.filter_congr
      intro d hd
      rw [select_skips_of_mem opts S _ (hm d hd), select_nil_skips]
    rw [hf]
    apply List.map_congr_left
    intro d hd
    exact select_modifiedDocumentErr opts S d (hm d (List.mem_filter.1 hd).1)
  have h3 : (diff.Added.filter (fun d => !(opts.select S).skips d.Name)).map
      (opts.select S).addedDocumentErr =
      (diff.Added.filter (fun d => !(opts.select []).skips d.Name)).map
      (opts.select []).addedDocumentErr := by
    have hf : diff.Added.filter (fun d => !(opts.select S).skips d.Name) =
        diff.Added.filter (fun d => !(opts.select []).skips d.Name) := by
      apply List.filter_congr
      intro d hd
      rw [select_skips_of_mem opts S _ (ha d hd), select_nil_skips]
    rw [hf]
    apply List.map_congr_left
    intro d hd
    exact select_addedDocumentErr opts S d (ha d (List.mem_filter.1 hd).1)
  simp only [h1, h2, h3]

theorem select_fixedDocumentErr (opts : ValidateOptions) (S : List String)
    (d : Document) (h : d.Name ∈ S) :
    (opts.select S).fixedDocumentErr d = (opts.select []).fixedDocumentErr d := by
  unfold ValidateOptions.fixedDocumentErr
  congr 2
  apply List.map_congr_left
  intro adv _
  unfold ValidateOptions.fixedAdvisoryErr
  congr 2
  apply List.flatMap_congr
  intro ie _
  unfold ValidateOptions.fixedEventErrs ValidateOptions.validatePackageVersionExistsInAPKINDEX
  simp only [select_skips_of_mem opts S _ h, select_nil_skips]
  rfl

theorem select_validateFixedVersions (opts : ValidateOptions) (S : List String)
    (h : ∀ e ∈ opts.AdvisoryDocs, e.Configuration.Name ∈ S) :
    (opts.select S).validateFixedVersions = (opts.select []).validateFixedVersions := by
  unfold ValidateOptions.validateFixedVersions
  have hf : ((opts.select S).AdvisoryDocs.map (fun e => e.Configuration)).filter
      (fun doc => !(opts.select S).skips doc.Name) =
      ((opts.select []).AdvisoryDocs.map (fun e => e.Configuration)).filter
      (fun doc => !(opts.select []).skips doc.Name) := by
    show (opts.AdvisoryDocs.map (fun e => e.Configuration)).filter _ =
      (opts.AdvisoryDocs.map (fun e => e.Configuration)).filter _
    apply List.filter_congr
    intro d hd
    rw [List.mem_map] at hd
    obtain ⟨e, he, rfl⟩ := hd
    rw [select_skips_of_mem opts S _ (h e he), select_nil_skips]
  have hm : (((opts.select S).AdvisoryDocs.map (fun e => e.Configuration)).filter
      (fun doc => !(opts.select S).skips doc.Name)).map (opts.select S).fixedDocumentErr =
      (((opts.select []).AdvisoryDocs.map (fun e => e.Configuration)).filter
      (fun doc => !(opts.select []).skips doc.Name)).map (opts.select []).fixedDocumentErr := by
    rw [hf]
    apply List.map_congr_left
    intro d hd
    have hd' := (List.mem_filter.1 hd).1
    rw [List.mem_map] at hd'
    obtain ⟨e, he, rfl⟩ := hd'
    exact select_fixedDocumentErr opts S _ (h e he)
  simp only [hm]
  rfl

theorem select_aliasDocuments (opts : ValidateOptions) (S : List String)
    (finder : AliasFinder) (docs : List Document) (h : ∀ d ∈ docs, d.Name ∈ S) :
    (opts.select S).aliasDocuments finder docs = (opts.select []).aliasDocuments finder docs := by
  induction docs with
  | nil => rfl
  | cons d ds ih =>
    have ih' := ih (fun x hx => h x (List.mem_cons_of_mem _ hx))
    rw [ValidateOptions.aliasDocuments, ValidateOptions.aliasDocuments]
    simp only [select_skips_of_mem opts S _ (h d (List.mem_cons_self _ _)), select_nil_skips, ih']

theorem select_validateAliasSetCompleteness (opts : ValidateOptions) (S : List String)
    (finder : AliasFinder) (h : ∀ e ∈ opts.AdvisoryDocs, e.Configuration.Name ∈ S) :
    (opts.select S).validateAliasSetCompleteness finder =
      (opts.select []).validateAliasSetCompleteness finder := by
  unfold ValidateOptions.validateAliasSetCompleteness ValidateOptions.aliasRun
  have : (opts.select S).aliasDocuments finder
      ((opts.select S).AdvisoryDocs.map (fun e => e.Configuration)) =
      (opts.select []).aliasDocuments finder
      ((opts.select []).AdvisoryDocs.map (fun e => e.Configuration)) := by
    show (opts.select S).aliasDocuments finder (opts.AdvisoryDocs.map (fun e => e.Configuration)) =
      (opts.select []).aliasDocuments finder (opts.AdvisoryDocs.map (fun e => e.Configuration))
    apply select_aliasDocuments
    intro d hd
    rw [List.mem_map] at hd
    obtain ⟨e, he, rfl⟩ := hd
    exact h e he
  rw [this]

/-- C18: let the selection hold every package name that occurs in the current
documents and in the diff (in particular, let it be the set of these names).
Then every selection-aware check gives the same result as with the empty
selection: basic validation of each document, the uniqueness check, the diff
check, the fixed-version check, the alias check, and hence `Validate`. -/
theorem C18_empty_selection_unrestricted (docValidate : Document → Option Err)
    (indexDiff : List Entry → List Entry → IndexDiffResult) (opts : ValidateOptions)
    (S : List String)
    (hdocs : ∀ e ∈ opts.AdvisoryDocs, e.Configuration.Name ∈ S)
    (hdiff : ∀ base, opts.BaseAdvisoryDocs = some base →
      (∀ d ∈ (indexDiff base opts.AdvisoryDocs).Added, d.Name ∈ S) ∧
      (∀ d ∈ (indexDiff base opts.AdvisoryDocs).Removed, d.Name ∈ S) ∧
      (∀ d ∈ (indexDiff base opts.AdvisoryDocs).Modified, d.Name ∈ S)) :
    (∀ e ∈ opts.AdvisoryDocs,
      (opts.select S).validateDocument docValidate e.Configuration =
        (opts.select []).validateDocument docValidate e.Configuration) ∧
    (opts.select S).validateAdvisoryIDUniqueness =
      (opts.select []).validateAdvisoryIDUniqueness ∧
    (∀ base, opts.BaseAdvisoryDocs = some base →
      (opts.select S).withPackageMaps.validateIndexDiff (indexDiff base opts.AdvisoryDocs) =
        (opts.select []).withPackageMaps.validateIndexDiff (indexDiff base opts.AdvisoryDocs)) ∧
    (opts.select S).withPackageMaps.validateFixedVersions =
      (opts.select []).withPackageMaps.validateFixedVersions ∧
    (∀ finder, (opts.select S).validateAliasSetCompleteness finder =
      (opts.select []).validateAliasSetCompleteness finder) ∧
    Validate docValidate indexDiff (opts.select S) =
      Validate docValidate indexDiff (opts.select []) := by
  have hdocs' : ∀ e ∈ opts.withPackageMaps.AdvisoryDocs, e.Configuration.Name ∈ S := hdocs
  have hbasic : ∀ e ∈ opts.AdvisoryDocs,
      (opts.select S).validateDocument docValidate e.Configuration =
        (opts.select []).validateDocument docValidate e.Configuration :=
    fun e he => select_validateDocument opts S docValidate _ (hdocs e he)
  have hbasic' : ∀ e ∈ opts.AdvisoryDocs,
      (opts.select S).withPackageMaps.validateDocument docValidate e.Configuration =
        (opts.select []).withPackageMaps.validateDocument docValidate e.Configuration :=
    fun e he => select_validateDocument opts.withPackageMaps S docValidate _ (hdocs e he)
  have hdiffeq : ∀ base, opts.BaseAdvisoryDocs = some base →
      (opts.select S).withPackageMaps.validateIndexDiff (indexDiff base opts.AdvisoryDocs) =
        (opts.select []).withPackageMaps.validateIndexDiff (indexDiff base opts.AdvisoryDocs) := by
    intro base hb
    obtain ⟨ha, hr, hm⟩ := hdiff base hb
    exact select_validateIndexDiff opts.withPackageMaps S _ ha hr hm
  have hfixed : (opts.select S).withPackageMaps.validateFixedVersions =
      (opts.select []).withPackageMaps.validateFixedVersions :=
    select_validateFixedVersions opts.withPackageMaps S hdocs'
  have halias : ∀ finder, (opts.select S).validateAliasSetCompleteness finder =
      (opts.select []).validateAliasSetCompleteness finder :=
    fun finder => select_validateAliasSetCompleteness opts S finder hdocs
  have halias' : ∀ finder,
      (opts.select S).withPackageMaps.validateAliasSetCompleteness finder =
      (opts.select []).withPackageMaps.validateAliasSetCompleteness finder :=
    fun finder => select_validateAliasSetCompleteness opts.withPackageMaps S finder hdocs'
  have huniq' : (opts.select S).withPackageMaps.validateAdvisoryIDUniqueness =
      (opts.select []).withPackageMaps.validateAdvisoryIDUniqueness :=
    select_validateAdvisoryIDUniqueness opts.withPackageMaps S hdocs'
  refine ⟨hbasic, select_validateAdvisoryIDUniqueness opts S hdocs, hdiffeq, hfixed, halias, ?_⟩
  rw [Validate_eq, Validate_eq]
  have hA : (opts.select S).AdvisoryDocs = opts.AdvisoryDocs := rfl
  have hA0 : (opts.select []).AdvisoryDocs = opts.AdvisoryDocs := rfl
  have hB : (opts.select S).BaseAdvisoryDocs = opts.BaseAdvisoryDocs := rfl
  have hB0 : (opts.select []).BaseAdvisoryDocs = opts.BaseAdvisoryDocs := rfl
  have hI : (opts.select S).APKIndex = opts.APKIndex := rfl
  have hI0 : (opts.select []).APKIndex = opts.APKIndex := rfl
  have hF : (opts.select S).AliasFinder = opts.AliasFinder := rfl
  have hF0 : (opts.select []).AliasFinder = opts.AliasFinder := rfl
  have hN : (opts.select S).withPackageMaps.validateDocumentNameMatchesPackageName =
      (opts.select []).withPackageMaps.validateDocumentNameMatchesPackageName := rfl
  have hmap : opts.AdvisoryDocs.map (fun e =>
      (opts.select S).withPackageMaps.validateDocument docValidate e.Configuration) =
      opts.AdvisoryDocs.map (fun e =>
      (opts.select []).withPackageMaps.validateDocument docValidate e.Configuration) :=
    List.map_congr_left hbasic'
  rw [hA, hA0, hB, hB0, hI, hI0, hF, hF0, hN, hmap, huniq', hfixed]
  cases hb : opts.BaseAdvisoryDocs with
  | none =>
    cases hf : opts.AliasFinder with
    | none => rfl
    | some finder => simp only [halias' finder]
  | some base =>
    simp only [hdiffeq base hb]
    cases hf : opts.AliasFinder with
    | none => rfl
    | some finder => simp only [halias' finder]

/-- C18 on the example: the selection is the set of the package names of the
current documents and of the diff against the empty baseline. -/
theorem C18_empty_selection_unrestricted_witness :
    (∀ e ∈ exSelectOpts.AdvisoryDocs, e.Configuration.Name ∈ ["a"]) ∧
    (∀ base, exSelectOpts.BaseAdvisoryDocs = some base →
      (∀ d ∈ (IndexDiff base exSelectOpts.AdvisoryDocs).Added, d.Name ∈ ["a"]) ∧
      (∀ d ∈ (IndexDiff base exSelectOpts.AdvisoryDocs).Removed, d.Name ∈ ["a"]) ∧
      (∀ d ∈ (IndexDiff base exSelectOpts.AdvisoryDocs).Modified, d.Name ∈ ["a"])) ∧
    Validate (fun _ => none) IndexDiff (exSelectOpts.select ["a"]) =
      Validate (fun _ => none) IndexDiff (exSelectOpts.select []) :=
  have h1 : ∀ e ∈ exSelectOpts.AdvisoryDocs, e.Configuration.Name ∈ ["a"] := by decide
  have h2 : ∀ base, exSelectOpts.BaseAdvisoryDocs = some base →
      (∀ d ∈ (IndexDiff base exSelectOpts.AdvisoryDocs).Added, d.Name ∈ ["a"]) ∧
      (∀ d ∈ (IndexDiff base exSelectOpts.AdvisoryDocs).Removed, d.Name ∈ ["a"]) ∧
      (∀ d ∈ (IndexDiff base exSelectOpts.AdvisoryDocs).Modified, d.Name ∈ ["a"]) := by
    intro base hb
    have hbase : base = [] := (Option.some.inj hb).symm
    subst hbase
    decide
  ⟨h1, h2, (C18_empty_selection_unrestricted (fun _ => none) IndexDiff exSelectOpts ["a"]
    h1 h2).2.2.2.2.2⟩

/-! ## Lint results: properties -/

theorem WrapErrors_eq (e : List EvalRuleError) :
    WrapErrors e = errorsJoin (e.map (fun x => x.Error)) := by
  have h : ∀ (l : List EvalRuleError) (acc : List (Option Err)),
      l.foldl (fun errs e => errs ++ [e.Error]) acc = acc ++ l.map (fun x => x.Error) := by
    intro l
    induction l with
    | nil => intro acc; simp
    | cons x xs ih => intro acc; rw [List.foldl_cons, ih]; simp
  unfold WrapErrors
  simp only [h, List.nil_append]

theorem WrapErrors_eq_none_iff (e : List EvalRuleError) :
    WrapErrors e = none ↔ ∀ x ∈ e, x.Error = none := by
  rw [WrapErrors_eq, errorsJoin_eq_none_iff]
  simp

/-- C19: a lint result has errors exactly when one of its evaluation results
holds a rule error whose `Error` is not nil; `WrapErrors` returns nil exactly
when the list is empty or every `Error` in it is nil, so an evaluation result
whose entries all have a nil `Error` does not count. -/
theorem C19_HasErrors_iff (r : List EvalResult) (e : List EvalRuleError) (file : String) :
    (HasErrors r = true ↔ ∃ res ∈ r, ∃ x ∈ res.Errors, x.Error ≠ none) ∧
    (WrapErrors e = none ↔ e = [] ∨ ∀ x ∈ e, x.Error = none) ∧
    (HasErrors [{ File := file, Errors := e.map (fun x => { x with Error := none }) }] = false) := by
  refine ⟨?_, ?_, ?_⟩
  · induction r with
    | nil => simp [HasErrors]
    | cons res rest ih =>
      unfold HasErrors
      by_cases h : WrapErrors res.Errors = none
      · have hall := (WrapErrors_eq_none_iff _).1 h
        simp only [h, Option.isSome_none, Bool.false_eq_true, if_false, ih, List.mem_cons,
          exists_eq_or_imp]
        constructor
        · exact fun h' => Or.inr h'
        · rintro (⟨x, hx, hne⟩ | h')
          · exact absurd (hall x hx) hne
          · exact h'
      · have hsome : (WrapErrors res.Errors).isSome = true := by
          cases hw : WrapErrors res.Errors with
          | none => exact absurd hw h
          | some _ => rfl
        simp only [hsome, if_true, true_iff]
        rw [WrapErrors_eq_none_iff] at h
        push_neg at h
        obtain ⟨x, hx, hne⟩ := h
        exact ⟨res, List.mem_cons_self _ _, x, hx, hne⟩
  · rw [WrapErrors_eq_none_iff]
    constructor
    · exact fun h => Or.inr h
    · rintro (rfl | h)
      · simp
      · exact h
  · have : WrapErrors (e.map (fun x => { x with Error := none })) = none := by
      rw [WrapErrors_eq_none_iff]
      intro x hx
      rw [List.mem_map] at hx
      obtain ⟨y, -, rfl⟩ := hx
      rfl
    simp [HasErrors, this]

/-! ## Diff engine: properties -/

theorem filter_not_contains_self (l : List String) :
    l.filter (fun n => !l.contains n) = [] := by
  rw [List.filter_eq_nil_iff]
  intro n hn
  simp [hn]

/-- C20: spec-modelled. The diff of a snapshot against itself holds no added,
no removed and no modified document, hence nothing at the level of advisories
or events either: it is zero. -/
theorem C20_IndexDiff_self (S : List Entry) :
    IndexDiff S S = { Added := [], Removed := [], Modified := [] } ∧
    (IndexDiff S S).IsZero = true := by
  have key : ∀ T : List Entry,
      IndexDiff T T = { Added := [], Removed := [], Modified := [] } := by
    intro T
    unfold IndexDiff
    simp only [filter_not_contains_self, List.filterMap_nil]
    congr 1
    rw [List.filterMap_eq_nil_iff]
    intro n _
    cases snapshotDocument T n <;> simp
  exact ⟨key S, by rw [key]; rfl⟩

/-! ## Absent datasets and future timestamps: properties -/

/-- C23: when the build-configuration dataset or the published-package index
is absent, the linkage check of a modified document returns nil for every
package name, with the package maps computed as in `Validate` or not, whether
or not the name is in the dataset that is present; and the diff check then
reports no missing-linkage failure for any modified document. -/
theorem C23_linkage_needs_both_datasets (opts : ValidateOptions) (pkgName : String)
    (diff : IndexDiffResult)
    (h : opts.PackageConfigurations = none ∨ opts.APKIndex = none) :
    opts.validateBuildConfigurationOrAPKIndexEntryExistence pkgName = none ∧
    opts.withPackageMaps.validateBuildConfigurationOrAPKIndexEntryExistence pkgName = none ∧
    (reported (opts.withPackageMaps.validateIndexDiff diff)).filter
      (fun l => l.err.isNew
        "package not found as a build configuration in the distro or as an entry in the APKINDEX")
      = [] := by
  have hany : ∀ (o : ValidateOptions), (o.PackageConfigurations = none ∨ o.APKIndex = none) →
      ∀ n, o.validateBuildConfigurationOrAPKIndexEntryExistence n = none := by
    intro o ho n
    unfold ValidateOptions.validateBuildConfigurationOrAPKIndexEntryExistence
    rcases ho with ho | ho <;> simp [ho]
  have hmaps : opts.withPackageMaps.PackageConfigurations = none ∨
      opts.withPackageMaps.APKIndex = none := h
  refine ⟨hany opts h pkgName, hany _ hmaps pkgName, ?_⟩
  rw [reported_validateIndexDiff,
    filter_under (Err.isNew
      "package not found as a build configuration in the distro or as an entry in the APKINDEX")]
  simp only [List.filter_append, List.filter_flatMap]
  rw [flatMap_nil_of_forall _ _ (fun a => filter_addedDocumentErr_false _ (fun _ => rfl)
        rfl opts.withPackageMaps a),
    filter_map_of_forall _ _ _ false (fun _ => rfl)]
  have hdoc : ∀ d : DocumentDiffResult,
      (reported (opts.withPackageMaps.modifiedDocumentErr d)).filter
        (fun l => l.err.isNew
          "package not found as a build configuration in the distro or as an entry in the APKINDEX")
        = [] := by
    intro d
    rw [reported_modifiedDocumentErr,
      filter_under (Err.isNew
        "package not found as a build configuration in the distro or as an entry in the APKINDEX")]
    simp only [List.filter_append, List.filter_flatMap, hany _ hmaps d.Name]
    rw [flatMap_nil_of_forall _ _ (fun a => filter_modifiedAdvisoryErr_false _ (fun _ => rfl)
        rfl rfl opts.withPackageMaps a),
      flatMap_nil_of_forall _ _ (fun a => filter_addedAdvisoryErr_false _ (fun _ => rfl)
        opts.withPackageMaps a),
      filter_map_of_forall _ _ _ false (fun _ => rfl)]
    rfl
  rw [flatMap_nil_of_forall _ _ hdoc]
  rfl

/-- C23 on two examples: the index is absent and the package foo is not among
the build configurations; the build configurations are absent and foo is not
in the index. -/
theorem C23_linkage_needs_both_datasets_witness :
    exConfigsOnlyOpts.APKIndex = none ∧ "foo" ∉ exConfigsOnlyOpts.configNames ∧
    exConfigsOnlyOpts.withPackageMaps.validateBuildConfigurationOrAPKIndexEntryExistence "foo"
      = none ∧
    exIndexAloneOpts.PackageConfigurations = none ∧ "foo" ∉ exIndexAloneOpts.indexNames ∧
    exIndexAloneOpts.withPackageMaps.validateBuildConfigurationOrAPKIndexEntryExistence "foo"
      = none :=
  ⟨rfl, by decide,
    (C23_linkage_needs_both_datasets exConfigsOnlyOpts "foo" exDiff (Or.inr rfl)).2.1,
    rfl, by decide,
    (C23_linkage_needs_both_datasets exIndexAloneOpts "foo" exDiff (Or.inl rfl)).2.1⟩

/-- C24: an event stamped at the reference time or later, however far in the
future, is recent: the saturated difference `Now.Sub(t)` is not positive, and
`validateRecency` returns nil; so the recency errors collected for a list of
just-added events stamped so join to nil. -/
theorem C24_future_events_are_recent (opts : ValidateOptions) (event : Event)
    (h : opts.Now ≤ event.Timestamp) :
    timeSub opts.Now event.Timestamp ≤ 0 ∧
    opts.isRecent event.Timestamp = true ∧
    opts.validateRecency event = none ∧
    (∀ events : List Event, (∀ e ∈ events, opts.Now ≤ e.Timestamp) →
      errorsJoin (opts.justAddedErrs events) = none) := by
  have hrec : ∀ e : Event, opts.Now ≤ e.Timestamp → opts.isRecent e.Timestamp = true := by
    intro e he
    rw [isRecent_iff]
    unfold hour
    omega
  have hval : ∀ e : Event, opts.Now ≤ e.Timestamp → opts.validateRecency e = none := by
    intro e he
    simp [ValidateOptions.validateRecency, hrec e he]
  refine ⟨?_, hrec event h, hval event h, ?_⟩
  · unfold timeSub maxDuration minDuration
    split_ifs <;> omega
  · intro events hall
    rw [errorsJoin_eq_none_iff]
    intro x hx
    unfold ValidateOptions.justAddedErrs at hx
    rw [List.mem_map] at hx
    obtain ⟨ie, hie, rfl⟩ := hx
    rw [hval ie.2 (hall ie.2 (List.snd_mem_of_mem_enum hie))]
    rfl

/-- C24 on the example: the event lies 10^30 nanoseconds after the reference
time, and the saturated difference is the smallest duration. -/
theorem C24_future_events_are_recent_witness :
    exOpts.Now ≤ exFutureEvent.Timestamp ∧
    timeSub exOpts.Now exFutureEvent.Timestamp = minDuration ∧
    exOpts.validateRecency exFutureEvent = none :=
  ⟨by decide, by decide,
    (C24_future_events_are_recent exOpts exFutureEvent (by decide)).2.2.1⟩

end Wolfictl
